import Mathlib

/-!
avrprog2: the programmer command layer (`src/src/CAvrProgCommands.cpp`).

A shallow embedding of `CAvrProgCommands`.

* Bytes are natural numbers; every store into a `uint8_t` or `uint16_t` is written
  with an explicit `% 256` or `% 65536`.
* A pointer argument (`uint8_t *buffer`) is the list of bytes readable from that address on.
* The USB transport (`CUSBCommunication`: `int_write`, `int_read`, `iso_write`, `iso_read`)
  is an external collaborator.  Every operation the driver performs on it is appended to
  `State.trace`; what the transport hands back to a read is given by a `Device`, a function
  of the operations performed so far.
* C++ exceptions become `Except Error`; the state reached when the exception is thrown is kept.
-/

namespace AvrProg

/-! ## Constants of `CAvrProgCommands.h` -/

/-- Modelled from the spec: the macro `USB_TRANSFER_SIZE` of `CAvrProgCommands.h`, a header that
is not among the sources.  The spec fixes the bulk transfer size to 256. -/
def USB_TRANSFER_SIZE : Nat := 256

/-- Modelled from the spec: the macro `DATA_COMMAND_SIZE` of `CAvrProgCommands.h`.  The spec
fixes the data block size to 256 (and every `data[]` array of the source has 256 entries). -/
def DATA_COMMAND_SIZE : Nat := 256

/-- Modelled from the spec: the macro `EMPTY_FLASH_BYTE` of `CAvrProgCommands.h`.  The spec
gives the flash fill byte as 0xFF (the source comments say "fill it up with 0xff"). -/
def EMPTY_FLASH_BYTE : Nat := 0xff

/-- The remaining macros of `CAvrProgCommands.h`, whose values neither the sources nor the spec
fix: they are parameters of the development. -/
structure Consts where
  /-- Length of a setup command (`int_write(2, setupCommand, SETUP_COMMAND_SIZE)`). -/
  SETUP_COMMAND_SIZE : Nat
  /-- Width of a flash chunk. -/
  FLASH_WRITE_CHUNK_SIZE : Nat
  /-- Width of an EEPROM chunk. -/
  EEPROM_WRITE_CHUNK_SIZE : Nat
  /-- Fill byte of the EEPROM. -/
  EMPTY_EEPROM_BYTE : Nat
  /-- Retry budget of the chunk read poll. -/
  MAX_READ_CYCLES : Nat
  /-- Sleep between two polls, in microseconds. -/
  READ_PAGE_DELAY : Nat
  /-- Number of candidate sockets, and the socket value that asks for detection. -/
  AUTO_DETECT : Nat
  /-- Value of the enumerator `ACTIVATE` of `programmer_action_t`. -/
  ACTIVATE : Nat
  /-- Value of the enumerator `DEACTIVATE` of `programmer_action_t`. -/
  DEACTIVATE : Nat
deriving Repr, DecidableEq

/-- The values used for concrete evaluation: 7-byte setup commands (the length of every
`command[]` array handed to `executeCommands`), 256-byte flash chunks and 64-byte EEPROM chunks
(both stated in the comments of the source), 0xff as EEPROM fill byte, four sockets, 1 and 0
as the action bytes of activation and deactivation. -/
def stdConsts : Consts where
  SETUP_COMMAND_SIZE := 7
  FLASH_WRITE_CHUNK_SIZE := 256
  EEPROM_WRITE_CHUNK_SIZE := 64
  EMPTY_EEPROM_BYTE := 0xff
  MAX_READ_CYCLES := 5
  READ_PAGE_DELAY := 1000
  AUTO_DETECT := 4
  ACTIVATE := 1
  DEACTIVATE := 0

/-! ## Transport, state and the program monad -/

/-- The two exception classes thrown by the driver (their message strings are dropped). -/
inductive Error where
  | CommandException
  | ChecksumException
deriving Repr, DecidableEq

/-- One operation on a collaborator of the driver. -/
inductive Event where
  /-- The call `int_write(ep, data, len)`: `data` is the `len` bytes written. -/
  | int_write (ep : Nat) (data : List Nat)
  /-- The call `iso_write(ep, data, len)`: `data` is the `len` bytes written. -/
  | iso_write (ep : Nat) (data : List Nat)
  /-- The call `int_read(ep, &buffer, &len)` with `len` preset to `maxLen`, answered by `resp`. -/
  | int_read (ep : Nat) (maxLen : Nat) (resp : List Nat)
  /-- The call `iso_read(ep, &buffer, &len)` with `len` preset to `maxLen`, answered by `resp`. -/
  | iso_read (ep : Nat) (maxLen : Nat) (resp : List Nat)
  /-- The call `usleep(us)`. -/
  | usleep (us : Nat)
  /-- Construction of a `CProgressbar` with `total` steps. -/
  | progress_new (total : Nat)
  /-- The call `progressbar.step()`. -/
  | progress_step
deriving Repr, DecidableEq

/-- A recorded invocation of one of the private chunk routines (a ghost log: it has no
counterpart in the program state and nothing reads it). -/
inductive Call where
  /-- The call `writeFlashChunk(code, chunk, pageSize)`; `code` is the chunk, the
  `FLASH_WRITE_CHUNK_SIZE` bytes at the pointer. -/
  | writeFlashChunk (code : List Nat) (chunk : Nat) (pageSize : Nat)
  /-- The call `writeEEPROMChunk(code, address)`; `code` is the chunk, the
  `EEPROM_WRITE_CHUNK_SIZE` bytes at the pointer. -/
  | writeEEPROMChunk (code : List Nat) (address : Nat)
  /-- The call `readMemoryChunk(chunkNumber, mem)`; `flash` tells the memory kind. -/
  | readMemoryChunk (chunkNumber : Nat) (flash : Bool)
deriving Repr, DecidableEq

/-- The transport as seen by the driver: the bytes handed back by a read on endpoint `ep` asking
for at most `maxLen` bytes, after the operations `history`. -/
structure Device where
  /-- Answer to `int_read`. -/
  int_read : (history : List Event) → (ep : Nat) → (maxLen : Nat) → List Nat
  /-- Answer to `iso_read`. -/
  iso_read : (history : List Event) → (ep : Nat) → (maxLen : Nat) → List Nat

/-- The member `continuedWrite` of the session object, with the log of the operations performed
on the collaborators (`trace`, oldest first) and the ghost log of chunk routine calls. -/
structure State where
  /-- The member `continuedWrite`. -/
  continuedWrite : Bool
  /-- Operations on transport and progress sink so far, oldest first. -/
  trace : List Event
  /-- Chunk routine invocations so far, oldest first. -/
  calls : List Call
deriving Repr, DecidableEq

/-- A method of the driver: run against a transport from a state, it ends in a state with a
value or a thrown exception. -/
def Prog (α : Type) : Type := Device → State → Except Error α × State

/-- Return a value. -/
def Prog.pure {α : Type} (a : α) : Prog α := fun _ s => (Except.ok a, s)

/-- Sequencing: a thrown exception skips the rest. -/
def Prog.bind {α β : Type} (m : Prog α) (f : α → Prog β) : Prog β := fun dev s =>
  match m dev s with
  | (Except.ok a, s1) => f a dev s1
  | (Except.error e, s1) => (Except.error e, s1)

instance : Monad Prog where
  pure := Prog.pure
  bind := Prog.bind

/-- The statement `throw e`. -/
def throwErr {α : Type} (e : Error) : Prog α := fun _ s => (Except.error e, s)

/-- Append an operation to the trace. -/
def emit (e : Event) : Prog Unit := fun _ s => (Except.ok (), { s with trace := s.trace ++ [e] })

/-- Append an invocation to the ghost call log. -/
def logCall (c : Call) : Prog Unit := fun _ s => (Except.ok (), { s with calls := s.calls ++ [c] })

/-- The call `int_write(ep, data, len)`: `len` bytes at `data` go to the control channel. -/
def int_write (ep : Nat) (data : List Nat) (len : Nat) : Prog Unit :=
  emit (Event.int_write ep (data.take len))

/-- The call `iso_write(ep, data, len)`: `len` bytes at `data` go to the bulk channel. -/
def iso_write (ep : Nat) (data : List Nat) (len : Nat) : Prog Unit :=
  emit (Event.iso_write ep (data.take len))

/-- The call `int_read(ep, &buffer, &len)` with `len` preset to `maxLen`: the result is the
received buffer, whose length is the `len` the transport stores back. -/
def int_read (ep : Nat) (maxLen : Nat) : Prog (List Nat) := fun dev s =>
  let resp := dev.int_read s.trace ep maxLen
  (Except.ok resp, { s with trace := s.trace ++ [Event.int_read ep maxLen resp] })

/-- The call `iso_read(ep, &buffer, &len)` with `len` preset to `maxLen`. -/
def iso_read (ep : Nat) (maxLen : Nat) : Prog (List Nat) := fun dev s =>
  let resp := dev.iso_read s.trace ep maxLen
  (Except.ok resp, { s with trace := s.trace ++ [Event.iso_read ep maxLen resp] })

/-- Read the member `continuedWrite`. -/
def getContinuedWrite : Prog Bool := fun _ s => (Except.ok s.continuedWrite, s)

/-- Assign the member `continuedWrite`. -/
def setContinuedWrite (b : Bool) : Prog Unit := fun _ s =>
  (Except.ok (), { s with continuedWrite := b })

/-! ## The driver -/

/-- `CAvrProgCommands::checksum`: a `uint16_t` accumulator, to which every byte of
`buffer[0 .. size)` is added in turn. -/
def checksum (buffer : List Nat) (size : Nat) : Nat :=
  (List.range size).foldl (fun checksum i => (checksum + buffer.getD i 0) % 65536) 0

/-- `CAvrProgCommands::isEmptyChunk`: true when no byte of `buffer[0 .. size)` differs from
`EMPTY_FLASH_BYTE` (the loop leaves at the first byte that differs). -/
def isEmptyChunk (buffer : List Nat) (size : Nat) : Bool :=
  (List.range size).all (fun i => buffer.getD i 0 == EMPTY_FLASH_BYTE)

/-- `CAvrProgCommands::setExtendedAddress`: command `0b 01`, acknowledged by the byte 0x00. -/
def setExtendedAddress : Prog Unit := do
  let command := [0x0b, 0x01]
  int_write 2 command 2
  let buffer ← int_read 2 1
  if buffer.length ≠ 1 then
    throwErr Error.CommandException
  else if buffer.getD 0 0 ≠ 0x00 then
    throwErr Error.CommandException
  else
    pure ()

/-- `CAvrProgCommands::delayMs`: command `0e ms` (`ms` is a `uint8_t`), acknowledged by the
byte 0x01. -/
def delayMs (ms : Nat) : Prog Unit := do
  let command := [0x0e, ms % 256]
  int_write 2 command 2
  let buffer ← int_read 2 1
  if buffer.length ≠ 1 then
    throwErr Error.CommandException
  else if buffer.getD 0 0 ≠ 0x01 then
    throwErr Error.CommandException
  else
    pure ()

/-- `CAvrProgCommands::executeCommands`: setup command, data block, execute frame, one
acknowledgement (`numOfCommands` is a `uint8_t` parameter). -/
def executeCommands (k : Consts) (setupCommand : List Nat) (numOfCommands : Nat)
    (data : List Nat) : Prog Unit := do
  let cs := checksum data DATA_COMMAND_SIZE
  let command := [0x03, numOfCommands % 256, cs % 256, cs / 256 % 256]
  int_write 2 setupCommand k.SETUP_COMMAND_SIZE
  iso_write 3 data DATA_COMMAND_SIZE
  int_write 2 command 4
  let buffer ← int_read 2 1
  if buffer.length ≠ 1 then
    throwErr Error.CommandException
  else if buffer.getD 0 0 = 0x81 then
    throwErr Error.ChecksumException
  else if buffer.getD 0 0 ≠ 0x00 then
    throwErr Error.ChecksumException
  else
    pure ()

/-- `CAvrProgCommands::writeFlashChunk`.  Byte 3 of `command[]` is initialised to 0x01 and
cleared when `chunk == 0 || continuedWrite == false`. -/
def writeFlashChunk (k : Consts) (code : List Nat) (chunk pageSize : Nat) : Prog Unit := do
  logCall (Call.writeFlashChunk (code.take k.FLASH_WRITE_CHUNK_SIZE) chunk pageSize)
  if chunk ≠ 512 ∧ isEmptyChunk code k.FLASH_WRITE_CHUNK_SIZE = true then
    setContinuedWrite false
  else
    let cs := checksum code k.FLASH_WRITE_CHUNK_SIZE
    let continuedWrite ← getContinuedWrite
    let command := [0x07, cs % 256, cs / 256 % 256,
      if chunk = 0 ∨ continuedWrite = false then 0 else 0x01,
      0x00, chunk % 256, chunk / 256 % 256, pageSize % 256, pageSize / 256 % 256,
      0x00, 0x01, 0x05]
    setContinuedWrite true
    iso_write 3 code USB_TRANSFER_SIZE
    if chunk = 512 then
      setExtendedAddress
    int_write 2 command 12
    let buffer ← int_read 2 1
    if buffer.length ≠ 1 then
      throwErr Error.CommandException
    else if buffer.getD 0 0 ≠ 0x00 then
      throwErr Error.CommandException
    else
      pure ()

/-- `CAvrProgCommands::writeEEPROMChunk`.  The local array `chunk[USB_TRANSFER_SIZE]` is not
initialised: `uninit` is what it holds on entry, and `memcpy` overwrites its first
`EEPROM_WRITE_CHUNK_SIZE` bytes. -/
def writeEEPROMChunk (k : Consts) (uninit : List Nat) (code : List Nat) (address : Nat) :
    Prog Unit := do
  logCall (Call.writeEEPROMChunk (code.take k.EEPROM_WRITE_CHUNK_SIZE) address)
  let chunk := code.take k.EEPROM_WRITE_CHUNK_SIZE ++ uninit.drop k.EEPROM_WRITE_CHUNK_SIZE
  let cs := checksum chunk USB_TRANSFER_SIZE
  let command := [0x09, cs % 256, cs / 256 % 256, address % 256, address / 256 % 256,
    k.EEPROM_WRITE_CHUNK_SIZE % 256, 0x00, 0x09]
  iso_write 3 chunk USB_TRANSFER_SIZE
  int_write 2 command 8
  let buffer ← int_read 2 1
  if buffer.length ≠ 1 then
    throwErr Error.CommandException
  else if buffer.getD 0 0 ≠ 0x00 then
    throwErr Error.CommandException
  else
    pure ()

/-- The loop `for (chunk = 0; chunk < numOfChunks; chunk++)` of `writeFlash`, with `n` rounds
left to run from index `chunk`. -/
def writeFlash_loop (k : Consts) (buffer : List Nat) (pageSize : Nat) : Nat → Nat → Prog Unit
  | 0, _ => pure ()
  | n + 1, chunk => do
    writeFlashChunk k (buffer.drop (chunk * k.FLASH_WRITE_CHUNK_SIZE)) chunk pageSize
    emit Event.progress_step
    writeFlash_loop k buffer pageSize n (chunk + 1)

/-- `CAvrProgCommands::writeFlash`.  `lastChunk` is the result of the `memcpy` of
`sizeOfLastChunk` bytes followed by the `memset` of the rest of the array. -/
def writeFlash (k : Consts) (buffer : List Nat) (size pageSize : Nat) : Prog Unit := do
  delayMs 0x14
  let numOfChunks := size / k.FLASH_WRITE_CHUNK_SIZE
  let sizeOfLastChunk := size - k.FLASH_WRITE_CHUNK_SIZE * numOfChunks
  let lastChunk := (buffer.drop (k.FLASH_WRITE_CHUNK_SIZE * numOfChunks)).take sizeOfLastChunk
    ++ List.replicate (k.FLASH_WRITE_CHUNK_SIZE - sizeOfLastChunk) EMPTY_FLASH_BYTE
  emit (Event.progress_new (numOfChunks + 1))
  writeFlash_loop k buffer pageSize numOfChunks 0
  writeFlashChunk k lastChunk numOfChunks pageSize
  emit Event.progress_step
  delayMs 0x14

/-- The enumeration `memory_t` that selects the memory a read addresses. -/
inductive memory_t where
  | FLASH
  | EEPROM
deriving Repr, DecidableEq

/-- The loop `for (chunk = 0; chunk < numOfChunks; chunk++)` of `writeEEPROM`, with `n` rounds
left to run from index `chunk`; `uninit chunk` is what the transfer buffer of
`writeEEPROMChunk` holds on entry of the call for that index. -/
def writeEEPROM_loop (k : Consts) (uninit : Nat → List Nat) (buffer : List Nat) :
    Nat → Nat → Prog Unit
  | 0, _ => pure ()
  | n + 1, chunk => do
    writeEEPROMChunk k (uninit chunk) (buffer.drop (chunk * k.EEPROM_WRITE_CHUNK_SIZE))
      (chunk * k.EEPROM_WRITE_CHUNK_SIZE)
    emit Event.progress_step
    writeEEPROM_loop k uninit buffer n (chunk + 1)

/-- `CAvrProgCommands::writeEEPROM`.  `lastChunk` is the result of the `memcpy` of
`sizeOfLastChunk` bytes followed by the `memset` of the rest of the array. -/
def writeEEPROM (k : Consts) (uninit : Nat → List Nat) (buffer : List Nat) (size : Nat) :
    Prog Unit := do
  delayMs 0x14
  let numOfChunks := size / k.EEPROM_WRITE_CHUNK_SIZE
  let sizeOfLastChunk := size - k.EEPROM_WRITE_CHUNK_SIZE * numOfChunks
  let lastChunk := (buffer.drop (k.EEPROM_WRITE_CHUNK_SIZE * numOfChunks)).take sizeOfLastChunk
    ++ List.replicate (k.EEPROM_WRITE_CHUNK_SIZE - sizeOfLastChunk) k.EMPTY_EEPROM_BYTE
  emit (Event.progress_new (numOfChunks + 1))
  writeEEPROM_loop k uninit buffer numOfChunks 0
  writeEEPROMChunk k (uninit numOfChunks) lastChunk (numOfChunks * k.EEPROM_WRITE_CHUNK_SIZE)
  emit Event.progress_step
  delayMs 0x14

/-- The array `command[]` of `readFuses` (and of `getDeviceSignature`, which has the same). -/
def readFuses_command : List Nat := [0x02, 0x03, 0x00, 0x01, 0x00, 0x00, 0x00]

/-- The array `data[]` of `readFuses`: 12 command bytes, then zero bytes up to 256. -/
def readFuses_data : List Nat :=
  [0x58, 0x00, 0x00, 0x50, 0x00, 0x00, 0x58, 0x08, 0x00, 0x50, 0x08, 0x00]
    ++ List.replicate 244 0x00

/-- `CAvrProgCommands::readFuses`: `fuses` is the copy of `size` bytes from `buffer + 1`. -/
def readFuses (k : Consts) (size : Nat) : Prog (List Nat) := do
  delayMs 0x14
  executeCommands k readFuses_command (size + 1) readFuses_data
  let buffer ← iso_read 3 256
  if buffer.length ≠ size + 1 then
    throwErr Error.CommandException
  else if buffer.getD 0 0 ≠ 0xff then
    throwErr Error.CommandException
  else
    pure ((buffer.drop 1).take size)

/-- The C function `memcpy(dest + offset, src, n)` on an array `dest`. -/
def memcpy (dest : List Nat) (offset : Nat) (src : List Nat) (n : Nat) : List Nat :=
  dest.take offset ++ src.take n ++ dest.drop (offset + n)

/-- The polling loop `do { ... } while (count != 0)` of `readMemoryChunk`, entered with the
counter at `count`; it hands back the last response and the counter on leaving the loop.
Entered at 0 the C loop would go on counting down through the negative numbers after a short
response; that case lies outside this definition, which leaves the loop with the counter at 0
(an entry at 0 only happens for `MAX_READ_CYCLES = 0`). -/
def readMemoryChunk_poll (k : Consts) : Nat → Prog (List Nat × Nat)
  | 0 => do
    emit (Event.usleep k.READ_PAGE_DELAY)
    let buffer ← iso_read 3 256
    pure (buffer, 0)
  | count + 1 => do
    emit (Event.usleep k.READ_PAGE_DELAY)
    let buffer ← iso_read 3 256
    if buffer.length = USB_TRANSFER_SIZE then
      pure (buffer, count + 1)
    else if count ≠ 0 then
      readMemoryChunk_poll k count
    else
      pure (buffer, 0)

/-- `CAvrProgCommands::readMemoryChunk` (the debugging output is left out). -/
def readMemoryChunk (k : Consts) (chunkNumber : Nat) (mem : memory_t) : Prog (List Nat) := do
  logCall (Call.readMemoryChunk chunkNumber (decide (mem = memory_t.FLASH)))
  let command := match mem with
    | memory_t.FLASH => [0x08, 0x00, chunkNumber % 256, chunkNumber / 256 % 256,
        chunkNumber / 65536 % 256, 0x01]
    | memory_t.EEPROM => [0x0a, 0x00, chunkNumber % 256, chunkNumber / 256 % 256, 0x01]
  let commandSize := match mem with
    | memory_t.FLASH => 6
    | memory_t.EEPROM => 5
  if chunkNumber = 512 then
    setExtendedAddress
  int_write 2 command commandSize
  let polled ← readMemoryChunk_poll k k.MAX_READ_CYCLES
  if polled.2 = 0 then
    throwErr Error.CommandException
  else
    pure polled.1

/-- The loop `for (int chunk = 0; chunk < numOfChunks; chunk++)` of `readMemory`, with `n`
rounds left to run from index `chunk` on the result array `buffer`. -/
def readMemory_loop (k : Consts) (mem : memory_t) : Nat → Nat → List Nat → Prog (List Nat)
  | 0, _, buffer => pure buffer
  | n + 1, chunk, buffer => do
    let chunkBuffer ← readMemoryChunk k chunk mem
    let buffer := memcpy buffer (chunk * USB_TRANSFER_SIZE) chunkBuffer USB_TRANSFER_SIZE
    emit Event.progress_step
    readMemory_loop k mem n (chunk + 1) buffer

/-- `CAvrProgCommands::readMemory`.  The array obtained from `new uint8_t[size]` is not
initialised: `fresh i` is what its byte `i` holds. -/
def readMemory (k : Consts) (fresh : Nat → Nat) (size : Nat) (mem : memory_t) :
    Prog (List Nat) := do
  let size := if size % USB_TRANSFER_SIZE ≠ 0
    then size + (USB_TRANSFER_SIZE - size % USB_TRANSFER_SIZE) else size
  let buffer := (List.range size).map fresh
  let numOfChunks := size / USB_TRANSFER_SIZE
  emit (Event.progress_new numOfChunks)
  readMemory_loop k mem numOfChunks 0 buffer

/-- The array `data[]` of `getDeviceSignature`: 9 command bytes, then zero bytes up to 256. -/
def getDeviceSignature_data : List Nat :=
  [0x30, 0x00, 0x00, 0x30, 0x00, 0x01, 0x30, 0x00, 0x02] ++ List.replicate 247 0x00

/-- `CAvrProgCommands::getDeviceSignature`; the result is a `uint32_t`. -/
def getDeviceSignature (k : Consts) : Prog Nat := do
  executeCommands k [0x02, 0x03, 0x00, 0x01, 0x00, 0x00, 0x00] 3 getDeviceSignature_data
  let buffer ← iso_read 3 256
  if buffer.length ≠ 3 then
    throwErr Error.CommandException
  else
    pure ((buffer.getD 0 0 <<< 16 ||| buffer.getD 1 0 <<< 8 ||| buffer.getD 2 0 <<< 0)
      % 4294967296)

/-- The array `command[]` of `detectDevice`. -/
def detectDevice_command : List Nat := [0x02, 0x02, 0x00, 0x02, 0x00, 0x00, 0x00]

/-- The array `data[]` of `detectDevice`: `ac 53`, then zero bytes up to 256. -/
def detectDevice_data : List Nat := [0xac, 0x53] ++ List.replicate 254 0x00

/-- `CAvrProgCommands::detectDevice`. -/
def detectDevice (k : Consts) (reportError : Bool) : Prog Bool := do
  executeCommands k detectDevice_command 1 detectDevice_data
  let buffer ← iso_read 3 256
  if buffer.length ≠ 2 then
    if reportError = true then pure false
    else throwErr Error.CommandException
  else if buffer.getD 0 0 ≠ 0x53 then
    if reportError = true then pure false
    else throwErr Error.CommandException
  else
    pure true

/-- `CAvrProgCommands::selectSocket`: the command is written and nothing is read back. -/
def selectSocket (socket : Nat) : Prog Unit := do
  let command := [0x04, socket % 256]
  int_write 2 command 2

/-- `CAvrProgCommands::programmer`; `action` is the value of the enumerator passed. -/
def programmer (action : Nat) : Prog Unit := do
  let command := [0x01, action % 256]
  int_write 2 command 2
  let buffer ← int_read 2 1
  if buffer.length ≠ 1 then
    throwErr Error.CommandException
  else if buffer.getD 0 0 ≠ 0x00 then
    throwErr Error.CommandException
  else
    pure ()

/-- `CAvrProgCommands::trySocket`. -/
def trySocket (k : Consts) (socket : Nat) : Prog Bool := do
  selectSocket socket
  programmer k.ACTIVATE
  let found ← detectDevice k true
  programmer k.DEACTIVATE
  pure found

/-- The loop `for (s=0; s<AUTO_DETECT; s++)` of `connect`, with `n = AUTO_DETECT - s` rounds
ahead; the result is the pair of `s` and `socket` on leaving the loop.  The counter is a
`uint8_t`, which the model follows as long as `AUTO_DETECT` is at most 255. -/
def connect_loop (k : Consts) : Nat → Nat → Nat → Prog (Nat × Nat)
  | 0, s, socket => pure (s, socket)
  | n + 1, s, socket => do
    let found ← trySocket k s
    if found = true then
      pure (s, s)
    else
      connect_loop k n (s + 1) socket

/-- `CAvrProgCommands::connect`. -/
def connect (k : Consts) (socket : Nat) : Prog Unit := do
  let socket ← (if socket = k.AUTO_DETECT then do
      let r ← connect_loop k k.AUTO_DETECT 0 socket
      if r.1 = k.AUTO_DETECT then
        throwErr Error.CommandException
      else
        pure r.2
    else
      pure socket)
  selectSocket socket
  programmer k.ACTIVATE
  let _ ← detectDevice k false
  pure ()

/-- `CAvrProgCommands::~CAvrProgCommands`, the destructor of the session. -/
def CAvrProgCommands_destructor (k : Consts) : Prog Unit :=
  programmer k.DEACTIVATE

/-- `CAvrProgCommands::setProgrammingSpeed`.  The parameter `formula` stands for the
floating-point expression `round(97.83 * pow((double)frequency/1000000.0, -1.52))` converted
to `int`; the model fixes nothing about its values here (`speedFormula` below is the
expression in exact arithmetic). -/
def setProgrammingSpeed (formula : Int → Int) (frequency : Int) : Prog Unit := do
  let frequency := if frequency < 0x100 then frequency else formula frequency
  let frequency := if frequency < 1 then 1 else frequency
  let frequency := if frequency > 0xff then 0xff else frequency
  let command := [0x05, (frequency % 256).toNat]
  int_write 2 command 2
  let buffer ← int_read 2 1
  if buffer.length ≠ 1 then
    throwErr Error.CommandException
  else if buffer.getD 0 0 ≠ 0x00 then
    throwErr Error.CommandException
  else
    pure ()

/-- One step of the search behind `speedFormula`: whether `n - 1/2` is at most
`97.83 * (frequency / 1000000) ^ (-1.52)`, for `n >= 1` and a positive frequency.  With
`1.52 = 38/25` this is the comparison of `((2 n - 1) * 100) ^ 25 * frequency ^ 38` with
`(2 * 9783) ^ 25 * (10 ^ 6) ^ 38`, which are integers. -/
def speedFormula_reaches (frequency n : Nat) : Bool :=
  decide (((2 * n - 1) * 100) ^ 25 * frequency ^ 38 ≤ 19566 ^ 25 * 10 ^ 228)

/-- The search behind `speedFormula`: counting up from `n`, the last number that
`speedFormula_reaches` accepts, `fuel` bounding the number of steps. -/
def speedFormula_search (frequency : Nat) : Nat → Nat → Nat
  | 0, n => n
  | fuel + 1, n =>
    if speedFormula_reaches frequency (n + 1) = true then
      speedFormula_search frequency fuel (n + 1)
    else
      n

/-- The expression `round(97.83 * pow((double)frequency/1000000.0, -1.52))` of
`setProgrammingSpeed`, evaluated in exact arithmetic instead of `double`: the largest `n` with
`n - 1/2 <= 97.83 * (frequency / 1000000) ^ (-1.52)`, which is what `round` gives for a
positive value.  `setProgrammingSpeed` evaluates the expression for `frequency >= 256` only,
where its value is below 28180411 and the 2 ^ 25 steps allowed to the search are not
exhausted. -/
def speedFormula (frequency : Int) : Int :=
  (speedFormula_search frequency.toNat (2 ^ 25) 0 : Nat)

/-- The array `command[]` of `writeFuses`. -/
def writeFuses_command : List Nat := [0x02, 0x04, 0x00, 0x00, 0x00, 0x09, 0x00]

/-- The array `data[]` of `writeFuses` as it is initialised: three fuse sub-commands with
default fuse bytes, then zero bytes up to 256. -/
def writeFuses_data : List Nat :=
  [0xac, 0xa0, 0x00, 0xe1, 0xac, 0xa8, 0x00, 0x99, 0xac, 0xa4, 0x00, 0xfd]
    ++ List.replicate 244 0x00

/-- `CAvrProgCommands::writeFuses`; the three fuse parameters are `uint8_t`. -/
def writeFuses (k : Consts) (lfuse hfuse efuse numOfFuses : Nat) : Prog Unit := do
  let data := writeFuses_data
  let data := data.set 3 (lfuse % 256)
  let data := data.set 7 (hfuse % 256)
  let data := data.set 11 (efuse % 256)
  executeCommands k writeFuses_command numOfFuses data

/-- The array `command[]` of `chipErase`. -/
def chipErase_command : List Nat := [0x02, 0x04, 0x00, 0x00, 0x00, 0x00, 0x00]

/-- The array `data[]` of `chipErase`: `ac 80`, then zero bytes up to 256. -/
def chipErase_data : List Nat := [0xac, 0x80] ++ List.replicate 254 0x00

/-- `CAvrProgCommands::chipErase`. -/
def chipErase (k : Consts) : Prog Unit := do
  delayMs 0x14
  executeCommands k chipErase_command 4 chipErase_data
  delayMs 0x14

/-! ## Observations on runs -/

/-- A state with empty logs in which `continuedWrite` is false, the value the constructor
gives it. -/
def State.init : State := { continuedWrite := false, trace := [], calls := [] }

/-- The operations a run added to the trace of the state `s` it started from. -/
def newEvents {α : Type} (s : State) (r : Except Error α × State) : List Event :=
  r.2.trace.drop s.trace.length

/-- The invocations a run added to the call log of the state `s` it started from. -/
def newCalls {α : Type} (s : State) (r : Except Error α × State) : List Call :=
  r.2.calls.drop s.calls.length

/-- The verdict on an acknowledgement that has to be the single byte `v`. -/
def ackResult (ack : List Nat) (v : Nat) : Except Error Unit :=
  if ack = [v] then Except.ok () else Except.error Error.CommandException

/-- The array `command[]` of `writeFlashChunk` as it stands when it is written, for a session
whose member `continuedWrite` holds `continuedWrite` on entry. -/
def flashFrame (k : Consts) (code : List Nat) (chunk pageSize : Nat) (continuedWrite : Bool) :
    List Nat :=
  [0x07, checksum code k.FLASH_WRITE_CHUNK_SIZE % 256,
    checksum code k.FLASH_WRITE_CHUNK_SIZE / 256 % 256,
    if chunk = 0 ∨ continuedWrite = false then 0 else 0x01,
    0x00, chunk % 256, chunk / 256 % 256, pageSize % 256, pageSize / 256 % 256,
    0x00, 0x01, 0x05]

/-- The 16-bit value a frame carries in its bytes `lo` (low half) and `hi` (high half). -/
def frameChecksum (frame : List Nat) (lo hi : Nat) : Nat :=
  frame.getD lo 0 + 256 * frame.getD hi 0

/-- The last command written on the control channel, the trace being given newest first. -/
def lastCommand : List Event → List Nat
  | [] => []
  | Event.int_write _ data :: _ => data
  | _ :: rest => lastCommand rest

/-- A transport whose acknowledgements are all successes: the byte 0x01 after a delay command
(opcode 0x0e), the byte 0x00 after any other command; nothing on the bulk channel. -/
def okDevice : Device where
  int_read := fun history _ _ =>
    if (lastCommand history.reverse).head? = some 0x0e then [0x01] else [0x00]
  iso_read := fun _ _ _ => []

/-- Every acknowledgement of the transport is a success: the byte 0x01 after a delay command,
the byte 0x00 after any other command. -/
def AcksOk (dev : Device) : Prop :=
  ∀ history ep maxLen, dev.int_read history ep maxLen = okDevice.int_read history ep maxLen

/-- The chunk index of a recorded call of `writeFlashChunk`. -/
def flashCallIndex : Call → Option Nat
  | Call.writeFlashChunk _ chunk _ => some chunk
  | _ => none

/-- A transport that answers every control read with the bytes `ack`. -/
def constDevice (ack : List Nat) : Device where
  int_read := fun _ _ _ => ack
  iso_read := fun _ _ _ => []

/-- A transport whose acknowledgements are all successes and whose every bulk read hands
back the bytes `resp`. -/
def respDevice (resp : List Nat) : Device where
  int_read := okDevice.int_read
  iso_read := fun _ _ _ => resp

/-- The number of bulk reads among the operations `evs`. -/
def bulkReads : List Event → Nat
  | [] => 0
  | Event.iso_read _ _ _ :: rest => bulkReads rest + 1
  | _ :: rest => bulkReads rest

/-- The state in which `readMemory_loop`, started at index `c` in the state `s`, begins its
round number `j` (counted from 0), as long as the chunk reads before it returned. -/
def readMemory_stateAt (k : Consts) (mem : memory_t) (dev : Device) : Nat → State → Nat → State
  | _, s, 0 => s
  | c, s, j + 1 => readMemory_stateAt k mem dev (c + 1)
      (emit Event.progress_step dev (readMemoryChunk k c mem dev s).2).2 j

/-- What the call of `readMemoryChunk` in round `j` of `readMemory_loop`, started at index `c`
in the state `s`, results in. -/
def readMemory_chunkAt (k : Consts) (mem : memory_t) (dev : Device) (c : Nat) (s : State)
    (j : Nat) : Except Error (List Nat) :=
  (readMemoryChunk k (c + j) mem dev (readMemory_stateAt k mem dev c s j)).1

/-- The array `command` of `readMemoryChunk` as it stands when it is written. -/
def readCommand (mem : memory_t) (chunkNumber : Nat) : List Nat :=
  match mem with
  | memory_t.FLASH => [0x08, 0x00, chunkNumber % 256, chunkNumber / 256 % 256,
      chunkNumber / 65536 % 256, 0x01]
  | memory_t.EEPROM => [0x0a, 0x00, chunkNumber % 256, chunkNumber / 256 % 256, 0x01]

/-- The part of `readMemoryChunk` that follows the write of the read command: the polling
loop and the test of the counter. -/
def readMemoryChunk_tail (k : Consts) : Prog (List Nat) := do
  let polled ← readMemoryChunk_poll k k.MAX_READ_CYCLES
  if polled.2 = 0 then
    throwErr Error.CommandException
  else
    pure polled.1

/-- The probe exchange of `detectDevice` when its acknowledgement is a success: setup
command, data block, execute frame `03 01 ff 00`, acknowledgement 0x00. -/
def detectExchange (k : Consts) : List Event :=
  [Event.int_write 2 (detectDevice_command.take k.SETUP_COMMAND_SIZE),
    Event.iso_write 3 detectDevice_data,
    Event.int_write 2 [0x03, 0x01, 0xff, 0x00],
    Event.int_read 2 1 [0x00]]

/-- The bulk response that `detectDevice` takes for a device: two bytes, the first 0x53. -/
def isPresence (resp : List Nat) : Bool :=
  decide (resp.length = 2 ∧ resp.getD 0 0 = 0x53)

/-- Whether `writeFlashChunk` transmits the chunk `code` of index `chunk`: it does unless the
guard `chunk != 512 && isEmptyChunk(code, FLASH_WRITE_CHUNK_SIZE)` holds. -/
def flashTransmitted (k : Consts) (code : List Nat) (chunk : Nat) : Bool :=
  decide (¬ (chunk ≠ 512 ∧ isEmptyChunk code k.FLASH_WRITE_CHUNK_SIZE = true))

/-- The operations of `writeFlashChunk` when every acknowledgement is a success, for a session
whose member `continuedWrite` holds `continuedWrite` on entry. -/
def flashChunkEvents (k : Consts) (code : List Nat) (chunk pageSize : Nat)
    (continuedWrite : Bool) : List Event :=
  if flashTransmitted k code chunk = true then
    Event.iso_write 3 (code.take 256)
      :: ((if chunk = 512 then [Event.int_write 2 [0x0b, 0x01], Event.int_read 2 1 [0x00]]
          else [])
        ++ [Event.int_write 2 (flashFrame k code chunk pageSize continuedWrite),
          Event.int_read 2 1 [0x00]])
  else []

/-- The execute frames of flash writes among the operations `evs`: the commands written on
the control channel whose first byte is 0x07, oldest first. -/
def flashFrames : List Event → List (List Nat)
  | [] => []
  | Event.int_write _ data :: rest =>
    if data.head? = some 0x07 then data :: flashFrames rest else flashFrames rest
  | _ :: rest => flashFrames rest

/-- The array `writeFlash` hands to `writeFlashChunk` as chunk `i`: the buffer from offset
`i * FLASH_WRITE_CHUNK_SIZE` on for a full chunk, the padded `lastChunk` for the last one. -/
def writeFlash_chunkAt (k : Consts) (buffer : List Nat) (size i : Nat) : List Nat :=
  if i < size / k.FLASH_WRITE_CHUNK_SIZE then
    buffer.drop (i * k.FLASH_WRITE_CHUNK_SIZE)
  else
    (buffer.drop (k.FLASH_WRITE_CHUNK_SIZE * (size / k.FLASH_WRITE_CHUNK_SIZE))).take
        (size - k.FLASH_WRITE_CHUNK_SIZE * (size / k.FLASH_WRITE_CHUNK_SIZE))
      ++ List.replicate (k.FLASH_WRITE_CHUNK_SIZE
        - (size - k.FLASH_WRITE_CHUNK_SIZE * (size / k.FLASH_WRITE_CHUNK_SIZE))) EMPTY_FLASH_BYTE

/-- The socket chosen by the last selection command (`04 socket`) in the history `history`,
the history being given newest first; socket 0 when there is none. -/
def selectedSocket_scan : List Event → Nat
  | [] => 0
  | Event.int_write _ data :: rest =>
    if data.head? = some 0x04 then data.getD 1 0 else selectedSocket_scan rest
  | _ :: rest => selectedSocket_scan rest

/-- The socket chosen by the last selection command in the history `history`. -/
def selectedSocket (history : List Event) : Nat :=
  selectedSocket_scan history.reverse

/-- The commands written on the control channel among the operations `evs`, oldest first. -/
def controlWrites : List Event → List (List Nat)
  | [] => []
  | Event.int_write _ data :: rest => data :: controlWrites rest
  | _ :: rest => controlWrites rest

/-- The commands of one acknowledged probe of the socket `socket` by `trySocket`: selection,
activation, setup command and execute frame of the detection, deactivation. -/
def probeWrites (k : Consts) (socket : Nat) : List (List Nat) :=
  [[0x04, socket], [0x01, k.ACTIVATE % 256], detectDevice_command.take k.SETUP_COMMAND_SIZE,
    [0x03, 0x01, 0xff, 0x00], [0x01, k.DEACTIVATE % 256]]

/-- The commands of the probes of the `n` sockets `c, c + 1, ...` in turn. -/
def scanWrites (k : Consts) : Nat → Nat → List (List Nat)
  | 0, _ => []
  | n + 1, c => probeWrites k c ++ scanWrites k n (c + 1)

/-- A transport whose acknowledgements are all successes and whose bulk channel reports a
device (`53 00`) exactly while a socket `i` with `present i` is selected. -/
def socketDevice (present : Nat → Bool) : Device where
  int_read := okDevice.int_read
  iso_read := fun history _ _ =>
    if present (selectedSocket history) = true then [0x53, 0x00] else []

/-- A transport that answers every control read with the bytes `ack` and every bulk read
with the bytes `resp`. -/
def fixedDevice (ack resp : List Nat) : Device where
  int_read := fun _ _ _ => ack
  iso_read := fun _ _ _ => resp

/-- A transport whose acknowledgements are all successes and whose bulk channel hands back an
empty response as long as fewer than `m` bulk reads have been made, the bytes `resp` from
then on. -/
def lateDevice (m : Nat) (resp : List Nat) : Device where
  int_read := okDevice.int_read
  iso_read := fun history _ _ => if bulkReads history < m then [] else resp

/-- The value `n` is within 0.55 of `97.83 * (frequency / 1000000) ^ (-1.52)`: it is what
rounding gives for some value that differs from the exact one by less than 0.05.  The two
bounds are compared through their powers 25, which are integers. -/
def nearSpeedFormula (frequency n : Int) : Prop :=
  (100 * n - 55) ^ 25 * frequency ^ 38 < 9783 ^ 25 * 10 ^ 228
    ∧ 9783 ^ 25 * 10 ^ 228 < (100 * n + 55) ^ 25 * frequency ^ 38

/-! ## Theorems -/

set_option maxRecDepth 8000

/-- One step of the accumulator loop keeps the running sum modulo 65536. -/
theorem checksum_fold (buffer : List Nat) (l : List Nat) (acc : Nat) :
    l.foldl (fun checksum i => (checksum + buffer.getD i 0) % 65536) (acc % 65536)
      = (acc + (l.map (fun i => buffer.getD i 0)).sum) % 65536 := by
  induction l generalizing acc with
  | nil => simp
  | cons i l ih =>
    simp only [List.foldl_cons, List.map_cons, List.sum_cons]
    rw [Nat.mod_add_mod, ih, Nat.add_assoc]

/-- Reading the indices `0 .. size` of a buffer with default 0 sums to the sum of its first
`size` bytes. -/
theorem sum_getD_range (buffer : List Nat) (size : Nat) :
    ((List.range size).map (fun i => buffer.getD i 0)).sum = (buffer.take size).sum := by
  induction buffer generalizing size with
  | nil => simp
  | cons b bs ih =>
    cases size with
    | zero => simp
    | succ n =>
      rw [List.range_succ_eq_map, List.map_cons, List.map_map, List.take_succ_cons]
      simp only [List.sum_cons, List.getD_cons_zero]
      congr 1
      rw [← ih n]
      rfl

/-- The accumulator loop computes the sum of the first `size` bytes modulo 65536. -/
theorem checksum_eq_take_sum (buffer : List Nat) (size : Nat) :
    checksum buffer size = (buffer.take size).sum % 65536 := by
  have h := checksum_fold buffer (List.range size) 0
  simp only [Nat.zero_mod, Nat.zero_add] at h
  rw [checksum, h, sum_getD_range]

/-- Claim C1. For every buffer and size, `checksum` is the sum of the first `size` bytes of the
buffer modulo 65536, and it is 0 for size 0. -/
theorem checksum_eq_sum_mod (buffer : List Nat) (size : Nat) :
    checksum buffer size = (buffer.take size).sum % 65536 ∧ checksum buffer 0 = 0 := by
  constructor
  · have h := checksum_fold buffer (List.range size) 0
    simp only [Nat.zero_mod, Nat.zero_add] at h
    rw [checksum, h, sum_getD_range]
  · rfl

/-- Running a sequence: the first part, then the rest from the state it reached. -/
theorem bind_run {α β : Type} (m : Prog α) (f : α → Prog β) (dev : Device) (s : State) :
    (m >>= f) dev s = match m dev s with
      | (Except.ok a, s1) => f a dev s1
      | (Except.error e, s1) => (Except.error e, s1) := rfl

/-- Running `pure`. -/
theorem pure_run {α : Type} (a : α) (dev : Device) (s : State) :
    (pure a : Prog α) dev s = (Except.ok a, s) := rfl

/-- Running a conditional. -/
theorem ite_run {α : Type} (c : Prop) [Decidable c] (a b : Prog α) (dev : Device) (s : State) :
    (if c then a else b) dev s = if c then a dev s else b dev s := by
  split_ifs <;> rfl

/-- Running `throw`. -/
theorem throwErr_run {α : Type} (e : Error) (dev : Device) (s : State) :
    (throwErr e : Prog α) dev s = (Except.error e, s) := rfl

/-- The checksum fits 16 bits. -/
theorem checksum_lt (buffer : List Nat) (size : Nat) : checksum buffer size < 65536 := by
  have h := checksum_fold buffer (List.range size) 0
  simp only [Nat.zero_mod, Nat.zero_add] at h
  rw [checksum, h]
  exact Nat.mod_lt _ (by norm_num)

/-- The high byte of the checksum needs no truncation. -/
theorem checksum_hi (buffer : List Nat) (size : Nat) :
    checksum buffer size / 256 % 256 = checksum buffer size / 256 := by
  have h := checksum_lt buffer size
  omega

/-- An acknowledgement has length 1 and value `v` exactly when it is the list `[v]`. -/
theorem ack_eq_iff (ack : List Nat) (v : Nat) :
    (ack.length = 1 ∧ ack.getD 0 0 = v) ↔ ack = [v] := by
  constructor
  · rintro ⟨h1, h2⟩
    match ack, h1, h2 with
    | [a], _, h2 => simpa using h2
  · rintro rfl
    simp

/-- What `executeCommands` does: four operations on the transport, then the classification of
the acknowledgement. -/
theorem executeCommands_run (k : Consts) (setupCommand data : List Nat) (n : Nat) (dev : Device)
    (s : State) :
    executeCommands k setupCommand n data dev s =
      let sent := [Event.int_write 2 (setupCommand.take k.SETUP_COMMAND_SIZE),
        Event.iso_write 3 (data.take 256),
        Event.int_write 2 [0x03, n % 256, checksum data 256 % 256, checksum data 256 / 256]]
      let ack := dev.int_read (s.trace ++ sent) 2 1
      (if ack.length ≠ 1 then Except.error Error.CommandException
        else if ack.getD 0 0 = 0x81 then Except.error Error.ChecksumException
        else if ack.getD 0 0 ≠ 0x00 then Except.error Error.ChecksumException
        else Except.ok (),
       { s with trace := s.trace ++ sent ++ [Event.int_read 2 1 ack] }) := by
  simp only [executeCommands, bind_run, int_write, iso_write, emit, int_read, throwErr_run,
    pure_run, ite_run, DATA_COMMAND_SIZE, checksum_hi, List.append_assoc, List.cons_append,
    List.nil_append, List.take_succ_cons, List.take_zero]
  split_ifs <;> rfl

/-- The two-step test of an acknowledgement (length, then value) against the byte `v`. -/
theorem ack_check (ack : List Nat) (v : Nat) :
    (if ack.length ≠ 1 then Except.error Error.CommandException
      else if ack.getD 0 0 ≠ v then Except.error Error.CommandException
      else Except.ok ()) = ackResult ack v := by
  have h := ack_eq_iff ack v
  unfold ackResult
  split_ifs <;> simp_all

/-- The two-step test of an acknowledgement, as the end of a run. -/
theorem ack_check_run (ack : List Nat) (v : Nat) (s : State) :
    (if ack.length ≠ 1 then (Except.error Error.CommandException, s)
      else if ack.getD 0 0 ≠ v then (Except.error Error.CommandException, s)
      else (Except.ok (), s)) = (ackResult ack v, s) := by
  rw [← ack_check]
  split_ifs <;> rfl

/-- What `setExtendedAddress` does. -/
theorem setExtendedAddress_run (dev : Device) (s : State) :
    setExtendedAddress dev s =
      (ackResult (dev.int_read (s.trace ++ [Event.int_write 2 [0x0b, 0x01]]) 2 1) 0,
       { s with trace := s.trace ++ [Event.int_write 2 [0x0b, 0x01],
          Event.int_read 2 1 (dev.int_read (s.trace ++ [Event.int_write 2 [0x0b, 0x01]]) 2 1)] }) := by
  simp only [setExtendedAddress, bind_run, int_write, emit, int_read, throwErr_run,
    pure_run, ite_run, List.append_assoc, List.cons_append,
    List.nil_append, List.take_succ_cons, List.take_zero, ack_check_run]

/-- What `delayMs` does. -/
theorem delayMs_run (ms : Nat) (dev : Device) (s : State) :
    delayMs ms dev s =
      (ackResult (dev.int_read (s.trace ++ [Event.int_write 2 [0x0e, ms % 256]]) 2 1) 1,
       { s with trace := s.trace ++ [Event.int_write 2 [0x0e, ms % 256],
          Event.int_read 2 1 (dev.int_read (s.trace ++ [Event.int_write 2 [0x0e, ms % 256]]) 2 1)] }) := by
  simp only [delayMs, bind_run, int_write, emit, int_read, throwErr_run,
    pure_run, ite_run, List.append_assoc, List.cons_append,
    List.nil_append, List.take_succ_cons, List.take_zero, ack_check_run]

/-- The operations added by a run whose final trace extends the initial one by `evs`. -/
theorem newEvents_eq {α : Type} (s : State) (r : Except Error α × State) (evs : List Event)
    (h : r.2.trace = s.trace ++ evs) : newEvents s r = evs := by
  rw [newEvents, h, List.drop_left]

/-- The calls added by a run whose final call log extends the initial one by `cs`. -/
theorem newCalls_eq {α : Type} (s : State) (r : Except Error α × State) (cs : List Call)
    (h : r.2.calls = s.calls ++ cs) : newCalls s r = cs := by
  rw [newCalls, h, List.drop_left]

/-- What `writeFlashChunk` does, case by case. -/
theorem writeFlashChunk_run (k : Consts) (code : List Nat) (chunk pageSize : Nat) (dev : Device)
    (s : State) :
    writeFlashChunk k code chunk pageSize dev s =
      let calls := s.calls ++ [Call.writeFlashChunk (code.take k.FLASH_WRITE_CHUNK_SIZE) chunk pageSize]
      if chunk ≠ 512 ∧ isEmptyChunk code k.FLASH_WRITE_CHUNK_SIZE = true then
        (Except.ok (), { continuedWrite := false, trace := s.trace, calls := calls })
      else
        let frame := flashFrame k code chunk pageSize s.continuedWrite
        let t1 := s.trace ++ [Event.iso_write 3 (code.take 256)]
        if chunk = 512 then
          let a1 := dev.int_read (t1 ++ [Event.int_write 2 [0x0b, 0x01]]) 2 1
          let t2 := t1 ++ [Event.int_write 2 [0x0b, 0x01], Event.int_read 2 1 a1]
          if a1 = [0] then
            let a := dev.int_read (t2 ++ [Event.int_write 2 frame]) 2 1;
            (ackResult a 0,
              { continuedWrite := true,
                trace := t2 ++ [Event.int_write 2 frame, Event.int_read 2 1 a],
                calls := calls })
          else
            (Except.error Error.CommandException,
              { continuedWrite := true, trace := t2, calls := calls })
        else
          let a := dev.int_read (t1 ++ [Event.int_write 2 frame]) 2 1;
          (ackResult a 0,
            { continuedWrite := true,
              trace := t1 ++ [Event.int_write 2 frame, Event.int_read 2 1 a],
              calls := calls }) := by
  simp only [writeFlashChunk, bind_run, logCall, setContinuedWrite, getContinuedWrite, ite_run,
    pure_run, iso_write, int_write, emit, int_read, setExtendedAddress_run, throwErr_run,
    USB_TRANSFER_SIZE, flashFrame, List.append_assoc, List.cons_append, List.nil_append,
    List.take_succ_cons, List.take_zero, ack_check_run]
  by_cases h1 : chunk ≠ 512 ∧ isEmptyChunk code k.FLASH_WRITE_CHUNK_SIZE = true
  · simp only [if_pos h1]
  · simp only [if_neg h1]
    by_cases h2 : chunk = 512
    · simp only [if_pos h2]
      by_cases h3 : dev.int_read (s.trace ++ [Event.iso_write 3 (List.take 256 code),
          Event.int_write 2 [0x0b, 0x01]]) 2 1 = [0]
      · simp only [if_pos h3, ackResult, if_true, List.append_assoc, List.cons_append,
          List.nil_append]
      · simp only [if_neg h3, ackResult, if_false]
    · simp only [if_neg h2]

/-- The operations `writeFlashChunk` performs, case by case. -/
theorem writeFlashChunk_events (k : Consts) (code : List Nat) (chunk pageSize : Nat)
    (dev : Device) (s : State) :
    newEvents s (writeFlashChunk k code chunk pageSize dev s) =
      if chunk ≠ 512 ∧ isEmptyChunk code k.FLASH_WRITE_CHUNK_SIZE = true then []
      else
        let frame := flashFrame k code chunk pageSize s.continuedWrite
        let t1 := s.trace ++ [Event.iso_write 3 (code.take 256)]
        if chunk = 512 then
          let a1 := dev.int_read (t1 ++ [Event.int_write 2 [0x0b, 0x01]]) 2 1
          let t2 := t1 ++ [Event.int_write 2 [0x0b, 0x01], Event.int_read 2 1 a1]
          Event.iso_write 3 (code.take 256) :: Event.int_write 2 [0x0b, 0x01]
            :: Event.int_read 2 1 a1 ::
            (if a1 = [0] then [Event.int_write 2 frame,
                Event.int_read 2 1 (dev.int_read (t2 ++ [Event.int_write 2 frame]) 2 1)]
              else [])
        else
          [Event.iso_write 3 (code.take 256), Event.int_write 2 frame,
            Event.int_read 2 1 (dev.int_read (t1 ++ [Event.int_write 2 frame]) 2 1)] := by
  apply newEvents_eq
  rw [writeFlashChunk_run]
  simp only
  split_ifs <;> simp

/-- `isEmptyChunk` holds exactly when the first `size` bytes are `size` fill bytes. -/
theorem isEmptyChunk_iff (buffer : List Nat) (size : Nat) :
    isEmptyChunk buffer size = true ↔
      buffer.take size = List.replicate size EMPTY_FLASH_BYTE := by
  unfold isEmptyChunk
  rw [List.all_eq_true]
  constructor
  · intro h
    have hlen : size ≤ buffer.length := by
      by_contra hlt
      push_neg at hlt
      have h1 := h buffer.length (List.mem_range.mpr hlt)
      rw [List.getD_eq_default _ _ (le_refl _)] at h1
      simp [EMPTY_FLASH_BYTE] at h1
    apply List.ext_getElem
    · simp [hlen]
    · intro n h1 h2
      have hn : n < size := by simpa using h2
      have h3 := h n (List.mem_range.mpr hn)
      rw [List.getD_eq_getElem _ _ (by omega)] at h3
      simpa using h3
  · intro h x hx
    have hx1 := List.mem_range.mp hx
    have hlen : size ≤ buffer.length := by
      have := congrArg List.length h
      simp at this
      exact this
    have h4 : (buffer.take size)[x]? = buffer[x]? := List.getElem?_take_of_lt hx1
    rw [List.getD_eq_getElem?_getD, ← h4, h]
    simp [hx1]

/-- Claim C2, at the acknowledgement `[0x01]`: `executeCommands` throws `ChecksumException`
for a single acknowledgement byte that is neither 0x00 nor the mismatch marker 0x81 (the last
branch of the classification throws the class of the branch above it). -/
theorem executeCommands_ack_01_checksumException :
    (executeCommands stdConsts [0x02, 0x02, 0x00, 0x02, 0x00, 0x00, 0x00] 1
      (0xac :: 0x53 :: List.replicate 254 0) (constDevice [0x01]) State.init).1
      = Except.error Error.ChecksumException := by
  rfl

/-- Claim C3. For every setup header, sub-command count `n` (a byte) and 256-byte data block,
`executeCommands` performs exactly four operations on the transport, whatever the
acknowledgement is: the setup header on the control channel, the data block on the bulk
channel, the execute frame `[0x03, n, c mod 256, c div 256]` with `c` the checksum of the data
block, and one read of a 1-byte acknowledgement. -/
theorem executeCommands_transport_sequence (k : Consts) (setupCommand data : List Nat) (n : Nat)
    (dev : Device) (s : State)
    (hs : setupCommand.length = k.SETUP_COMMAND_SIZE) (hd : data.length = 256) (hn : n < 256) :
    ∃ ack, newEvents s (executeCommands k setupCommand n data dev s) =
      [Event.int_write 2 setupCommand, Event.iso_write 3 data,
       Event.int_write 2 [0x03, n, checksum data 256 % 256, checksum data 256 / 256],
       Event.int_read 2 1 ack] := by
  refine ⟨dev.int_read (s.trace ++ [Event.int_write 2 setupCommand, Event.iso_write 3 data,
    Event.int_write 2 [0x03, n, checksum data 256 % 256, checksum data 256 / 256]]) 2 1,
    newEvents_eq _ _ _ ?_⟩
  rw [executeCommands_run]
  simp only [List.take_of_length_le (le_of_eq hs), List.take_of_length_le (le_of_eq hd),
    Nat.mod_eq_of_lt hn, List.append_assoc, List.cons_append, List.nil_append]

/-- Claim C3 on the chip erase exchange (sub-command count 4, data block `ac 80` and 254 zero
bytes, checksum 0x012c). -/
theorem executeCommands_transport_sequence_witness :
    ([0x02, 0x04, 0x00, 0x00, 0x00, 0x00, 0x00].length = stdConsts.SETUP_COMMAND_SIZE
      ∧ (0xac :: 0x80 :: List.replicate 254 0).length = 256 ∧ 4 < 256)
    ∧ ∃ ack, newEvents State.init (executeCommands stdConsts
        [0x02, 0x04, 0x00, 0x00, 0x00, 0x00, 0x00] 4 (0xac :: 0x80 :: List.replicate 254 0)
        okDevice State.init) =
      [Event.int_write 2 [0x02, 0x04, 0x00, 0x00, 0x00, 0x00, 0x00],
       Event.iso_write 3 (0xac :: 0x80 :: List.replicate 254 0),
       Event.int_write 2 [0x03, 4, checksum (0xac :: 0x80 :: List.replicate 254 0) 256 % 256,
        checksum (0xac :: 0x80 :: List.replicate 254 0) 256 / 256],
       Event.int_read 2 1 ack] :=
  ⟨⟨rfl, rfl, by decide⟩,
    executeCommands_transport_sequence stdConsts [0x02, 0x04, 0x00, 0x00, 0x00, 0x00, 0x00]
      (0xac :: 0x80 :: List.replicate 254 0) 4 okDevice State.init rfl rfl (by decide)⟩

/-- Claim C7. For every chunk made of fill bytes only and every chunk index other than 512,
`writeFlashChunk` returns without error, performs no operation on the transport and leaves
`continuedWrite` false. -/
theorem writeFlashChunk_skips_fill_chunk (k : Consts) (code : List Nat) (chunk pageSize : Nat)
    (dev : Device) (s : State) (hchunk : chunk ≠ 512)
    (hfill : code.take k.FLASH_WRITE_CHUNK_SIZE
      = List.replicate k.FLASH_WRITE_CHUNK_SIZE EMPTY_FLASH_BYTE) :
    (writeFlashChunk k code chunk pageSize dev s).1 = Except.ok ()
    ∧ (writeFlashChunk k code chunk pageSize dev s).2.trace = s.trace
    ∧ (writeFlashChunk k code chunk pageSize dev s).2.continuedWrite = false := by
  rw [writeFlashChunk_run]
  simp only [if_pos (And.intro hchunk ((isEmptyChunk_iff _ _).mpr hfill)), and_self]

/-- Claim C7 on a chunk of 256 bytes 0xff at index 3, in a session whose last write was a
transmitted chunk. -/
theorem writeFlashChunk_skips_fill_chunk_witness :
    (3 ≠ 512 ∧ (List.replicate 256 0xff).take stdConsts.FLASH_WRITE_CHUNK_SIZE
      = List.replicate stdConsts.FLASH_WRITE_CHUNK_SIZE EMPTY_FLASH_BYTE)
    ∧ (writeFlashChunk stdConsts (List.replicate 256 0xff) 3 128 okDevice
        { continuedWrite := true, trace := [], calls := [] }).1 = Except.ok ()
    ∧ (writeFlashChunk stdConsts (List.replicate 256 0xff) 3 128 okDevice
        { continuedWrite := true, trace := [], calls := [] }).2.trace = []
    ∧ (writeFlashChunk stdConsts (List.replicate 256 0xff) 3 128 okDevice
        { continuedWrite := true, trace := [], calls := [] }).2.continuedWrite = false :=
  ⟨⟨by decide, rfl⟩,
    writeFlashChunk_skips_fill_chunk stdConsts (List.replicate 256 0xff) 3 128 okDevice
      { continuedWrite := true, trace := [], calls := [] } (by decide) rfl⟩

/-- Claim C8, at a chunk of 256 bytes 0x01 written at index 512 with every acknowledgement a
success: the chunk goes out on the bulk channel as the first operation and the extended-address
command `0b 01` follows it, so the command is not issued before the chunk is sent. -/
theorem writeFlashChunk_512_bulk_write_precedes_ext :
    (newEvents State.init (writeFlashChunk stdConsts (List.replicate 256 0x01) 512 128
        okDevice State.init)).indexOf (Event.iso_write 3 (List.replicate 256 0x01)) = 0
    ∧ (newEvents State.init (writeFlashChunk stdConsts (List.replicate 256 0x01) 512 128
        okDevice State.init)).indexOf (Event.int_write 2 [0x0b, 0x01]) = 1
    ∧ ¬ ((newEvents State.init (writeFlashChunk stdConsts (List.replicate 256 0x01) 512 128
        okDevice State.init)).indexOf (Event.int_write 2 [0x0b, 0x01])
      < (newEvents State.init (writeFlashChunk stdConsts (List.replicate 256 0x01) 512 128
        okDevice State.init)).indexOf (Event.iso_write 3 (List.replicate 256 0x01))) := by
  decide

/-- Claim C8, amended. For every chunk content (a chunk of fill bytes included),
`writeFlashChunk` with chunk index 512 first sends the chunk on the bulk channel, then issues
the extended-address command `[0x0b, 0x01]` and reads its acknowledgement; whatever follows
(the execute frame and its acknowledgement, when the command was acknowledged by 0x00) comes
after these three operations. -/
theorem writeFlashChunk_512_ext_after_bulk_write (k : Consts) (code : List Nat) (pageSize : Nat)
    (dev : Device) (s : State) :
    ∃ a1 rest, newEvents s (writeFlashChunk k code 512 pageSize dev s) =
      Event.iso_write 3 (code.take 256) :: Event.int_write 2 [0x0b, 0x01]
        :: Event.int_read 2 1 a1 :: rest
      ∧ (rest = [] ∨ ∃ frame a, rest = [Event.int_write 2 frame, Event.int_read 2 1 a]) := by
  rw [writeFlashChunk_events]
  simp only [ne_eq, not_true_eq_false, false_and, if_false, if_true]
  refine ⟨_, _, rfl, ?_⟩
  split_ifs
  · exact Or.inr ⟨_, _, rfl⟩
  · exact Or.inl rfl

/-- Claim C9. For every chunk content, `writeFlashChunk` with chunk index 512 issues the
extended-address command (the frame `[0x0b, 0x01]` and the read of its 1-byte acknowledgement)
right after the bulk write; the run either stops there (the command was not acknowledged by
0x00) or goes on with the write of the 12-byte execute frame as the very next operation.  For
every index other than 512 no extended-address command is issued. -/
theorem writeFlashChunk_ext_immediately_before_frame (k : Consts) (code : List Nat)
    (chunk pageSize : Nat) (dev : Device) (s : State) :
    (chunk = 512 → ∃ a1,
      (a1 ≠ [0] ∧ newEvents s (writeFlashChunk k code chunk pageSize dev s) =
        [Event.iso_write 3 (code.take 256), Event.int_write 2 [0x0b, 0x01],
          Event.int_read 2 1 a1])
      ∨ (a1 = [0] ∧ ∃ a, newEvents s (writeFlashChunk k code chunk pageSize dev s) =
        [Event.iso_write 3 (code.take 256), Event.int_write 2 [0x0b, 0x01],
          Event.int_read 2 1 a1,
          Event.int_write 2 (flashFrame k code chunk pageSize s.continuedWrite),
          Event.int_read 2 1 a]))
    ∧ (chunk ≠ 512 →
        Event.int_write 2 [0x0b, 0x01] ∉ newEvents s (writeFlashChunk k code chunk pageSize dev s))
    ∧ (flashFrame k code chunk pageSize s.continuedWrite).length = 12
    ∧ (flashFrame k code chunk pageSize s.continuedWrite).head? = some 0x07 := by
  refine ⟨?_, ?_, rfl, rfl⟩
  · intro h512
    subst h512
    rw [writeFlashChunk_events]
    simp only [ne_eq, not_true_eq_false, false_and, if_false, if_true]
    refine ⟨dev.int_read (s.trace ++ [Event.iso_write 3 (code.take 256)]
      ++ [Event.int_write 2 [0x0b, 0x01]]) 2 1, ?_⟩
    split_ifs with h3
    · exact Or.inr ⟨h3, _, rfl⟩
    · exact Or.inl ⟨h3, rfl⟩
  · intro hne
    rw [writeFlashChunk_events]
    simp only [if_neg hne]
    split_ifs <;> simp [flashFrame]

/-- Claim C9 on a chunk of 256 bytes 0x01 written at index 512. -/
theorem writeFlashChunk_ext_immediately_before_frame_witness :
    ∃ a1,
      (a1 ≠ [0] ∧ newEvents State.init (writeFlashChunk stdConsts (List.replicate 256 0x01) 512
          128 okDevice State.init) =
        [Event.iso_write 3 ((List.replicate 256 0x01).take 256), Event.int_write 2 [0x0b, 0x01],
          Event.int_read 2 1 a1])
      ∨ (a1 = [0] ∧ ∃ a, newEvents State.init (writeFlashChunk stdConsts
          (List.replicate 256 0x01) 512 128 okDevice State.init) =
        [Event.iso_write 3 ((List.replicate 256 0x01).take 256), Event.int_write 2 [0x0b, 0x01],
          Event.int_read 2 1 a1,
          Event.int_write 2 (flashFrame stdConsts (List.replicate 256 0x01) 512 128
            State.init.continuedWrite),
          Event.int_read 2 1 a]) :=
  (writeFlashChunk_ext_immediately_before_frame stdConsts (List.replicate 256 0x01) 512 128
    okDevice State.init).1 rfl

/-- Claim C10. For every transmitted flash chunk (one that is not a chunk of fill bytes at an
index other than 512), with `c` the checksum of the chunk, `chunk` its index and `pageSize` the
page size, the only frames `writeFlashChunk` writes on the control channel are the
extended-address command and the 12 bytes `[0x07, c mod 256, c div 256, f, 0x00, chunk mod 256,
(chunk div 256) mod 256, pageSize mod 256, (pageSize div 256) mod 256, 0x00, 0x01, 0x05]`,
where `f` is 0 when `chunk = 0` or `continuedWrite` is false on entry and 1 otherwise; that
frame is written unless the extended-address command of chunk 512 is not acknowledged by
0x00. -/
theorem writeFlashChunk_execute_frame (k : Consts) (code : List Nat) (chunk pageSize : Nat)
    (dev : Device) (s : State)
    (htx : ¬ (chunk ≠ 512 ∧ code.take k.FLASH_WRITE_CHUNK_SIZE
      = List.replicate k.FLASH_WRITE_CHUNK_SIZE EMPTY_FLASH_BYTE)) :
    (∀ frame, Event.int_write 2 frame ∈ newEvents s (writeFlashChunk k code chunk pageSize dev s)
      → frame ≠ [0x0b, 0x01]
      → frame = [0x07, checksum code k.FLASH_WRITE_CHUNK_SIZE % 256,
          checksum code k.FLASH_WRITE_CHUNK_SIZE / 256,
          if chunk = 0 ∨ s.continuedWrite = false then 0 else 1,
          0x00, chunk % 256, chunk / 256 % 256, pageSize % 256, pageSize / 256 % 256,
          0x00, 0x01, 0x05])
    ∧ ((chunk = 512 → dev.int_read (s.trace ++ [Event.iso_write 3 (code.take 256),
          Event.int_write 2 [0x0b, 0x01]]) 2 1 = [0])
      → Event.int_write 2 [0x07, checksum code k.FLASH_WRITE_CHUNK_SIZE % 256,
          checksum code k.FLASH_WRITE_CHUNK_SIZE / 256,
          if chunk = 0 ∨ s.continuedWrite = false then 0 else 1,
          0x00, chunk % 256, chunk / 256 % 256, pageSize % 256, pageSize / 256 % 256,
          0x00, 0x01, 0x05] ∈ newEvents s (writeFlashChunk k code chunk pageSize dev s)) := by
  rw [← isEmptyChunk_iff] at htx
  rw [writeFlashChunk_events, if_neg htx]
  simp only [flashFrame, checksum_hi, List.append_assoc, List.cons_append, List.nil_append]
  constructor
  · intro frame hmem hne
    split_ifs at hmem <;> simp_all
  · intro hext
    split_ifs <;> simp_all

/-- Claim C10 on chunk 3 (256 bytes 0x01, checksum 0x0100), page size 128, in a session
whose last write was a transmitted chunk: the continuation flag is 1. -/
theorem writeFlashChunk_execute_frame_witness :
    ¬ (3 ≠ 512 ∧ (List.replicate 256 0x01).take stdConsts.FLASH_WRITE_CHUNK_SIZE
      = List.replicate stdConsts.FLASH_WRITE_CHUNK_SIZE EMPTY_FLASH_BYTE)
    ∧ Event.int_write 2 [0x07, 0x00, 0x01, 1, 0x00, 3, 0, 128, 0, 0x00, 0x01, 0x05]
      ∈ newEvents { continuedWrite := true, trace := [], calls := [] }
        (writeFlashChunk stdConsts (List.replicate 256 0x01) 3 128 okDevice
          { continuedWrite := true, trace := [], calls := [] }) :=
  ⟨by decide,
    (writeFlashChunk_execute_frame stdConsts (List.replicate 256 0x01) 3 128 okDevice
      { continuedWrite := true, trace := [], calls := [] } (by decide)).2 (by decide)⟩

/-- What `writeEEPROMChunk` does. -/
theorem writeEEPROMChunk_run (k : Consts) (uninit code : List Nat) (address : Nat)
    (dev : Device) (s : State) :
    writeEEPROMChunk k uninit code address dev s =
      let chunk := code.take k.EEPROM_WRITE_CHUNK_SIZE ++ uninit.drop k.EEPROM_WRITE_CHUNK_SIZE
      let sent := [Event.iso_write 3 (chunk.take 256),
        Event.int_write 2 [0x09, checksum chunk 256 % 256, checksum chunk 256 / 256,
          address % 256, address / 256 % 256, k.EEPROM_WRITE_CHUNK_SIZE % 256, 0x00, 0x09]]
      let a := dev.int_read (s.trace ++ sent) 2 1
      (ackResult a 0,
        { continuedWrite := s.continuedWrite,
          trace := s.trace ++ sent ++ [Event.int_read 2 1 a],
          calls := s.calls ++
            [Call.writeEEPROMChunk (code.take k.EEPROM_WRITE_CHUNK_SIZE) address] }) := by
  simp only [writeEEPROMChunk, bind_run, logCall, ite_run,
    pure_run, iso_write, int_write, emit, int_read, throwErr_run,
    USB_TRANSFER_SIZE, checksum_hi, List.append_assoc, List.cons_append, List.nil_append,
    List.take_succ_cons, List.take_zero, ack_check_run]

/-- A checksum split in two bytes is recovered by `frameChecksum`. -/
theorem checksum_halves (buffer : List Nat) (size : Nat) :
    frameChecksum [checksum buffer size % 256, checksum buffer size / 256] 0 1
      = (buffer.take size).sum % 65536 := by
  have h := checksum_eq_take_sum buffer size
  simp only [frameChecksum, List.getD_cons_succ, List.getD_cons_zero]
  omega

/-- The operations `executeCommands` performs. -/
theorem executeCommands_events (k : Consts) (setupCommand data : List Nat) (n : Nat)
    (dev : Device) (s : State) :
    newEvents s (executeCommands k setupCommand n data dev s) =
      [Event.int_write 2 (setupCommand.take k.SETUP_COMMAND_SIZE),
        Event.iso_write 3 (data.take 256),
        Event.int_write 2 [0x03, n % 256, checksum data 256 % 256, checksum data 256 / 256],
        Event.int_read 2 1 (dev.int_read (s.trace ++
          [Event.int_write 2 (setupCommand.take k.SETUP_COMMAND_SIZE),
            Event.iso_write 3 (data.take 256),
            Event.int_write 2 [0x03, n % 256, checksum data 256 % 256, checksum data 256 / 256]])
          2 1)] := by
  apply newEvents_eq
  rw [executeCommands_run]
  simp only [List.append_assoc, List.cons_append, List.nil_append]

/-- The operations `writeEEPROMChunk` performs. -/
theorem writeEEPROMChunk_events (k : Consts) (uninit code : List Nat) (address : Nat)
    (dev : Device) (s : State) :
    ∃ a, newEvents s (writeEEPROMChunk k uninit code address dev s) =
      [Event.iso_write 3
          ((code.take k.EEPROM_WRITE_CHUNK_SIZE ++ uninit.drop k.EEPROM_WRITE_CHUNK_SIZE).take 256),
        Event.int_write 2 [0x09,
          checksum (code.take k.EEPROM_WRITE_CHUNK_SIZE
            ++ uninit.drop k.EEPROM_WRITE_CHUNK_SIZE) 256 % 256,
          checksum (code.take k.EEPROM_WRITE_CHUNK_SIZE
            ++ uninit.drop k.EEPROM_WRITE_CHUNK_SIZE) 256 / 256,
          address % 256, address / 256 % 256, k.EEPROM_WRITE_CHUNK_SIZE % 256, 0x00, 0x09],
        Event.int_read 2 1 a] := by
  rw [newEvents, writeEEPROMChunk_run]
  simp only [List.append_assoc, List.cons_append, List.nil_append, List.drop_left]
  exact ⟨_, rfl⟩

/-- Claim C4. In every exchange that carries a data block, the 16-bit checksum embedded in the
command frame is the sum modulo 65536 of the bytes written on the bulk channel in that
exchange: for `executeCommands` (frame bytes 2 and 3), for `writeFlashChunk` on a transmitted
chunk, flash chunks being as wide as a bulk transfer (frame bytes 1 and 2 of every frame with
opcode 0x07), and for `writeEEPROMChunk` whatever the uninitialised part of its transfer buffer
holds (frame bytes 1 and 2). -/
theorem frame_checksum_is_sum_of_bulk_block (k : Consts) (dev : Device) (s : State)
    (setupCommand data : List Nat) (n : Nat)
    (code : List Nat) (chunk pageSize : Nat)
    (uninit ecode : List Nat) (address : Nat)
    (hflash : k.FLASH_WRITE_CHUNK_SIZE = USB_TRANSFER_SIZE)
    (htx : ¬ (chunk ≠ 512 ∧ code.take k.FLASH_WRITE_CHUNK_SIZE
      = List.replicate k.FLASH_WRITE_CHUNK_SIZE EMPTY_FLASH_BYTE)) :
    (∃ frame a, newEvents s (executeCommands k setupCommand n data dev s) =
        [Event.int_write 2 (setupCommand.take k.SETUP_COMMAND_SIZE),
          Event.iso_write 3 (data.take 256), Event.int_write 2 frame, Event.int_read 2 1 a]
      ∧ frameChecksum frame 2 3 = (data.take 256).sum % 65536)
    ∧ (∃ rest, newEvents s (writeFlashChunk k code chunk pageSize dev s) =
        Event.iso_write 3 (code.take 256) :: rest
      ∧ (∀ d, Event.iso_write 3 d ∉ rest)
      ∧ (∀ frame, Event.int_write 2 frame ∈ rest → frame.head? = some 0x07 →
          frameChecksum frame 1 2 = (code.take 256).sum % 65536)
      ∧ (chunk ≠ 512 → ∃ frame, frame.head? = some 0x07 ∧ Event.int_write 2 frame ∈ rest))
    ∧ (∃ d frame a, newEvents s (writeEEPROMChunk k uninit ecode address dev s) =
        [Event.iso_write 3 d, Event.int_write 2 frame, Event.int_read 2 1 a]
      ∧ d = (ecode.take k.EEPROM_WRITE_CHUNK_SIZE ++ uninit.drop k.EEPROM_WRITE_CHUNK_SIZE).take 256
      ∧ frameChecksum frame 1 2 = d.sum % 65536) := by
  refine ⟨?_, ?_, ?_⟩
  · exact ⟨_, _, executeCommands_events k setupCommand data n dev s, checksum_halves data 256⟩
  · rw [← isEmptyChunk_iff] at htx
    rw [writeFlashChunk_events, if_neg htx]
    have hsum : frameChecksum (flashFrame k code chunk pageSize s.continuedWrite) 1 2
        = (code.take 256).sum % 65536 := by
      have h := checksum_halves code k.FLASH_WRITE_CHUNK_SIZE
      rw [hflash, USB_TRANSFER_SIZE] at h
      rw [← h]
      simp only [flashFrame, frameChecksum, List.getD_cons_succ, List.getD_cons_zero,
        checksum_hi, hflash, USB_TRANSFER_SIZE]
    by_cases h2 : chunk = 512
    · simp only [if_pos h2]
      refine ⟨_, rfl, ?_, ?_, fun hne => absurd h2 hne⟩
      · intro d
        split_ifs <;> simp
      · intro frame hmem hhead
        have hf : frame = flashFrame k code chunk pageSize s.continuedWrite := by
          split_ifs at hmem
          · simp at hmem
            rcases hmem with h | h
            · subst h
              simp at hhead
            · exact h
          · simp at hmem
            subst hmem
            simp at hhead
        rw [hf]
        exact hsum
    · simp only [if_neg h2]
      refine ⟨_, rfl, ?_, ?_, fun _ => ⟨_, ?_, List.mem_cons_self _ _⟩⟩
      · intro d
        simp
      · intro frame hmem hhead
        simp at hmem
        rw [hmem]
        exact hsum
      · rfl
  · obtain ⟨a, ha⟩ := writeEEPROMChunk_events k uninit ecode address dev s
    refine ⟨_, _, a, ha, rfl, ?_⟩
    have h := checksum_halves
      (ecode.take k.EEPROM_WRITE_CHUNK_SIZE ++ uninit.drop k.EEPROM_WRITE_CHUNK_SIZE) 256
    rw [← h]
    simp only [frameChecksum, List.getD_cons_succ, List.getD_cons_zero]

/-- Claim C4 on chunk 3 (256 bytes 0x01) of a flash image: the frame of opcode 0x07 carries
0x0100, the sum of the 256 bytes sent. -/
theorem frame_checksum_is_sum_of_bulk_block_witness :
    (stdConsts.FLASH_WRITE_CHUNK_SIZE = USB_TRANSFER_SIZE
      ∧ ¬ (3 ≠ 512 ∧ (List.replicate 256 0x01).take stdConsts.FLASH_WRITE_CHUNK_SIZE
        = List.replicate stdConsts.FLASH_WRITE_CHUNK_SIZE EMPTY_FLASH_BYTE))
    ∧ ∃ rest, newEvents State.init (writeFlashChunk stdConsts (List.replicate 256 0x01) 3 128
          okDevice State.init) =
        Event.iso_write 3 ((List.replicate 256 0x01).take 256) :: rest
      ∧ (∀ d, Event.iso_write 3 d ∉ rest)
      ∧ (∀ frame, Event.int_write 2 frame ∈ rest → frame.head? = some 0x07 →
          frameChecksum frame 1 2 = ((List.replicate 256 0x01).take 256).sum % 65536)
      ∧ (3 ≠ 512 → ∃ frame, frame.head? = some 0x07 ∧ Event.int_write 2 frame ∈ rest) :=
  ⟨⟨rfl, by decide⟩,
    (frame_checksum_is_sum_of_bulk_block stdConsts okDevice State.init
      [0x02, 0x04, 0x00, 0x00, 0x00, 0x00, 0x00] (0xac :: 0x80 :: List.replicate 254 0) 4
      (List.replicate 256 0x01) 3 128 (List.replicate 256 0xaa) (List.replicate 64 0x02) 0
      rfl (by decide)).2.1⟩

/-- The last command of a history that ends in a control write. -/
theorem lastCommand_write (history : List Event) (ep : Nat) (data : List Nat) :
    lastCommand (history ++ [Event.int_write ep data]).reverse = data := by
  simp [lastCommand]

/-- A transport whose acknowledgements are all successes answers 0x01 to a delay command. -/
theorem AcksOk.delay {dev : Device} (h : AcksOk dev) (history : List Event) (ms ep n : Nat) :
    dev.int_read (history ++ [Event.int_write 2 [0x0e, ms]]) ep n = [0x01] := by
  rw [h, okDevice]
  simp only [lastCommand_write, List.head?_cons, if_true]

/-- A transport whose acknowledgements are all successes answers 0x00 to a command that is
not a delay. -/
theorem AcksOk.other {dev : Device} (h : AcksOk dev) (history : List Event) (data : List Nat)
    (ep n : Nat) (hd : data.head? ≠ some 0x0e) :
    dev.int_read (history ++ [Event.int_write 2 data]) ep n = [0x00] := by
  rw [h, okDevice]
  simp only [lastCommand_write, if_neg hd]

/-- With all acknowledgements successes, `delayMs` returns. -/
theorem delayMs_ok {dev : Device} (h : AcksOk dev) (ms : Nat) (s : State) :
    (delayMs ms dev s).1 = Except.ok () := by
  rw [delayMs_run]
  simp only [h.delay, ackResult, if_true]

/-- The state `delayMs` ends in: the call log is untouched and two operations are added, none
of them a progress step. -/
theorem delayMs_effect (ms : Nat) (dev : Device) (s : State) :
    (delayMs ms dev s).2.calls = s.calls
    ∧ ∃ evs, (delayMs ms dev s).2.trace = s.trace ++ evs
      ∧ evs.count Event.progress_step = 0 := by
  rw [delayMs_run]
  exact ⟨rfl, _, rfl, by simp⟩

/-- With all acknowledgements successes, `writeFlashChunk` returns. -/
theorem writeFlashChunk_ok {dev : Device} (h : AcksOk dev) (k : Consts) (code : List Nat)
    (chunk pageSize : Nat) (s : State) :
    (writeFlashChunk k code chunk pageSize dev s).1 = Except.ok () := by
  have hframe : (flashFrame k code chunk pageSize s.continuedWrite).head? ≠ some 0x0e := by
    simp [flashFrame]
  have hext : ([0x0b, 0x01] : List Nat).head? ≠ some 0x0e := by simp
  rw [writeFlashChunk_run]
  simp only
  split_ifs with h1 h2 h3
  · rfl
  · simp only [← List.append_assoc, h.other _ _ _ _ hframe, ackResult, if_true]
  · exact absurd (h.other _ _ _ _ hext) h3
  · simp only [← List.append_assoc, h.other _ _ _ _ hframe, ackResult, if_true]

/-- The state `writeFlashChunk` ends in: one entry is added to the call log, and the operations
added to the trace hold no progress step. -/
theorem writeFlashChunk_effect (k : Consts) (code : List Nat) (chunk pageSize : Nat)
    (dev : Device) (s : State) :
    (writeFlashChunk k code chunk pageSize dev s).2.calls
      = s.calls ++ [Call.writeFlashChunk (code.take k.FLASH_WRITE_CHUNK_SIZE) chunk pageSize]
    ∧ ∃ evs, (writeFlashChunk k code chunk pageSize dev s).2.trace = s.trace ++ evs
      ∧ evs.count Event.progress_step = 0 := by
  refine ⟨?_, newEvents s (writeFlashChunk k code chunk pageSize dev s), ?_, ?_⟩
  · rw [writeFlashChunk_run]
    simp only
    split_ifs <;> rfl
  · rw [newEvents, writeFlashChunk_run]
    simp only
    split_ifs <;> simp
  · rw [writeFlashChunk_events]
    simp only
    split_ifs <;> simp

/-- Running `emit`. -/
theorem emit_run (e : Event) (dev : Device) (s : State) :
    emit e dev s = (Except.ok (), { s with trace := s.trace ++ [e] }) := rfl

/-- The loop of `writeFlash`, started at index `c` with `n` rounds to go: it calls
`writeFlashChunk` on the chunks `c, c + 1, ...` in turn and stops at the first failure; when
it completes it has made `n` calls and `n` progress steps. -/
theorem writeFlash_loop_effect (k : Consts) (buffer : List Nat) (pageSize : Nat) (dev : Device) :
    ∀ (n c : Nat) (s : State), ∃ m evs, m ≤ n
      ∧ (writeFlash_loop k buffer pageSize n c dev s).2.calls = s.calls ++
          (List.range' c m).map (fun i => Call.writeFlashChunk
            ((buffer.drop (i * k.FLASH_WRITE_CHUNK_SIZE)).take k.FLASH_WRITE_CHUNK_SIZE)
            i pageSize)
      ∧ (writeFlash_loop k buffer pageSize n c dev s).2.trace = s.trace ++ evs
      ∧ ((writeFlash_loop k buffer pageSize n c dev s).1 = Except.ok () →
          m = n ∧ evs.count Event.progress_step = n)
      ∧ (AcksOk dev → (writeFlash_loop k buffer pageSize n c dev s).1 = Except.ok ()) := by
  intro n
  induction n with
  | zero =>
    intro c s
    exact ⟨0, [], le_refl _, by simp [writeFlash_loop, pure_run], by simp [writeFlash_loop, pure_run],
      fun _ => ⟨rfl, rfl⟩, fun _ => rfl⟩
  | succ n ih =>
    intro c s
    obtain ⟨hcalls, e1, htr, hcnt⟩ := writeFlashChunk_effect k
      (buffer.drop (c * k.FLASH_WRITE_CHUNK_SIZE)) c pageSize dev s
    have hok := fun h : AcksOk dev => writeFlashChunk_ok h k
      (buffer.drop (c * k.FLASH_WRITE_CHUNK_SIZE)) c pageSize s
    simp only [writeFlash_loop, bind_run, emit_run]
    rcases hr : writeFlashChunk k (buffer.drop (c * k.FLASH_WRITE_CHUNK_SIZE)) c pageSize dev s
      with ⟨r1, s1⟩
    rw [hr] at hcalls htr hok
    simp only at hcalls htr hok
    cases r1 with
    | error e =>
      refine ⟨1, e1, by omega, ?_, htr, ?_, ?_⟩
      · simpa using hcalls
      · intro h
        cases h
      · intro h
        exact absurd (hok h) (by simp)
    | ok u =>
      obtain ⟨m, evs, hm, hc2, ht2, hres, hok2⟩ := ih (c + 1)
        { continuedWrite := s1.continuedWrite, trace := s1.trace ++ [Event.progress_step],
          calls := s1.calls }
      refine ⟨m + 1, e1 ++ [Event.progress_step] ++ evs, by omega, ?_, ?_, ?_, hok2⟩
      · simp only at hc2
        rw [hc2, hcalls, List.range'_succ, List.map_cons, List.append_assoc]
        rfl
      · simp only at ht2
        rw [ht2, htr]
        simp only [List.append_assoc]
      · intro h
        obtain ⟨h1, h2⟩ := hres h
        refine ⟨by omega, ?_⟩
        simp only [List.count_append, hcnt, h2, List.count_singleton_self]
        omega

/-- What `writeFlash` does with its buffer: the calls of `writeFlashChunk` it makes are an
initial segment of the chunks `0 .. size / C - 1` followed by the padded last chunk; when it
completes it has made all of them and as many progress steps. -/
theorem writeFlash_effect (k : Consts) (buffer : List Nat) (size pageSize : Nat) (dev : Device)
    (s : State) :
    ∃ cs evs,
      (writeFlash k buffer size pageSize dev s).2.calls = s.calls ++ cs
      ∧ (writeFlash k buffer size pageSize dev s).2.trace = s.trace ++ evs
      ∧ cs <+: (List.range' 0 (size / k.FLASH_WRITE_CHUNK_SIZE)).map (fun i =>
          Call.writeFlashChunk
            ((buffer.drop (i * k.FLASH_WRITE_CHUNK_SIZE)).take k.FLASH_WRITE_CHUNK_SIZE)
            i pageSize)
          ++ [Call.writeFlashChunk
            (((buffer.drop (k.FLASH_WRITE_CHUNK_SIZE * (size / k.FLASH_WRITE_CHUNK_SIZE))).take
                (size - k.FLASH_WRITE_CHUNK_SIZE * (size / k.FLASH_WRITE_CHUNK_SIZE))
              ++ List.replicate (k.FLASH_WRITE_CHUNK_SIZE
                - (size - k.FLASH_WRITE_CHUNK_SIZE * (size / k.FLASH_WRITE_CHUNK_SIZE)))
                EMPTY_FLASH_BYTE).take k.FLASH_WRITE_CHUNK_SIZE)
            (size / k.FLASH_WRITE_CHUNK_SIZE) pageSize]
      ∧ ((writeFlash k buffer size pageSize dev s).1 = Except.ok () →
          cs = (List.range' 0 (size / k.FLASH_WRITE_CHUNK_SIZE)).map (fun i =>
            Call.writeFlashChunk
              ((buffer.drop (i * k.FLASH_WRITE_CHUNK_SIZE)).take k.FLASH_WRITE_CHUNK_SIZE)
              i pageSize)
            ++ [Call.writeFlashChunk
              (((buffer.drop (k.FLASH_WRITE_CHUNK_SIZE * (size / k.FLASH_WRITE_CHUNK_SIZE))).take
                  (size - k.FLASH_WRITE_CHUNK_SIZE * (size / k.FLASH_WRITE_CHUNK_SIZE))
                ++ List.replicate (k.FLASH_WRITE_CHUNK_SIZE
                  - (size - k.FLASH_WRITE_CHUNK_SIZE * (size / k.FLASH_WRITE_CHUNK_SIZE)))
                  EMPTY_FLASH_BYTE).take k.FLASH_WRITE_CHUNK_SIZE)
              (size / k.FLASH_WRITE_CHUNK_SIZE) pageSize]
          ∧ evs.count Event.progress_step = size / k.FLASH_WRITE_CHUNK_SIZE + 1)
      ∧ (AcksOk dev → (writeFlash k buffer size pageSize dev s).1 = Except.ok ()) := by
  simp only [writeFlash, bind_run, emit_run]
  generalize hL : (buffer.drop (k.FLASH_WRITE_CHUNK_SIZE * (size / k.FLASH_WRITE_CHUNK_SIZE))).take
      (size - k.FLASH_WRITE_CHUNK_SIZE * (size / k.FLASH_WRITE_CHUNK_SIZE))
    ++ List.replicate (k.FLASH_WRITE_CHUNK_SIZE
      - (size - k.FLASH_WRITE_CHUNK_SIZE * (size / k.FLASH_WRITE_CHUNK_SIZE))) EMPTY_FLASH_BYTE = L
  generalize size / k.FLASH_WRITE_CHUNK_SIZE = q
  obtain ⟨hc0, e0, ht0, hn0⟩ := delayMs_effect 0x14 dev s
  have hok0 := fun h : AcksOk dev => delayMs_ok h 0x14 s
  rcases h0 : delayMs 0x14 dev s with ⟨r0, s0⟩
  rw [h0] at hc0 ht0 hok0
  simp only at hc0 ht0 hok0
  cases r0 with
  | error e =>
    refine ⟨[], e0, by simpa using hc0, ht0, List.nil_prefix, ?_, ?_⟩
    · intro h
      cases h
    · intro h
      exact absurd (hok0 h) (by simp)
  | ok u =>
    simp only
    obtain ⟨m, e1, hm, hc1, ht1, hres1, hok1⟩ := writeFlash_loop_effect k buffer pageSize dev q 0
      { continuedWrite := s0.continuedWrite,
        trace := s0.trace ++ [Event.progress_new (q + 1)], calls := s0.calls }
    rcases h1 : writeFlash_loop k buffer pageSize q 0 dev
      { continuedWrite := s0.continuedWrite,
        trace := s0.trace ++ [Event.progress_new (q + 1)], calls := s0.calls } with ⟨r1, s1⟩
    rw [h1] at hc1 ht1 hres1 hok1
    simp only at hc1 ht1 hres1 hok1
    cases r1 with
    | error e =>
      refine ⟨_, e0 ++ [Event.progress_new (q + 1)] ++ e1, by rw [hc1, hc0], ?_, ?_, ?_, ?_⟩
      · simp only [ht1, ht0, List.append_assoc]
      · apply List.IsPrefix.trans _ (List.prefix_append _ _)
        apply List.IsPrefix.map
        have hq : List.range' 0 q = List.range' 0 m ++ List.range' (0 + m) (q - m) := by
          rw [List.range'_append_1]
          congr 1
          omega
        rw [hq]
        exact List.prefix_append _ _
      · intro h
        cases h
      · intro h
        exact absurd (hok1 h) (by simp)
    | ok u1 =>
      obtain ⟨hmq, hn1⟩ := hres1 rfl
      subst hmq
      simp only
      obtain ⟨hc2, e2, ht2, hn2⟩ := writeFlashChunk_effect k L m pageSize dev s1
      have hok2 := fun h : AcksOk dev => writeFlashChunk_ok h k L m pageSize s1
      rcases h2 : writeFlashChunk k L m pageSize dev s1 with ⟨r2, s2⟩
      rw [h2] at hc2 ht2 hok2
      simp only at hc2 ht2 hok2
      cases r2 with
      | error e =>
        refine ⟨_, e0 ++ [Event.progress_new (m + 1)] ++ e1 ++ e2,
          by rw [hc2, hc1, hc0, List.append_assoc], ?_, List.prefix_rfl, ?_, ?_⟩
        · simp only [ht2, ht1, ht0, List.append_assoc]
        · intro h
          cases h
        · intro h
          exact absurd (hok2 h) (by simp)
      | ok u2 =>
        simp only
        obtain ⟨hc3, e3, ht3, hn3⟩ := delayMs_effect 0x14 dev
          { continuedWrite := s2.continuedWrite, trace := s2.trace ++ [Event.progress_step],
            calls := s2.calls }
        refine ⟨_, e0 ++ [Event.progress_new (m + 1)] ++ e1 ++ e2 ++ [Event.progress_step] ++ e3,
          by rw [hc3, hc2, hc1, hc0, List.append_assoc], ?_, List.prefix_rfl, ?_, ?_⟩
        · rw [ht3]
          simp only [ht2, ht1, ht0, List.append_assoc]
        · intro _
          refine ⟨rfl, ?_⟩
          simp only [List.count_append, hn0, hn1, hn2, hn3, List.count_singleton_self]
          simp
        · intro h
          exact delayMs_ok h 0x14 _

/-- The transport `okDevice` acknowledges everything with a success. -/
theorem acksOk_okDevice : AcksOk okDevice := fun _ _ _ => rfl

/-- Claim C5, at a buffer of 256 bytes 0x01 with 256-byte chunks and every acknowledgement a
success: `writeFlash` returns after two calls of `writeFlashChunk` and two progress steps,
whereas `ceil(256 / 256)` is 1. -/
theorem writeFlash_exact_multiple_makes_two_calls :
    (writeFlash stdConsts (List.replicate 256 0x01) 256 128 okDevice State.init).1 = Except.ok ()
    ∧ (newCalls State.init (writeFlash stdConsts (List.replicate 256 0x01) 256 128 okDevice
        State.init)).map flashCallIndex = [some 0, some 1]
    ∧ (newEvents State.init (writeFlash stdConsts (List.replicate 256 0x01) 256 128 okDevice
        State.init)).count Event.progress_step = 2
    ∧ (256 + stdConsts.FLASH_WRITE_CHUNK_SIZE - 1) / stdConsts.FLASH_WRITE_CHUNK_SIZE = 1
    ∧ (newCalls State.init (writeFlash stdConsts (List.replicate 256 0x01) 256 128 okDevice
        State.init)).length
      ≠ (256 + stdConsts.FLASH_WRITE_CHUNK_SIZE - 1) / stdConsts.FLASH_WRITE_CHUNK_SIZE :=
  ⟨rfl, by decide, by decide, by decide, by decide⟩

/-- Claim C5, amended. For every buffer and size `N`, with a chunk size `C > 0` and every
acknowledgement a success, `writeFlash` returns after invoking `writeFlashChunk` exactly
`N div C + 1` times, with the indices `0, 1, ..., N div C` in ascending order, and after
stepping the progress sink `N div C + 1` times: there is always a trailing chunk, also when
`N` is a multiple of `C`. -/
theorem writeFlash_chunk_calls (k : Consts) (buffer : List Nat) (size pageSize : Nat)
    (dev : Device) (s : State) (_hC : 0 < k.FLASH_WRITE_CHUNK_SIZE) (hdev : AcksOk dev) :
    (writeFlash k buffer size pageSize dev s).1 = Except.ok ()
    ∧ (newCalls s (writeFlash k buffer size pageSize dev s)).map flashCallIndex
      = (List.range (size / k.FLASH_WRITE_CHUNK_SIZE + 1)).map some
    ∧ (newCalls s (writeFlash k buffer size pageSize dev s)).length
      = size / k.FLASH_WRITE_CHUNK_SIZE + 1
    ∧ (newEvents s (writeFlash k buffer size pageSize dev s)).count Event.progress_step
      = size / k.FLASH_WRITE_CHUNK_SIZE + 1 := by
  obtain ⟨cs, evs, hcs, hevs, _, hfull, hok⟩ := writeFlash_effect k buffer size pageSize dev s
  obtain ⟨hcs2, hcount⟩ := hfull (hok hdev)
  rw [newCalls_eq _ _ _ hcs, newEvents_eq _ _ _ hevs]
  refine ⟨hok hdev, ?_, ?_, hcount⟩
  · rw [hcs2, List.range_succ, List.range_eq_range']
    simp [flashCallIndex, Function.comp_def]
  · rw [hcs2]
    simp

/-- Claim C5 amended, on 300 bytes with 256-byte chunks: two calls, indices 0 and 1. -/
theorem writeFlash_chunk_calls_witness :
    (0 < stdConsts.FLASH_WRITE_CHUNK_SIZE ∧ AcksOk okDevice)
    ∧ (writeFlash stdConsts (List.replicate 300 0x01) 300 128 okDevice State.init).1
      = Except.ok ()
    ∧ (newCalls State.init (writeFlash stdConsts (List.replicate 300 0x01) 300 128 okDevice
        State.init)).map flashCallIndex
      = (List.range (300 / stdConsts.FLASH_WRITE_CHUNK_SIZE + 1)).map some
    ∧ (newCalls State.init (writeFlash stdConsts (List.replicate 300 0x01) 300 128 okDevice
        State.init)).length = 300 / stdConsts.FLASH_WRITE_CHUNK_SIZE + 1
    ∧ (newEvents State.init (writeFlash stdConsts (List.replicate 300 0x01) 300 128 okDevice
        State.init)).count Event.progress_step = 300 / stdConsts.FLASH_WRITE_CHUNK_SIZE + 1 :=
  ⟨⟨by decide, acksOk_okDevice⟩,
    writeFlash_chunk_calls stdConsts (List.replicate 300 0x01) 300 128 okDevice State.init
      (by decide) acksOk_okDevice⟩

/-- The array `lastChunk` of `writeFlash` for a buffer of exactly `size` bytes: the bytes left
after the full chunks, then fill bytes up to the chunk size. -/
theorem lastChunk_eq (C : Nat) (buffer : List Nat) (size : Nat) (hC : 0 < C)
    (hsize : size = buffer.length) :
    ((buffer.drop (C * (size / C))).take (size - C * (size / C))
        ++ List.replicate (C - (size - C * (size / C))) EMPTY_FLASH_BYTE).take C
      = buffer.drop (size / C * C) ++ List.replicate (C - size % C) EMPTY_FLASH_BYTE := by
  have hmod : size - C * (size / C) = size % C := (Nat.mod_def size C).symm
  have hlt : size % C < C := Nat.mod_lt _ hC
  have hlen : (buffer.drop (C * (size / C))).length = size % C := by
    rw [List.length_drop, ← hsize, hmod]
  rw [hmod, Nat.mul_comm (size / C) C, List.take_of_length_le (le_of_eq hlen)]
  apply List.take_of_length_le
  rw [List.length_append, hlen, List.length_replicate]
  omega

/-- Claim C6. For every buffer of `N` bytes, with `C > 0` the flash chunk size and
`q = N div C`: the calls of `writeFlashChunk` made by `writeFlash` are, in this order and as
far as the run gets, the chunks `buffer[i*C, (i+1)*C)` unchanged at the indices `i < q`, then at
index `q` the bytes `buffer[q*C, N)` followed by `C - (N mod C)` fill bytes; with every
acknowledgement a success all of them are made; and when `N` is a multiple of `C` the final
chunk is `C` fill bytes. -/
theorem writeFlash_chunk_contents (k : Consts) (buffer : List Nat) (size pageSize : Nat)
    (dev : Device) (s : State) (hC : 0 < k.FLASH_WRITE_CHUNK_SIZE)
    (hsize : size = buffer.length) :
    newCalls s (writeFlash k buffer size pageSize dev s) <+:
      (List.range (size / k.FLASH_WRITE_CHUNK_SIZE)).map (fun i => Call.writeFlashChunk
          ((buffer.drop (i * k.FLASH_WRITE_CHUNK_SIZE)).take k.FLASH_WRITE_CHUNK_SIZE) i pageSize)
        ++ [Call.writeFlashChunk
          (buffer.drop (size / k.FLASH_WRITE_CHUNK_SIZE * k.FLASH_WRITE_CHUNK_SIZE)
            ++ List.replicate (k.FLASH_WRITE_CHUNK_SIZE - size % k.FLASH_WRITE_CHUNK_SIZE)
              EMPTY_FLASH_BYTE)
          (size / k.FLASH_WRITE_CHUNK_SIZE) pageSize]
    ∧ (AcksOk dev → newCalls s (writeFlash k buffer size pageSize dev s) =
      (List.range (size / k.FLASH_WRITE_CHUNK_SIZE)).map (fun i => Call.writeFlashChunk
          ((buffer.drop (i * k.FLASH_WRITE_CHUNK_SIZE)).take k.FLASH_WRITE_CHUNK_SIZE) i pageSize)
        ++ [Call.writeFlashChunk
          (buffer.drop (size / k.FLASH_WRITE_CHUNK_SIZE * k.FLASH_WRITE_CHUNK_SIZE)
            ++ List.replicate (k.FLASH_WRITE_CHUNK_SIZE - size % k.FLASH_WRITE_CHUNK_SIZE)
              EMPTY_FLASH_BYTE)
          (size / k.FLASH_WRITE_CHUNK_SIZE) pageSize])
    ∧ (size % k.FLASH_WRITE_CHUNK_SIZE = 0 →
      buffer.drop (size / k.FLASH_WRITE_CHUNK_SIZE * k.FLASH_WRITE_CHUNK_SIZE)
          ++ List.replicate (k.FLASH_WRITE_CHUNK_SIZE - size % k.FLASH_WRITE_CHUNK_SIZE)
            EMPTY_FLASH_BYTE
        = List.replicate k.FLASH_WRITE_CHUNK_SIZE EMPTY_FLASH_BYTE) := by
  obtain ⟨cs, evs, hcs, _, hpre, hfull, hok⟩ := writeFlash_effect k buffer size pageSize dev s
  rw [lastChunk_eq _ _ _ hC hsize, ← List.range_eq_range'] at hpre hfull
  rw [newCalls_eq _ _ _ hcs]
  refine ⟨hpre, fun hdev => (hfull (hok hdev)).1, ?_⟩
  intro hmod
  have hq : size / k.FLASH_WRITE_CHUNK_SIZE * k.FLASH_WRITE_CHUNK_SIZE = buffer.length := by
    rw [← hsize]
    exact Nat.div_mul_cancel (Nat.dvd_of_mod_eq_zero hmod)
  rw [hmod, hq, List.drop_length, List.nil_append, Nat.sub_zero]

/-- Claim C6 on 300 bytes 0x01 with 256-byte chunks and every acknowledgement a success:
chunk 0 is the first 256 bytes, chunk 1 the last 44 bytes followed by 212 fill bytes. -/
theorem writeFlash_chunk_contents_witness :
    (0 < stdConsts.FLASH_WRITE_CHUNK_SIZE ∧ 300 = (List.replicate 300 0x01).length
      ∧ AcksOk okDevice)
    ∧ newCalls State.init (writeFlash stdConsts (List.replicate 300 0x01) 300 128 okDevice
        State.init) =
      [Call.writeFlashChunk (List.replicate 256 0x01) 0 128,
        Call.writeFlashChunk (List.replicate 44 0x01 ++ List.replicate 212 0xff) 1 128] :=
  ⟨⟨by decide, rfl, acksOk_okDevice⟩,
    ((writeFlash_chunk_contents stdConsts (List.replicate 300 0x01) 300 128 okDevice State.init
      (by decide) rfl).2.1 acksOk_okDevice).trans (by decide)⟩

/-- Claim C11, at two calls that leave `continuedWrite` true: a chunk of 256 bytes 0x01 at
index 3 whose write is answered by the byte 0x01 (the call throws `CommandException`), and a
chunk of 256 fill bytes at index 512 with every acknowledgement a success. -/
theorem writeFlashChunk_continuedWrite_after_failure :
    (writeFlashChunk stdConsts (List.replicate 256 0x01) 3 128 (constDevice [0x01])
        State.init).1 = Except.error Error.CommandException
    ∧ (writeFlashChunk stdConsts (List.replicate 256 0x01) 3 128 (constDevice [0x01])
        State.init).2.continuedWrite = true
    ∧ (List.replicate 256 0xff).take stdConsts.FLASH_WRITE_CHUNK_SIZE
        = List.replicate stdConsts.FLASH_WRITE_CHUNK_SIZE EMPTY_FLASH_BYTE
    ∧ (writeFlashChunk stdConsts (List.replicate 256 0xff) 512 128 okDevice
        State.init).2.continuedWrite = true :=
  ⟨rfl, by decide, by decide, by decide⟩

/-- Claim C11, amended. After every call to `writeFlashChunk`, whether it returns or throws,
`continuedWrite` is true exactly when the call transmitted its chunk, that is when the chunk
is not made of fill bytes only or its index is 512; the acknowledgement plays no part. -/
theorem writeFlashChunk_continuedWrite_iff (k : Consts) (code : List Nat) (chunk pageSize : Nat)
    (dev : Device) (s : State) :
    (writeFlashChunk k code chunk pageSize dev s).2.continuedWrite = true
      ↔ ¬ (chunk ≠ 512 ∧ code.take k.FLASH_WRITE_CHUNK_SIZE
        = List.replicate k.FLASH_WRITE_CHUNK_SIZE EMPTY_FLASH_BYTE) := by
  rw [← isEmptyChunk_iff, writeFlashChunk_run]
  simp only
  split_ifs with h1 h2 h3
  · simp [h1]
  · simp [h1]
  · simp [h1]
  · simp [h1]

/-- Claim C12. For every transmitted flash chunk at an index other than 512, `writeFlashChunk`
sends the chunk on the bulk channel, then the execute frame on the control channel, then reads
a 1-byte acknowledgement; it returns exactly when the acknowledgement is the single byte 0x00
and throws `CommandException`, never `ChecksumException`, for every other acknowledgement. -/
theorem writeFlashChunk_ack_classification (k : Consts) (code : List Nat)
    (chunk pageSize : Nat) (dev : Device) (s : State) (h512 : chunk ≠ 512)
    (hne : code.take k.FLASH_WRITE_CHUNK_SIZE
      ≠ List.replicate k.FLASH_WRITE_CHUNK_SIZE EMPTY_FLASH_BYTE) :
    ∃ ack, newEvents s (writeFlashChunk k code chunk pageSize dev s) =
        [Event.iso_write 3 (code.take 256),
          Event.int_write 2 (flashFrame k code chunk pageSize s.continuedWrite),
          Event.int_read 2 1 ack]
      ∧ ((writeFlashChunk k code chunk pageSize dev s).1 = Except.ok () ↔ ack = [0x00])
      ∧ (ack ≠ [0x00] →
          (writeFlashChunk k code chunk pageSize dev s).1 = Except.error Error.CommandException)
      ∧ (writeFlashChunk k code chunk pageSize dev s).1
          ≠ Except.error Error.ChecksumException := by
  have h1 : ¬ (chunk ≠ 512 ∧ isEmptyChunk code k.FLASH_WRITE_CHUNK_SIZE = true) := by
    rw [isEmptyChunk_iff]
    exact fun h => hne h.2
  rw [writeFlashChunk_events, writeFlashChunk_run]
  simp only [if_neg h1, if_neg h512, ackResult, List.append_assoc, List.cons_append,
    List.nil_append]
  refine ⟨_, rfl, ?_, ?_, ?_⟩
  · split_ifs with h <;> simp [h]
  · intro h
    rw [if_neg h]
  · split_ifs <;> simp

/-- Claim C12 on chunk 3 (256 bytes 0x01) answered by the mismatch marker 0x81. -/
theorem writeFlashChunk_ack_classification_witness :
    (3 ≠ 512 ∧ (List.replicate 256 0x01).take stdConsts.FLASH_WRITE_CHUNK_SIZE
      ≠ List.replicate stdConsts.FLASH_WRITE_CHUNK_SIZE EMPTY_FLASH_BYTE)
    ∧ ∃ ack, newEvents State.init (writeFlashChunk stdConsts (List.replicate 256 0x01) 3 128
          (constDevice [0x81]) State.init) =
        [Event.iso_write 3 ((List.replicate 256 0x01).take 256),
          Event.int_write 2 (flashFrame stdConsts (List.replicate 256 0x01) 3 128
            State.init.continuedWrite),
          Event.int_read 2 1 ack]
      ∧ ((writeFlashChunk stdConsts (List.replicate 256 0x01) 3 128 (constDevice [0x81])
          State.init).1 = Except.ok () ↔ ack = [0x00])
      ∧ (ack ≠ [0x00] →
          (writeFlashChunk stdConsts (List.replicate 256 0x01) 3 128 (constDevice [0x81])
            State.init).1 = Except.error Error.CommandException)
      ∧ (writeFlashChunk stdConsts (List.replicate 256 0x01) 3 128 (constDevice [0x81])
          State.init).1 ≠ Except.error Error.ChecksumException :=
  ⟨⟨by decide, by decide⟩,
    writeFlashChunk_ack_classification stdConsts (List.replicate 256 0x01) 3 128
      (constDevice [0x81]) State.init (by decide) (by decide)⟩

/-- Claim C13, at a chunk of 64 bytes 0x01 written to address 0 while the transfer buffer
`chunk[256]` holds 0xaa bytes on entry: the 192 bytes behind the chunk go out as they are and
the frame carries 0x7fc0, the sum of all 256 bytes, whereas the 64 bytes of the chunk sum
to 0x0040. -/
theorem writeEEPROMChunk_checksum_covers_uninitialised_tail :
    newEvents State.init (writeEEPROMChunk stdConsts (List.replicate 256 0xaa)
        (List.replicate 64 0x01) 0 okDevice State.init) =
      [Event.iso_write 3 (List.replicate 64 0x01 ++ List.replicate 192 0xaa),
        Event.int_write 2 [0x09, 0xc0, 0x7f, 0x00, 0x00, 64, 0x00, 0x09],
        Event.int_read 2 1 [0x00]]
    ∧ (List.replicate 64 0x01).sum % 65536 = 0x0040 := by
  decide

/-- A run that ends without exception is the pair of its value and its final state. -/
theorem run_ok_eq {α : Type} (r : Except Error α × State) (a : α) (h : r.1 = Except.ok a) :
    r = (Except.ok a, r.2) := by
  rw [← h]

/-- Running `iso_read`. -/
theorem iso_read_run (ep maxLen : Nat) (dev : Device) (s : State) :
    iso_read ep maxLen dev s = (Except.ok (dev.iso_read s.trace ep maxLen),
      { s with trace := s.trace ++ [Event.iso_read ep maxLen (dev.iso_read s.trace ep maxLen)] }) :=
  rfl

/-- Claim C18. Once the delay command and the exchange are acknowledged, `readFuses(size)`
returns exactly when the bulk response has length `size + 1` and first byte 0xff; it then
returns the `size` bytes after the first one; for any other response it throws
`CommandException`. -/
theorem readFuses_result (k : Consts) (size : Nat) (dev : Device) (s : State) (resp : List Nat)
    (hdelay : (delayMs 0x14 dev s).1 = Except.ok ())
    (hexec : (executeCommands k readFuses_command (size + 1) readFuses_data dev
      (delayMs 0x14 dev s).2).1 = Except.ok ())
    (hresp : resp = dev.iso_read (executeCommands k readFuses_command (size + 1) readFuses_data
      dev (delayMs 0x14 dev s).2).2.trace 3 256) :
    (readFuses k size dev s).1 =
      if resp.length = size + 1 ∧ resp.getD 0 0 = 0xff then Except.ok (resp.drop 1)
      else Except.error Error.CommandException := by
  simp only [readFuses, bind_run]
  rw [run_ok_eq _ _ hdelay]
  simp only
  rw [run_ok_eq _ _ hexec]
  simp only [iso_read_run, ← hresp, ite_run, throwErr_run, pure_run]
  by_cases h1 : resp.length = size + 1
  · by_cases h2 : resp.getD 0 0 = 0xff
    · have h3 : (resp.drop 1).take size = resp.drop 1 := by
        apply List.take_of_length_le
        rw [List.length_drop, h1]
        omega
      rw [if_neg (not_not.mpr h1), if_neg (not_not.mpr h2), if_pos ⟨h1, h2⟩, h3]
    · rw [if_neg (not_not.mpr h1), if_pos h2, if_neg (fun h => h2 h.2)]
  · rw [if_pos h1, if_neg (fun h => h1 h.1)]

/-- Claim C18 on `readFuses(2)`: the response `ff c0 d9` gives the fuses `c0 d9`, the response
`ff c0` of length 2 gives `CommandException`. -/
theorem readFuses_result_witness :
    ((delayMs 0x14 (respDevice [0xff, 0xc0, 0xd9]) State.init).1 = Except.ok ()
      ∧ (executeCommands stdConsts readFuses_command (2 + 1) readFuses_data
        (respDevice [0xff, 0xc0, 0xd9])
        (delayMs 0x14 (respDevice [0xff, 0xc0, 0xd9]) State.init).2).1 = Except.ok ())
    ∧ (readFuses stdConsts 2 (respDevice [0xff, 0xc0, 0xd9]) State.init).1
      = Except.ok [0xc0, 0xd9]
    ∧ (readFuses stdConsts 2 (respDevice [0xff, 0xc0]) State.init).1
      = Except.error Error.CommandException :=
  ⟨⟨rfl, rfl⟩,
    (readFuses_result stdConsts 2 (respDevice [0xff, 0xc0, 0xd9]) State.init [0xff, 0xc0, 0xd9]
      rfl rfl rfl).trans rfl,
    (readFuses_result stdConsts 2 (respDevice [0xff, 0xc0]) State.init [0xff, 0xc0]
      rfl rfl rfl).trans rfl⟩

/-- Three bytes joined by shifts and bitwise or make the big-endian number they spell. -/
theorem signature_bits (b0 b1 b2 : Nat) (h0 : b0 < 256) (h1 : b1 < 256) (h2 : b2 < 256) :
    (b0 <<< 16 ||| b1 <<< 8 ||| b2 <<< 0) % 4294967296 = b0 * 65536 + b1 * 256 + b2 := by
  have e1 : b0 <<< 16 ||| b1 <<< 8 = 2 ^ 8 * (2 ^ 8 * b0 + b1) := by
    have h := Nat.mul_add_lt_is_or (i := 16) (b := 2 ^ 8 * b1) (by omega) b0
    rw [Nat.shiftLeft_eq, Nat.shiftLeft_eq, Nat.mul_comm b0, Nat.mul_comm b1, ← h]
    omega
  have e2 := Nat.mul_add_lt_is_or (i := 8) (b := b2) (by omega) (2 ^ 8 * b0 + b1)
  rw [Nat.shiftLeft_zero, e1, ← e2]
  omega

/-- Claim C19. Once the exchange is acknowledged, `getDeviceSignature` throws
`CommandException` for every bulk response whose length is not 3, and for a response of
exactly the three bytes `b0 b1 b2` it returns `b0 * 65536 + b1 * 256 + b2`, a number
below `2 ^ 24`. -/
theorem getDeviceSignature_result (k : Consts) (dev : Device) (s : State) (resp : List Nat)
    (hexec : (executeCommands k [0x02, 0x03, 0x00, 0x01, 0x00, 0x00, 0x00] 3
      getDeviceSignature_data dev s).1 = Except.ok ())
    (hresp : resp = dev.iso_read (executeCommands k [0x02, 0x03, 0x00, 0x01, 0x00, 0x00, 0x00] 3
      getDeviceSignature_data dev s).2.trace 3 256) :
    (resp.length ≠ 3 →
        (getDeviceSignature k dev s).1 = Except.error Error.CommandException)
    ∧ (∀ b0 b1 b2, resp = [b0, b1, b2] → b0 < 256 → b1 < 256 → b2 < 256 →
        (getDeviceSignature k dev s).1 = Except.ok (b0 * 65536 + b1 * 256 + b2)
        ∧ b0 * 65536 + b1 * 256 + b2 < 2 ^ 24) := by
  simp only [getDeviceSignature, bind_run]
  rw [run_ok_eq _ _ hexec]
  simp only [iso_read_run, ← hresp, ite_run, throwErr_run, pure_run]
  constructor
  · intro h
    simp [h]
  · intro b0 b1 b2 hb h0 h1 h2
    subst hb
    refine ⟨?_, by omega⟩
    simp only [List.length_cons, List.length_nil, ne_eq, not_true_eq_false, if_false,
      List.getD_cons_zero, List.getD_cons_succ]
    rw [signature_bits b0 b1 b2 h0 h1 h2]

/-- Claim C19 on the signature bytes `1e 95 0f`. -/
theorem getDeviceSignature_result_witness :
    (executeCommands stdConsts [0x02, 0x03, 0x00, 0x01, 0x00, 0x00, 0x00] 3
      getDeviceSignature_data (respDevice [0x1e, 0x95, 0x0f]) State.init).1 = Except.ok ()
    ∧ (getDeviceSignature stdConsts (respDevice [0x1e, 0x95, 0x0f]) State.init).1
      = Except.ok (0x1e * 65536 + 0x95 * 256 + 0x0f)
    ∧ 0x1e * 65536 + 0x95 * 256 + 0x0f < 2 ^ 24 :=
  ⟨rfl, (getDeviceSignature_result stdConsts (respDevice [0x1e, 0x95, 0x0f]) State.init
    [0x1e, 0x95, 0x0f] rfl rfl).2 0x1e 0x95 0x0f rfl (by decide) (by decide) (by decide)⟩

/-- Claim C20. Once the probe exchange is acknowledged, `detectDevice` returns true exactly
when the bulk response has length 2 and first byte 0x53; for every other response it throws
`CommandException` in strict mode (`reportError = false`) and returns false in probe mode
(`reportError = true`). -/
theorem detectDevice_result (k : Consts) (reportError : Bool) (dev : Device) (s : State)
    (resp : List Nat)
    (hexec : (executeCommands k detectDevice_command 1 detectDevice_data dev s).1
      = Except.ok ())
    (hresp : resp = dev.iso_read
      (executeCommands k detectDevice_command 1 detectDevice_data dev s).2.trace 3 256) :
    (detectDevice k reportError dev s).1 =
      if resp.length = 2 ∧ resp.getD 0 0 = 0x53 then Except.ok true
      else if reportError = true then Except.ok false
      else Except.error Error.CommandException := by
  simp only [detectDevice, bind_run]
  rw [run_ok_eq _ _ hexec]
  simp only [iso_read_run, ← hresp, ite_run, throwErr_run, pure_run]
  cases reportError <;> by_cases h1 : resp.length = 2 <;>
    by_cases h2 : resp.getD 0 0 = 0x53 <;>
    simp only [h1, h2, ne_eq, not_true_eq_false, not_false_eq_true, if_true, if_false,
      and_self, and_false, false_and, Bool.false_eq_true]

/-- Claim C20 on the response `52 00` in both modes and on the response `53 00`. -/
theorem detectDevice_result_witness :
    (executeCommands stdConsts detectDevice_command 1 detectDevice_data
      (respDevice [0x52, 0x00]) State.init).1 = Except.ok ()
    ∧ (detectDevice stdConsts false (respDevice [0x52, 0x00]) State.init).1
      = Except.error Error.CommandException
    ∧ (detectDevice stdConsts true (respDevice [0x52, 0x00]) State.init).1 = Except.ok false
    ∧ (detectDevice stdConsts false (respDevice [0x53, 0x00]) State.init).1 = Except.ok true :=
  ⟨rfl,
    (detectDevice_result stdConsts false (respDevice [0x52, 0x00]) State.init [0x52, 0x00]
      rfl rfl).trans rfl,
    (detectDevice_result stdConsts true (respDevice [0x52, 0x00]) State.init [0x52, 0x00]
      rfl rfl).trans rfl,
    (detectDevice_result stdConsts false (respDevice [0x53, 0x00]) State.init [0x53, 0x00]
      rfl rfl).trans rfl⟩

/-- Counting bulk reads over a concatenation. -/
theorem bulkReads_append (a b : List Event) : bulkReads (a ++ b) = bulkReads a + bulkReads b := by
  induction a with
  | nil => simp [bulkReads]
  | cons e a ih =>
    cases e <;> simp [bulkReads, ih]
    omega

/-- What `readMemoryChunk` does: the extended-address command for chunk 512, the read command,
then the polling loop. -/
theorem readMemoryChunk_run (k : Consts) (chunkNumber : Nat) (mem : memory_t) (dev : Device)
    (s : State) :
    readMemoryChunk k chunkNumber mem dev s =
      let calls := s.calls ++ [Call.readMemoryChunk chunkNumber (decide (mem = memory_t.FLASH))]
      if chunkNumber = 512 then
        let a1 := dev.int_read (s.trace ++ [Event.int_write 2 [0x0b, 0x01]]) 2 1
        let t1 := s.trace ++ [Event.int_write 2 [0x0b, 0x01], Event.int_read 2 1 a1]
        if a1 = [0] then
          readMemoryChunk_tail k dev
            { continuedWrite := s.continuedWrite,
              trace := t1 ++ [Event.int_write 2 (readCommand mem chunkNumber)],
              calls := calls }
        else
          (Except.error Error.CommandException,
            { continuedWrite := s.continuedWrite, trace := t1, calls := calls })
      else
        readMemoryChunk_tail k dev
          { continuedWrite := s.continuedWrite,
            trace := s.trace ++ [Event.int_write 2 (readCommand mem chunkNumber)],
            calls := calls } := by
  cases mem
  all_goals
    simp only [readMemoryChunk, readMemoryChunk_tail, bind_run, logCall, ite_run, pure_run,
      int_write, emit, setExtendedAddress_run, readCommand, List.take_succ_cons, List.take_zero,
      List.append_assoc, List.cons_append, List.nil_append]
    by_cases h2 : chunkNumber = 512
    · simp only [if_pos h2]
      by_cases h3 : dev.int_read (s.trace ++ [Event.int_write 2 [0x0b, 0x01]]) 2 1 = [0]
      · simp only [if_pos h3, ackResult, if_true, List.append_assoc, List.cons_append,
          List.nil_append]
      · simp only [if_neg h3, ackResult, if_false]
    · simp only [if_neg h2]

/-- The polling loop never throws; it adds sleeps and bulk reads only; it leaves with a
non-zero counter only on a response of 256 bytes; and when every response is short it runs the
counter down to 0 with one bulk read per unit (one read when entered at 0). -/
theorem readMemoryChunk_poll_effect (k : Consts) (dev : Device) :
    ∀ (count : Nat) (s : State), ∃ b c evs,
      readMemoryChunk_poll k count dev s
        = (Except.ok (b, c),
            { continuedWrite := s.continuedWrite, trace := s.trace ++ evs, calls := s.calls })
      ∧ (∀ ep d, Event.int_write ep d ∉ evs)
      ∧ (c ≠ 0 → b.length = 256)
      ∧ ((∀ h ep n, (dev.iso_read h ep n).length ≠ USB_TRANSFER_SIZE) →
          c = 0 ∧ bulkReads evs = max count 1) := by
  intro count
  induction count with
  | zero =>
    intro s
    refine ⟨(dev.iso_read (s.trace ++ [Event.usleep k.READ_PAGE_DELAY]) 3 256), 0,
      [Event.usleep k.READ_PAGE_DELAY, Event.iso_read 3 256
        (dev.iso_read (s.trace ++ [Event.usleep k.READ_PAGE_DELAY]) 3 256)], ?_, ?_, ?_, ?_⟩
    · simp only [readMemoryChunk_poll, bind_run, emit_run, iso_read_run, pure_run,
        List.append_assoc, List.cons_append, List.nil_append]
    · simp
    · simp
    · intro _
      simp [bulkReads]
  | succ count ih =>
    intro s
    simp only [readMemoryChunk_poll, bind_run, emit_run, iso_read_run, pure_run, ite_run,
      List.append_assoc, List.cons_append, List.nil_append]
    by_cases hlen : (dev.iso_read (s.trace ++ [Event.usleep k.READ_PAGE_DELAY]) 3 256).length
        = USB_TRANSFER_SIZE
    · simp only [if_pos hlen]
      refine ⟨(dev.iso_read (s.trace ++ [Event.usleep k.READ_PAGE_DELAY]) 3 256), count + 1,
        [Event.usleep k.READ_PAGE_DELAY, Event.iso_read 3 256
          (dev.iso_read (s.trace ++ [Event.usleep k.READ_PAGE_DELAY]) 3 256)], rfl, ?_, ?_, ?_⟩
      · simp
      · intro _
        exact hlen
      · intro hshort
        exact absurd hlen (hshort _ _ _)
    · simp only [if_neg hlen]
      by_cases hc : count ≠ 0
      · simp only [if_pos hc]
        obtain ⟨b, c, evs, hrun, hnw, hb, hs⟩ := ih
          { continuedWrite := s.continuedWrite,
            trace := s.trace ++ [Event.usleep k.READ_PAGE_DELAY, Event.iso_read 3 256
              (dev.iso_read (s.trace ++ [Event.usleep k.READ_PAGE_DELAY]) 3 256)],
            calls := s.calls }
        refine ⟨b, c, [Event.usleep k.READ_PAGE_DELAY, Event.iso_read 3 256
            (dev.iso_read (s.trace ++ [Event.usleep k.READ_PAGE_DELAY]) 3 256)] ++ evs,
          ?_, ?_, hb, ?_⟩
        · rw [hrun]
          simp only [List.append_assoc, List.cons_append, List.nil_append]
        · intro ep d hmem
          simp only [List.cons_append, List.nil_append, List.mem_cons, reduceCtorEq,
            false_or] at hmem
          exact hnw ep d hmem
        · intro hshort
          obtain ⟨h1, h2⟩ := hs hshort
          refine ⟨h1, ?_⟩
          rw [bulkReads_append, h2]
          simp only [bulkReads]
          omega
      · simp only [if_neg hc]
        refine ⟨(dev.iso_read (s.trace ++ [Event.usleep k.READ_PAGE_DELAY]) 3 256), 0,
          [Event.usleep k.READ_PAGE_DELAY, Event.iso_read 3 256
            (dev.iso_read (s.trace ++ [Event.usleep k.READ_PAGE_DELAY]) 3 256)], rfl, ?_, ?_, ?_⟩
        · simp
        · simp
        · intro _
          have hc0 : count = 0 := by omega
          simp [bulkReads, hc0]

/-- What the polling part of `readMemoryChunk` does from a state `st`: it adds sleeps and
bulk reads only, returns nothing but a response of 256 bytes, and with a budget of at least 1
and short responses throughout it throws `CommandException` after `MAX_READ_CYCLES` bulk
reads. -/
theorem readMemoryChunk_tail_effect (k : Consts) (dev : Device) (st : State) :
    ∃ evs, (readMemoryChunk_tail k dev st).2
        = { continuedWrite := st.continuedWrite, trace := st.trace ++ evs, calls := st.calls }
      ∧ (∀ ep d, Event.int_write ep d ∉ evs)
      ∧ (∀ b, (readMemoryChunk_tail k dev st).1 = Except.ok b → b.length = 256)
      ∧ (1 ≤ k.MAX_READ_CYCLES →
          (∀ h ep n, (dev.iso_read h ep n).length ≠ USB_TRANSFER_SIZE) →
          (readMemoryChunk_tail k dev st).1 = Except.error Error.CommandException
          ∧ bulkReads evs = k.MAX_READ_CYCLES) := by
  obtain ⟨b, c, evs, hrun, hnw, hb, hs⟩ := readMemoryChunk_poll_effect k dev k.MAX_READ_CYCLES st
  simp only [readMemoryChunk_tail, bind_run, hrun, ite_run, throwErr_run, pure_run]
  refine ⟨evs, ?_, hnw, ?_, ?_⟩
  · split_ifs <;> rfl
  · intro b1 h
    by_cases hc : c = 0
    · simp [hc] at h
    · simp only [if_neg hc, Except.ok.injEq] at h
      rw [← h]
      exact hb hc
  · intro hmax hshort
    obtain ⟨h1, h2⟩ := hs hshort
    simp only [h1, if_true, true_and]
    rw [h2]
    omega

/-- Claim C16, at chunk 512 with a transport that answers the extended-address command with
the byte 0x01 and every bulk read with an empty response: `readMemoryChunk` throws
`CommandException` without a single bulk read, the budget being 5. -/
theorem readMemoryChunk_512_no_bulk_read :
    1 ≤ stdConsts.MAX_READ_CYCLES
    ∧ (∀ h ep n, ((constDevice [0x01]).iso_read h ep n).length ≠ USB_TRANSFER_SIZE)
    ∧ (readMemoryChunk stdConsts 512 memory_t.FLASH (constDevice [0x01]) State.init).1
      = Except.error Error.CommandException
    ∧ bulkReads (newEvents State.init
        (readMemoryChunk stdConsts 512 memory_t.FLASH (constDevice [0x01]) State.init)) = 0
    ∧ bulkReads (newEvents State.init
        (readMemoryChunk stdConsts 512 memory_t.FLASH (constDevice [0x01]) State.init))
      ≠ stdConsts.MAX_READ_CYCLES :=
  ⟨by decide, fun _ _ _ => by simp [constDevice, USB_TRANSFER_SIZE], rfl, by decide, by decide⟩

/-- Claim C16, amended. If `MAX_READ_CYCLES >= 1`, every bulk read returns a response whose
length is not 256, and the extended-address command of chunk 512 (when that is the chunk) is
acknowledged by 0x00, `readMemoryChunk` performs exactly `MAX_READ_CYCLES` bulk reads and then
throws `CommandException`. -/
theorem readMemoryChunk_exhausts_budget (k : Consts) (chunkNumber : Nat) (mem : memory_t)
    (dev : Device) (s : State) (hmax : 1 ≤ k.MAX_READ_CYCLES)
    (hshort : ∀ h ep n, (dev.iso_read h ep n).length ≠ USB_TRANSFER_SIZE)
    (hext : chunkNumber = 512 →
      dev.int_read (s.trace ++ [Event.int_write 2 [0x0b, 0x01]]) 2 1 = [0x00]) :
    (readMemoryChunk k chunkNumber mem dev s).1 = Except.error Error.CommandException
    ∧ bulkReads (newEvents s (readMemoryChunk k chunkNumber mem dev s))
      = k.MAX_READ_CYCLES := by
  rw [newEvents, readMemoryChunk_run]
  simp only
  by_cases h2 : chunkNumber = 512
  · have ha := hext h2
    simp only [if_pos h2, ha, if_true]
    obtain ⟨evs, hst, _, _, hs⟩ := readMemoryChunk_tail_effect k dev
      { continuedWrite := s.continuedWrite,
        trace := s.trace ++ [Event.int_write 2 [0x0b, 0x01], Event.int_read 2 1 [0]] ++
          [Event.int_write 2 (readCommand mem chunkNumber)],
        calls := s.calls ++ [Call.readMemoryChunk chunkNumber (decide (mem = memory_t.FLASH))] }
    obtain ⟨h3, h4⟩ := hs hmax hshort
    refine ⟨h3, ?_⟩
    rw [hst]
    simp only [List.append_assoc, List.drop_left, bulkReads_append, h4]
    simp [bulkReads]
  · simp only [if_neg h2]
    obtain ⟨evs, hst, _, _, hs⟩ := readMemoryChunk_tail_effect k dev
      { continuedWrite := s.continuedWrite,
        trace := s.trace ++ [Event.int_write 2 (readCommand mem chunkNumber)],
        calls := s.calls ++ [Call.readMemoryChunk chunkNumber (decide (mem = memory_t.FLASH))] }
    obtain ⟨h3, h4⟩ := hs hmax hshort
    refine ⟨h3, ?_⟩
    rw [hst]
    simp only [List.append_assoc, List.drop_left, bulkReads_append, h4]
    simp [bulkReads]

/-- Claim C16 amended, on EEPROM chunk 3 with a budget of 5 and empty responses. -/
theorem readMemoryChunk_exhausts_budget_witness :
    (1 ≤ stdConsts.MAX_READ_CYCLES
      ∧ (∀ h ep n, (okDevice.iso_read h ep n).length ≠ USB_TRANSFER_SIZE)
      ∧ (3 = 512 →
        okDevice.int_read (State.init.trace ++ [Event.int_write 2 [0x0b, 0x01]]) 2 1 = [0x00]))
    ∧ (readMemoryChunk stdConsts 3 memory_t.EEPROM okDevice State.init).1
      = Except.error Error.CommandException
    ∧ bulkReads (newEvents State.init
        (readMemoryChunk stdConsts 3 memory_t.EEPROM okDevice State.init))
      = stdConsts.MAX_READ_CYCLES :=
  ⟨⟨by decide, fun _ _ _ => by simp [okDevice, USB_TRANSFER_SIZE], fun _ => rfl⟩,
    readMemoryChunk_exhausts_budget stdConsts 3 memory_t.EEPROM okDevice State.init
      (by decide) (fun _ _ _ => by simp [okDevice, USB_TRANSFER_SIZE]) (fun _ => rfl)⟩

/-- Claim C17. For every chunk index `i`, the read command of `readMemoryChunk` is
`[0x08, 0x00, i mod 256, (i div 256) mod 256, (i div 65536) mod 256, 0x01]` for flash and
`[0x0a, 0x00, i mod 256, (i div 256) mod 256, 0x01]` for EEPROM.  For `i` other than 512 it is
the first operation and the only write on the control channel, so no extended-address command
is issued.  For `i = 512`, with either memory, the extended-address command `[0x0b, 0x01]` is
written and its acknowledgement read first; the read command follows as the next operation
when that acknowledgement is 0x00, and nothing follows otherwise. -/
theorem readMemoryChunk_read_command (k : Consts) (i : Nat) (mem : memory_t) (dev : Device)
    (s : State) :
    readCommand memory_t.FLASH i
      = [0x08, 0x00, i % 256, i / 256 % 256, i / 65536 % 256, 0x01]
    ∧ readCommand memory_t.EEPROM i = [0x0a, 0x00, i % 256, i / 256 % 256, 0x01]
    ∧ (i ≠ 512 → ∃ rest, newEvents s (readMemoryChunk k i mem dev s)
          = Event.int_write 2 (readCommand mem i) :: rest
        ∧ (∀ ep d, Event.int_write ep d ∉ rest)
        ∧ Event.int_write 2 [0x0b, 0x01] ∉ newEvents s (readMemoryChunk k i mem dev s))
    ∧ (i = 512 → ∃ a1,
        (a1 ≠ [0x00] ∧ newEvents s (readMemoryChunk k i mem dev s)
          = [Event.int_write 2 [0x0b, 0x01], Event.int_read 2 1 a1])
        ∨ (a1 = [0x00] ∧ ∃ rest, newEvents s (readMemoryChunk k i mem dev s)
            = Event.int_write 2 [0x0b, 0x01] :: Event.int_read 2 1 a1
              :: Event.int_write 2 (readCommand mem i) :: rest
          ∧ (∀ ep d, Event.int_write ep d ∉ rest))) := by
  refine ⟨rfl, rfl, ?_, ?_⟩
  · intro h2
    rw [newEvents, readMemoryChunk_run]
    simp only [if_neg h2]
    obtain ⟨evs, hst, hnw, _, _⟩ := readMemoryChunk_tail_effect k dev
      { continuedWrite := s.continuedWrite,
        trace := s.trace ++ [Event.int_write 2 (readCommand mem i)],
        calls := s.calls ++ [Call.readMemoryChunk i (decide (mem = memory_t.FLASH))] }
    rw [hst]
    simp only [List.append_assoc, List.drop_left, List.cons_append, List.nil_append]
    refine ⟨evs, rfl, hnw, ?_⟩
    intro hmem
    rcases List.mem_cons.mp hmem with h | h
    · cases mem <;> simp [readCommand] at h
    · exact hnw _ _ h
  · intro h2
    rw [newEvents, readMemoryChunk_run]
    simp only [if_pos h2]
    refine ⟨dev.int_read (s.trace ++ [Event.int_write 2 [0x0b, 0x01]]) 2 1, ?_⟩
    by_cases h3 : dev.int_read (s.trace ++ [Event.int_write 2 [0x0b, 0x01]]) 2 1 = [0]
    · right
      refine ⟨h3, ?_⟩
      simp only [if_pos h3]
      obtain ⟨evs, hst, hnw, _, _⟩ := readMemoryChunk_tail_effect k dev
        { continuedWrite := s.continuedWrite,
          trace := s.trace ++ [Event.int_write 2 [0x0b, 0x01], Event.int_read 2 1
            (dev.int_read (s.trace ++ [Event.int_write 2 [0x0b, 0x01]]) 2 1)] ++
            [Event.int_write 2 (readCommand mem i)],
          calls := s.calls ++ [Call.readMemoryChunk i (decide (mem = memory_t.FLASH))] }
      rw [hst]
      simp only [List.append_assoc, List.drop_left, List.cons_append, List.nil_append]
      exact ⟨evs, rfl, hnw⟩
    · left
      refine ⟨h3, ?_⟩
      simp only [if_neg h3, List.drop_left]

/-- Claim C17 on flash chunk 512 with every acknowledgement a success. -/
theorem readMemoryChunk_read_command_witness :
    ∃ a1,
      (a1 ≠ [0x00] ∧ newEvents State.init
          (readMemoryChunk stdConsts 512 memory_t.FLASH okDevice State.init)
        = [Event.int_write 2 [0x0b, 0x01], Event.int_read 2 1 a1])
      ∨ (a1 = [0x00] ∧ ∃ rest, newEvents State.init
            (readMemoryChunk stdConsts 512 memory_t.FLASH okDevice State.init)
          = Event.int_write 2 [0x0b, 0x01] :: Event.int_read 2 1 a1
            :: Event.int_write 2 (readCommand memory_t.FLASH 512) :: rest
        ∧ (∀ ep d, Event.int_write ep d ∉ rest)) :=
  (readMemoryChunk_read_command stdConsts 512 memory_t.FLASH okDevice State.init).2.2.2 rfl

/-- With all acknowledgements successes, `writeEEPROMChunk` returns; in any case it adds one
entry to the call log. -/
theorem writeEEPROMChunk_effect (k : Consts) (uninit code : List Nat) (address : Nat)
    (dev : Device) (s : State) :
    (writeEEPROMChunk k uninit code address dev s).2.calls
      = s.calls ++ [Call.writeEEPROMChunk (code.take k.EEPROM_WRITE_CHUNK_SIZE) address]
    ∧ (AcksOk dev → (writeEEPROMChunk k uninit code address dev s).1 = Except.ok ()) := by
  rw [writeEEPROMChunk_run]
  refine ⟨rfl, fun h => ?_⟩
  simp only [ackResult]
  rw [if_pos]
  have hd : ([0x09, checksum (code.take k.EEPROM_WRITE_CHUNK_SIZE
      ++ uninit.drop k.EEPROM_WRITE_CHUNK_SIZE) 256 % 256,
    checksum (code.take k.EEPROM_WRITE_CHUNK_SIZE
      ++ uninit.drop k.EEPROM_WRITE_CHUNK_SIZE) 256 / 256,
    address % 256, address / 256 % 256, k.EEPROM_WRITE_CHUNK_SIZE % 256, 0x00, 0x09]
      : List Nat).head? ≠ some 0x0e := by simp
  have h2 := h.other (s.trace ++ [Event.iso_write 3 ((code.take k.EEPROM_WRITE_CHUNK_SIZE
    ++ uninit.drop k.EEPROM_WRITE_CHUNK_SIZE).take 256)]) _ 2 1 hd
  simpa only [List.append_assoc, List.cons_append, List.nil_append] using h2

/-- The loop of `writeEEPROM`, started at index `c` with `n` rounds to go: it calls
`writeEEPROMChunk` on the chunks `c, c + 1, ...` in turn, each with its byte address, and stops
at the first failure. -/
theorem writeEEPROM_loop_effect (k : Consts) (uninit : Nat → List Nat) (buffer : List Nat)
    (dev : Device) :
    ∀ (n c : Nat) (s : State), ∃ m, m ≤ n
      ∧ (writeEEPROM_loop k uninit buffer n c dev s).2.calls = s.calls ++
          (List.range' c m).map (fun i => Call.writeEEPROMChunk
            ((buffer.drop (i * k.EEPROM_WRITE_CHUNK_SIZE)).take k.EEPROM_WRITE_CHUNK_SIZE)
            (i * k.EEPROM_WRITE_CHUNK_SIZE))
      ∧ ((writeEEPROM_loop k uninit buffer n c dev s).1 = Except.ok () → m = n)
      ∧ (AcksOk dev → (writeEEPROM_loop k uninit buffer n c dev s).1 = Except.ok ()) := by
  intro n
  induction n with
  | zero =>
    intro c s
    exact ⟨0, le_refl _, by simp [writeEEPROM_loop, pure_run], fun _ => rfl, fun _ => rfl⟩
  | succ n ih =>
    intro c s
    obtain ⟨hcalls, hok⟩ := writeEEPROMChunk_effect k (uninit c)
      (buffer.drop (c * k.EEPROM_WRITE_CHUNK_SIZE)) (c * k.EEPROM_WRITE_CHUNK_SIZE) dev s
    simp only [writeEEPROM_loop, bind_run, emit_run]
    rcases hr : writeEEPROMChunk k (uninit c) (buffer.drop (c * k.EEPROM_WRITE_CHUNK_SIZE))
      (c * k.EEPROM_WRITE_CHUNK_SIZE) dev s with ⟨r1, s1⟩
    rw [hr] at hcalls hok
    simp only at hcalls hok
    cases r1 with
    | error e =>
      refine ⟨1, by omega, ?_, ?_, ?_⟩
      · simpa using hcalls
      · intro h
        cases h
      · intro h
        exact absurd (hok h) (by simp)
    | ok u =>
      obtain ⟨m, hm, hc2, hres, hok2⟩ := ih (c + 1)
        { continuedWrite := s1.continuedWrite, trace := s1.trace ++ [Event.progress_step],
          calls := s1.calls }
      refine ⟨m + 1, by omega, ?_, ?_, hok2⟩
      · simp only at hc2
        rw [hc2, hcalls, List.range'_succ, List.map_cons, List.append_assoc]
        rfl
      · intro h
        have := hres h
        omega

/-- What `writeEEPROM` does with its buffer: the calls of `writeEEPROMChunk` it makes are an
initial segment of the chunks `0 .. size / C - 1` followed by the padded last chunk, each with
its byte address; with all acknowledgements successes it returns and has made all of them. -/
theorem writeEEPROM_effect (k : Consts) (uninit : Nat → List Nat) (buffer : List Nat)
    (size : Nat) (dev : Device) (s : State) :
    ∃ cs,
      (writeEEPROM k uninit buffer size dev s).2.calls = s.calls ++ cs
      ∧ cs <+: (List.range' 0 (size / k.EEPROM_WRITE_CHUNK_SIZE)).map (fun i =>
          Call.writeEEPROMChunk
            ((buffer.drop (i * k.EEPROM_WRITE_CHUNK_SIZE)).take k.EEPROM_WRITE_CHUNK_SIZE)
            (i * k.EEPROM_WRITE_CHUNK_SIZE))
          ++ [Call.writeEEPROMChunk
            (((buffer.drop (k.EEPROM_WRITE_CHUNK_SIZE * (size / k.EEPROM_WRITE_CHUNK_SIZE))).take
                (size - k.EEPROM_WRITE_CHUNK_SIZE * (size / k.EEPROM_WRITE_CHUNK_SIZE))
              ++ List.replicate (k.EEPROM_WRITE_CHUNK_SIZE
                - (size - k.EEPROM_WRITE_CHUNK_SIZE * (size / k.EEPROM_WRITE_CHUNK_SIZE)))
                k.EMPTY_EEPROM_BYTE).take k.EEPROM_WRITE_CHUNK_SIZE)
            (size / k.EEPROM_WRITE_CHUNK_SIZE * k.EEPROM_WRITE_CHUNK_SIZE)]
      ∧ (AcksOk dev → (writeEEPROM k uninit buffer size dev s).1 = Except.ok ()
          ∧ cs = (List.range' 0 (size / k.EEPROM_WRITE_CHUNK_SIZE)).map (fun i =>
            Call.writeEEPROMChunk
              ((buffer.drop (i * k.EEPROM_WRITE_CHUNK_SIZE)).take k.EEPROM_WRITE_CHUNK_SIZE)
              (i * k.EEPROM_WRITE_CHUNK_SIZE))
            ++ [Call.writeEEPROMChunk
              (((buffer.drop (k.EEPROM_WRITE_CHUNK_SIZE * (size / k.EEPROM_WRITE_CHUNK_SIZE))).take
                  (size - k.EEPROM_WRITE_CHUNK_SIZE * (size / k.EEPROM_WRITE_CHUNK_SIZE))
                ++ List.replicate (k.EEPROM_WRITE_CHUNK_SIZE
                  - (size - k.EEPROM_WRITE_CHUNK_SIZE * (size / k.EEPROM_WRITE_CHUNK_SIZE)))
                  k.EMPTY_EEPROM_BYTE).take k.EEPROM_WRITE_CHUNK_SIZE)
              (size / k.EEPROM_WRITE_CHUNK_SIZE * k.EEPROM_WRITE_CHUNK_SIZE)]) := by
  simp only [writeEEPROM, bind_run, emit_run]
  generalize hL : (buffer.drop (k.EEPROM_WRITE_CHUNK_SIZE
      * (size / k.EEPROM_WRITE_CHUNK_SIZE))).take
      (size - k.EEPROM_WRITE_CHUNK_SIZE * (size / k.EEPROM_WRITE_CHUNK_SIZE))
    ++ List.replicate (k.EEPROM_WRITE_CHUNK_SIZE
      - (size - k.EEPROM_WRITE_CHUNK_SIZE * (size / k.EEPROM_WRITE_CHUNK_SIZE)))
      k.EMPTY_EEPROM_BYTE = L
  generalize size / k.EEPROM_WRITE_CHUNK_SIZE = q
  obtain ⟨hc0, _⟩ := delayMs_effect 0x14 dev s
  have hok0 := fun h : AcksOk dev => delayMs_ok h 0x14 s
  rcases h0 : delayMs 0x14 dev s with ⟨r0, s0⟩
  rw [h0] at hc0 hok0
  simp only at hc0 hok0
  cases r0 with
  | error e =>
    exact ⟨[], by simpa using hc0, List.nil_prefix, fun h => absurd (hok0 h) (by simp)⟩
  | ok u =>
    simp only
    obtain ⟨m, hm, hc1, hres1, hok1⟩ := writeEEPROM_loop_effect k uninit buffer dev q 0
      { continuedWrite := s0.continuedWrite,
        trace := s0.trace ++ [Event.progress_new (q + 1)], calls := s0.calls }
    rcases h1 : writeEEPROM_loop k uninit buffer q 0 dev
      { continuedWrite := s0.continuedWrite,
        trace := s0.trace ++ [Event.progress_new (q + 1)], calls := s0.calls } with ⟨r1, s1⟩
    rw [h1] at hc1 hres1 hok1
    simp only at hc1 hres1 hok1
    cases r1 with
    | error e =>
      refine ⟨_, by rw [hc1, hc0], ?_, fun h => absurd (hok1 h) (by simp)⟩
      apply List.IsPrefix.trans _ (List.prefix_append _ _)
      apply List.IsPrefix.map
      have hq : List.range' 0 q = List.range' 0 m ++ List.range' (0 + m) (q - m) := by
        rw [List.range'_append_1]
        congr 1
        omega
      rw [hq]
      exact List.prefix_append _ _
    | ok u1 =>
      have hmq := hres1 rfl
      subst hmq
      simp only
      obtain ⟨hc2, hok2⟩ := writeEEPROMChunk_effect k (uninit m) L
        (m * k.EEPROM_WRITE_CHUNK_SIZE) dev s1
      rcases h2 : writeEEPROMChunk k (uninit m) L (m * k.EEPROM_WRITE_CHUNK_SIZE) dev s1
        with ⟨r2, s2⟩
      rw [h2] at hc2 hok2
      simp only at hc2 hok2
      cases r2 with
      | error e =>
        exact ⟨_, by rw [hc2, hc1, hc0, List.append_assoc], List.prefix_rfl,
          fun h => absurd (hok2 h) (by simp)⟩
      | ok u2 =>
        simp only
        obtain ⟨hc3, _⟩ := delayMs_effect 0x14 dev
          { continuedWrite := s2.continuedWrite, trace := s2.trace ++ [Event.progress_step],
            calls := s2.calls }
        exact ⟨_, by rw [hc3, hc2, hc1, hc0, List.append_assoc], List.prefix_rfl,
          fun h => ⟨delayMs_ok h 0x14 _, rfl⟩⟩

/-- The array `lastChunk` of `writeEEPROM` for a buffer of exactly `size` bytes: the bytes
left after the full chunks, then fill bytes up to the chunk size. -/
theorem lastChunk_eq_fill (C fill : Nat) (buffer : List Nat) (size : Nat) (hC : 0 < C)
    (hsize : size = buffer.length) :
    ((buffer.drop (C * (size / C))).take (size - C * (size / C))
        ++ List.replicate (C - (size - C * (size / C))) fill).take C
      = buffer.drop (size / C * C) ++ List.replicate (C - size % C) fill := by
  have hmod : size - C * (size / C) = size % C := (Nat.mod_def size C).symm
  have hlt : size % C < C := Nat.mod_lt _ hC
  have hlen : (buffer.drop (C * (size / C))).length = size % C := by
    rw [List.length_drop, ← hsize, hmod]
  rw [hmod, Nat.mul_comm (size / C) C, List.take_of_length_le (le_of_eq hlen)]
  apply List.take_of_length_le
  rw [List.length_append, hlen, List.length_replicate]
  omega

/-- Claim C14. For every buffer of `N` bytes, with `C > 0` the EEPROM chunk size and
`q = N div C`: the calls of `writeEEPROMChunk` made by `writeEEPROM` are, in this order and as
far as the run gets, the chunks `buffer[i*C, (i+1)*C)` unchanged with the byte address `i*C`
for `i < q`, then the bytes `buffer[q*C, N)` followed by `C - (N mod C)` EEPROM fill bytes with
the byte address `q*C`; with every acknowledgement a success `writeEEPROM` returns and has
made all of them. -/
theorem writeEEPROM_chunk_calls (k : Consts) (uninit : Nat → List Nat) (buffer : List Nat)
    (size : Nat) (dev : Device) (s : State) (hC : 0 < k.EEPROM_WRITE_CHUNK_SIZE)
    (hsize : size = buffer.length) :
    newCalls s (writeEEPROM k uninit buffer size dev s) <+:
      (List.range (size / k.EEPROM_WRITE_CHUNK_SIZE)).map (fun i => Call.writeEEPROMChunk
          ((buffer.drop (i * k.EEPROM_WRITE_CHUNK_SIZE)).take k.EEPROM_WRITE_CHUNK_SIZE)
          (i * k.EEPROM_WRITE_CHUNK_SIZE))
        ++ [Call.writeEEPROMChunk
          (buffer.drop (size / k.EEPROM_WRITE_CHUNK_SIZE * k.EEPROM_WRITE_CHUNK_SIZE)
            ++ List.replicate (k.EEPROM_WRITE_CHUNK_SIZE - size % k.EEPROM_WRITE_CHUNK_SIZE)
              k.EMPTY_EEPROM_BYTE)
          (size / k.EEPROM_WRITE_CHUNK_SIZE * k.EEPROM_WRITE_CHUNK_SIZE)]
    ∧ (AcksOk dev → (writeEEPROM k uninit buffer size dev s).1 = Except.ok ()
      ∧ newCalls s (writeEEPROM k uninit buffer size dev s) =
        (List.range (size / k.EEPROM_WRITE_CHUNK_SIZE)).map (fun i => Call.writeEEPROMChunk
            ((buffer.drop (i * k.EEPROM_WRITE_CHUNK_SIZE)).take k.EEPROM_WRITE_CHUNK_SIZE)
            (i * k.EEPROM_WRITE_CHUNK_SIZE))
          ++ [Call.writeEEPROMChunk
            (buffer.drop (size / k.EEPROM_WRITE_CHUNK_SIZE * k.EEPROM_WRITE_CHUNK_SIZE)
              ++ List.replicate (k.EEPROM_WRITE_CHUNK_SIZE - size % k.EEPROM_WRITE_CHUNK_SIZE)
                k.EMPTY_EEPROM_BYTE)
            (size / k.EEPROM_WRITE_CHUNK_SIZE * k.EEPROM_WRITE_CHUNK_SIZE)]) := by
  obtain ⟨cs, hcs, hpre, hfull⟩ := writeEEPROM_effect k uninit buffer size dev s
  rw [lastChunk_eq_fill _ _ _ _ hC hsize, ← List.range_eq_range'] at hpre hfull
  rw [newCalls_eq _ _ _ hcs]
  exact ⟨hpre, hfull⟩

/-- Claim C14 on 70 bytes 0x01 with 64-byte chunks and fill byte 0xff: chunk 0 is the first 64
bytes at address 0, chunk 1 the last 6 bytes and 58 fill bytes at address 64 (not at 1). -/
theorem writeEEPROM_chunk_calls_witness :
    (0 < stdConsts.EEPROM_WRITE_CHUNK_SIZE ∧ 70 = (List.replicate 70 0x01).length
      ∧ AcksOk okDevice)
    ∧ (writeEEPROM stdConsts (fun _ => List.replicate 256 0x00) (List.replicate 70 0x01) 70
        okDevice State.init).1 = Except.ok ()
    ∧ newCalls State.init (writeEEPROM stdConsts (fun _ => List.replicate 256 0x00)
        (List.replicate 70 0x01) 70 okDevice State.init) =
      [Call.writeEEPROMChunk (List.replicate 64 0x01) 0,
        Call.writeEEPROMChunk (List.replicate 6 0x01 ++ List.replicate 58 0xff) 64] :=
  ⟨⟨by decide, rfl, acksOk_okDevice⟩,
    ((writeEEPROM_chunk_calls stdConsts (fun _ => List.replicate 256 0x00)
      (List.replicate 70 0x01) 70 okDevice State.init (by decide) rfl).2 acksOk_okDevice).1,
    (((writeEEPROM_chunk_calls stdConsts (fun _ => List.replicate 256 0x00)
      (List.replicate 70 0x01) 70 okDevice State.init (by decide) rfl).2 acksOk_okDevice).2).trans
      (by decide)⟩

/-- What `readMemoryChunk` leaves behind: one entry in the call log; and what it returns is a
response of 256 bytes. -/
theorem readMemoryChunk_effect (k : Consts) (chunkNumber : Nat) (mem : memory_t) (dev : Device)
    (s : State) :
    (readMemoryChunk k chunkNumber mem dev s).2.calls
      = s.calls ++ [Call.readMemoryChunk chunkNumber (decide (mem = memory_t.FLASH))]
    ∧ (∀ b, (readMemoryChunk k chunkNumber mem dev s).1 = Except.ok b → b.length = 256) := by
  rw [readMemoryChunk_run]
  simp only
  split_ifs with h2 h3
  · obtain ⟨evs, hst, _, hb, _⟩ := readMemoryChunk_tail_effect k dev
      { continuedWrite := s.continuedWrite,
        trace := s.trace ++ [Event.int_write 2 [0x0b, 0x01], Event.int_read 2 1
          (dev.int_read (s.trace ++ [Event.int_write 2 [0x0b, 0x01]]) 2 1)] ++
          [Event.int_write 2 (readCommand mem chunkNumber)],
        calls := s.calls ++ [Call.readMemoryChunk chunkNumber (decide (mem = memory_t.FLASH))] }
    exact ⟨by rw [hst], hb⟩
  · exact ⟨rfl, fun b h => by cases h⟩
  · obtain ⟨evs, hst, _, hb, _⟩ := readMemoryChunk_tail_effect k dev
      { continuedWrite := s.continuedWrite,
        trace := s.trace ++ [Event.int_write 2 (readCommand mem chunkNumber)],
        calls := s.calls ++ [Call.readMemoryChunk chunkNumber (decide (mem = memory_t.FLASH))] }
    exact ⟨by rw [hst], hb⟩

/-- Copying 256 bytes into an array that has room for them keeps its length, and the part of
the array up to the end of the copy is the old part before the copy followed by the bytes
copied. -/
theorem memcpy_spec (dest src : List Nat) (offset : Nat) (hoff : offset + 256 ≤ dest.length)
    (hsrc : src.length = 256) :
    (memcpy dest offset src 256).length = dest.length
    ∧ (memcpy dest offset src 256).take (offset + 256) = dest.take offset ++ src := by
  have h1 : src.take 256 = src := List.take_of_length_le (le_of_eq hsrc)
  have h2 : (dest.take offset ++ src).length = offset + 256 := by
    rw [List.length_append, List.length_take_of_le (by omega), hsrc]
  unfold memcpy
  rw [h1]
  constructor
  · rw [List.length_append, h2, List.length_drop]
    omega
  · exact List.take_left' h2

/-- Round `j + 1` of the loop started at index `c` is round `j` of the loop started at index
`c + 1` in the state reached after the first round. -/
theorem readMemory_chunkAt_succ (k : Consts) (mem : memory_t) (dev : Device) (c : Nat)
    (s : State) (j : Nat) :
    readMemory_chunkAt k mem dev c s (j + 1)
      = readMemory_chunkAt k mem dev (c + 1)
          (emit Event.progress_step dev (readMemoryChunk k c mem dev s).2).2 j := by
  unfold readMemory_chunkAt
  rw [show c + (j + 1) = c + 1 + j by omega]
  rfl

/-- The loop of `readMemory`, started at index `c` with `n` rounds to go on an array with room
for the chunks `c .. c + n - 1`: when every chunk read returns, the loop returns the array with
its length unchanged, its part before chunk `c` unchanged, and each chunk read stored at its
place; the chunk reads are made in ascending order of index. -/
theorem readMemory_loop_effect (k : Consts) (mem : memory_t) (dev : Device) :
    ∀ (n c : Nat) (buf : List Nat) (s : State), (c + n) * 256 ≤ buf.length →
      (∀ j, j < n → ∃ b, readMemory_chunkAt k mem dev c s j = Except.ok b) →
      ∃ out, (readMemory_loop k mem n c buf dev s).1 = Except.ok out
        ∧ out.length = buf.length
        ∧ out.take (c * 256) = buf.take (c * 256)
        ∧ (∀ j b, j < n → readMemory_chunkAt k mem dev c s j = Except.ok b →
            (out.drop ((c + j) * 256)).take 256 = b)
        ∧ (readMemory_loop k mem n c buf dev s).2.calls = s.calls ++
            (List.range' c n).map (fun i =>
              Call.readMemoryChunk i (decide (mem = memory_t.FLASH))) := by
  intro n
  induction n with
  | zero =>
    intro c buf s _ _
    exact ⟨buf, rfl, rfl, rfl, fun j b hj => absurd hj (by omega), by
      simp [readMemory_loop, pure_run]⟩
  | succ n ih =>
    intro c buf s hlen hok
    obtain ⟨b0, hb0⟩ := hok 0 (by omega)
    have hb0r : (readMemoryChunk k c mem dev s).1 = Except.ok b0 := hb0
    obtain ⟨hcalls, hb256⟩ := readMemoryChunk_effect k c mem dev s
    have hb0len := hb256 b0 hb0r
    obtain ⟨hml, hmt⟩ := memcpy_spec buf b0 (c * 256) (by omega) hb0len
    obtain ⟨out, hout, holen, hotake, hochunks, hocalls⟩ := ih (c + 1)
      (memcpy buf (c * 256) b0 256)
      (emit Event.progress_step dev (readMemoryChunk k c mem dev s).2).2
      (by rw [hml]; omega)
      (fun j hj => by
        rw [← readMemory_chunkAt_succ]
        exact hok (j + 1) (by omega))
    have hrun : readMemory_loop k mem (n + 1) c buf dev s
        = readMemory_loop k mem n (c + 1) (memcpy buf (c * 256) b0 256) dev
          (emit Event.progress_step dev (readMemoryChunk k c mem dev s).2).2 := by
      simp only [readMemory_loop, bind_run, USB_TRANSFER_SIZE]
      generalize readMemoryChunk k c mem dev s = r at hb0r
      rcases r with ⟨r1, s1⟩
      simp only at hb0r
      subst hb0r
      rfl
    have htk : out.take (c * 256 + 256) = buf.take (c * 256) ++ b0 := by
      have e : (c + 1) * 256 = c * 256 + 256 := by omega
      rw [e] at hotake
      rw [hotake, hmt]
    have hbl : (buf.take (c * 256)).length = c * 256 := List.length_take_of_le (by omega)
    rw [hrun]
    refine ⟨out, hout, by rw [holen, hml], ?_, ?_, ?_⟩
    · have h := congrArg (List.take (c * 256)) htk
      rw [List.take_take, List.take_left' hbl] at h
      rw [← h]
      congr 1
      omega
    · intro j b hj hjb
      cases j with
      | zero =>
        have hbb : b = b0 := by
          rw [hb0] at hjb
          exact (Except.ok.inj hjb).symm
        rw [hbb, Nat.add_zero, List.take_drop, htk, List.drop_left' hbl]
      | succ j =>
        rw [readMemory_chunkAt_succ] at hjb
        have h := hochunks j b (by omega) hjb
        rw [show (c + (j + 1)) * 256 = (c + 1 + j) * 256 by omega]
        exact h
    · rw [hocalls]
      simp only [emit_run, hcalls, List.range'_succ, List.map_cons, List.append_assoc,
        List.cons_append, List.nil_append]

/-- Claim C15. For every size and memory kind, when every chunk read succeeds (each in the
state in which `readMemory` makes it), `readMemory` returns a buffer whose length is the
least multiple of 256 not below `size` (so `size` itself when it is a multiple, 0 for 0), in
which the bytes `[i*256, i*256+256)` are the 256 bytes returned by the call
`readMemoryChunk(i)`, for every `i` below `length / 256`; the chunks are read in ascending
order of index, each once. -/
theorem readMemory_buffer (k : Consts) (fresh : Nat → Nat) (size : Nat) (mem : memory_t)
    (dev : Device) (s : State)
    (hok : ∀ i, i < (size + 255) / 256 → ∃ b, readMemory_chunkAt k mem dev 0
      { continuedWrite := s.continuedWrite,
        trace := s.trace ++ [Event.progress_new ((size + 255) / 256)],
        calls := s.calls } i = Except.ok b) :
    ∃ buffer, (readMemory k fresh size mem dev s).1 = Except.ok buffer
      ∧ buffer.length % 256 = 0 ∧ size ≤ buffer.length ∧ buffer.length < size + 256
      ∧ (size % 256 = 0 → buffer.length = size)
      ∧ buffer.length / 256 = (size + 255) / 256
      ∧ (∀ i b, i < buffer.length / 256 → readMemory_chunkAt k mem dev 0
          { continuedWrite := s.continuedWrite,
            trace := s.trace ++ [Event.progress_new ((size + 255) / 256)],
            calls := s.calls } i = Except.ok b →
          b.length = 256 ∧ (buffer.drop (i * 256)).take 256 = b)
      ∧ newCalls s (readMemory k fresh size mem dev s)
        = (List.range (buffer.length / 256)).map (fun i =>
            Call.readMemoryChunk i (decide (mem = memory_t.FLASH))) := by
  have hsz : (if size % 256 ≠ 0 then size + (256 - size % 256) else size)
      = (size + 255) / 256 * 256 := by
    split_ifs <;> omega
  obtain ⟨out, hout, holen, _, hochunks, hocalls⟩ := readMemory_loop_effect k mem dev
    ((size + 255) / 256) 0 ((List.range ((size + 255) / 256 * 256)).map fresh)
    { continuedWrite := s.continuedWrite,
      trace := s.trace ++ [Event.progress_new ((size + 255) / 256)],
      calls := s.calls }
    (by rw [List.length_map, List.length_range]; omega) hok
  have hrun : readMemory k fresh size mem dev s
      = readMemory_loop k mem ((size + 255) / 256) 0
          ((List.range ((size + 255) / 256 * 256)).map fresh) dev
          { continuedWrite := s.continuedWrite,
            trace := s.trace ++ [Event.progress_new ((size + 255) / 256)],
            calls := s.calls } := by
    have hc : (size + 255) / 256 * 256 / 256 = (size + 255) / 256 :=
      Nat.mul_div_cancel _ (by norm_num)
    simp only [readMemory, bind_run, emit_run, USB_TRANSFER_SIZE, hsz, hc]
  have hlen : out.length = (size + 255) / 256 * 256 := by
    rw [holen, List.length_map, List.length_range]
  have hdiv : out.length / 256 = (size + 255) / 256 := by
    rw [hlen]
    omega
  refine ⟨out, by rw [hrun, hout], by omega, by omega, by omega, fun _ => by omega, hdiv, ?_, ?_⟩
  · intro i b hi hib
    refine ⟨?_, ?_⟩
    · exact (readMemoryChunk_effect k (0 + i) mem dev _).2 b hib
    · have h := hochunks i b (by omega) hib
      rwa [Nat.zero_add] at h
  · apply newCalls_eq
    rw [hrun, hocalls, hdiv, List.range_eq_range']

/-- Claim C15 on a read of 300 bytes of EEPROM from a transport that answers every bulk read
with 256 bytes 0x09: two chunks, a buffer of 512 bytes. -/
theorem readMemory_buffer_witness :
    (∀ i, i < (300 + 255) / 256 → ∃ b, readMemory_chunkAt stdConsts memory_t.EEPROM
      (respDevice (List.replicate 256 0x09)) 0
      { continuedWrite := State.init.continuedWrite,
        trace := State.init.trace ++ [Event.progress_new ((300 + 255) / 256)],
        calls := State.init.calls } i = Except.ok b)
    ∧ (readMemory stdConsts (fun _ => 0x00) 300 memory_t.EEPROM
        (respDevice (List.replicate 256 0x09)) State.init).1
      = Except.ok (List.replicate 512 0x09)
    ∧ ∃ buffer, (readMemory stdConsts (fun _ => 0x00) 300 memory_t.EEPROM
          (respDevice (List.replicate 256 0x09)) State.init).1 = Except.ok buffer
      ∧ buffer.length % 256 = 0 ∧ 300 ≤ buffer.length ∧ buffer.length < 300 + 256
      ∧ (300 % 256 = 0 → buffer.length = 300)
      ∧ buffer.length / 256 = (300 + 255) / 256
      ∧ (∀ i b, i < buffer.length / 256 → readMemory_chunkAt stdConsts memory_t.EEPROM
          (respDevice (List.replicate 256 0x09)) 0
          { continuedWrite := State.init.continuedWrite,
            trace := State.init.trace ++ [Event.progress_new ((300 + 255) / 256)],
            calls := State.init.calls } i = Except.ok b →
          b.length = 256 ∧ (buffer.drop (i * 256)).take 256 = b)
      ∧ newCalls State.init (readMemory stdConsts (fun _ => 0x00) 300 memory_t.EEPROM
          (respDevice (List.replicate 256 0x09)) State.init)
        = (List.range (buffer.length / 256)).map (fun i =>
            Call.readMemoryChunk i (decide (memory_t.EEPROM = memory_t.FLASH))) :=
  ⟨fun i hi => by
      have h2 : i < 2 := hi
      interval_cases i
      · exact ⟨_, rfl⟩
      · exact ⟨_, rfl⟩,
    rfl,
    readMemory_buffer stdConsts (fun _ => 0x00) 300 memory_t.EEPROM
      (respDevice (List.replicate 256 0x09)) State.init (fun i hi => by
        have h2 : i < 2 := hi
        interval_cases i
        · exact ⟨_, rfl⟩
        · exact ⟨_, rfl⟩)⟩

/-- When the part of the transfer buffer behind the chunk holds zero bytes, the frame written
by `writeEEPROMChunk` carries the sum of the chunk's bytes alone. -/
theorem writeEEPROMChunk_frame_zero_tail (k : Consts) (uninit code : List Nat) (address : Nat)
    (dev : Device) (s : State) (hE : k.EEPROM_WRITE_CHUNK_SIZE < 256)
    (hz : ∀ x ∈ uninit.drop k.EEPROM_WRITE_CHUNK_SIZE, x = 0) :
    Event.int_write 2 [0x09, (code.take k.EEPROM_WRITE_CHUNK_SIZE).sum % 65536 % 256,
        (code.take k.EEPROM_WRITE_CHUNK_SIZE).sum % 65536 / 256,
        address % 256, address / 256 % 256, k.EEPROM_WRITE_CHUNK_SIZE, 0x00, 0x09]
      ∈ newEvents s (writeEEPROMChunk k uninit code address dev s) := by
  obtain ⟨a, ha⟩ := writeEEPROMChunk_events k uninit code address dev s
  have hlen : (code.take k.EEPROM_WRITE_CHUNK_SIZE).length ≤ 256 := by
    rw [List.length_take]
    omega
  have hsum : checksum (code.take k.EEPROM_WRITE_CHUNK_SIZE
      ++ uninit.drop k.EEPROM_WRITE_CHUNK_SIZE) 256
      = (code.take k.EEPROM_WRITE_CHUNK_SIZE).sum % 65536 := by
    rw [checksum_eq_take_sum, List.take_append_eq_append_take,
      List.take_of_length_le hlen, List.sum_append]
    have h0 : ((uninit.drop k.EEPROM_WRITE_CHUNK_SIZE).take
        (256 - (code.take k.EEPROM_WRITE_CHUNK_SIZE).length)).sum = 0 :=
      List.sum_eq_zero (fun x hx => hz x (List.mem_of_mem_take hx))
    rw [h0, Nat.add_zero]
  rw [ha, hsum, Nat.mod_eq_of_lt (show k.EEPROM_WRITE_CHUNK_SIZE < 256 from hE)]
  simp

/-- What `selectSocket` does: one write, and it returns. -/
theorem selectSocket_run (socket : Nat) (dev : Device) (s : State) :
    selectSocket socket dev s =
      (Except.ok (), { s with trace := s.trace ++ [Event.int_write 2 [0x04, socket % 256]] }) := by
  simp only [selectSocket, int_write, emit, List.take_succ_cons, List.take_zero]

/-- What `programmer` does: one write, one read, the test of the acknowledgement. -/
theorem programmer_run (action : Nat) (dev : Device) (s : State) :
    programmer action dev s =
      (ackResult (dev.int_read (s.trace ++ [Event.int_write 2 [0x01, action % 256]]) 2 1) 0,
       { s with trace := s.trace ++ [Event.int_write 2 [0x01, action % 256],
          Event.int_read 2 1
            (dev.int_read (s.trace ++ [Event.int_write 2 [0x01, action % 256]]) 2 1)] }) := by
  simp only [programmer, bind_run, int_write, emit, int_read, throwErr_run,
    pure_run, ite_run, List.append_assoc, List.cons_append,
    List.nil_append, List.take_succ_cons, List.take_zero, ack_check_run]

/-- The speed `setProgrammingSpeed` settles on: the raw value or the value of the formula,
raised to 1 and capped at 0xff. -/
theorem setProgrammingSpeed_run (formula : Int → Int) (frequency : Int) (dev : Device)
    (s : State) :
    setProgrammingSpeed formula frequency dev s =
      let f1 := if frequency < 0x100 then frequency else formula frequency
      let f2 := if f1 < 1 then 1 else f1
      let f3 := if f2 > 0xff then 0xff else f2
      let w := Event.int_write 2 [0x05, (f3 % 256).toNat]
      (ackResult (dev.int_read (s.trace ++ [w]) 2 1) 0,
       { s with trace := s.trace ++ [w, Event.int_read 2 1 (dev.int_read (s.trace ++ [w]) 2 1)] })
    := by
  simp only [setProgrammingSpeed, bind_run, int_write, emit, int_read, throwErr_run,
    pure_run, ite_run, List.append_assoc, List.cons_append,
    List.nil_append, List.take_succ_cons, List.take_zero, ack_check_run]

/-- Claim C23, refuted for `selectSocket`: against a transport that would answer every read
with the byte 0x01, `selectSocket 2` returns, and the one operation it performs is the write
of `04 02`; no acknowledgement is read. -/
theorem selectSocket_reads_no_acknowledgement :
    (selectSocket 2 (constDevice [0x01]) State.init).1 = Except.ok ()
    ∧ newEvents State.init (selectSocket 2 (constDevice [0x01]) State.init)
      = [Event.int_write 2 [0x04, 0x02]] :=
  ⟨rfl, by decide⟩

/-- Claim C23, amended. `programmer` sends the one 2-byte command `01 action` on the control
channel and then reads a 1-byte acknowledgement; it returns exactly when the acknowledgement
is the single byte 0x00 and throws `CommandException` otherwise.  `selectSocket` sends the one
2-byte command `04 index`, reads no acknowledgement and always returns. -/
theorem programmer_and_selectSocket_exchange (action index : Nat) (dev : Device) (s : State)
    (ha : action < 256) (hi : index < 256) :
    (∃ ack, newEvents s (programmer action dev s)
        = [Event.int_write 2 [0x01, action], Event.int_read 2 1 ack]
      ∧ (programmer action dev s).1
        = if ack = [0x00] then Except.ok () else Except.error Error.CommandException)
    ∧ newEvents s (selectSocket index dev s) = [Event.int_write 2 [0x04, index]]
    ∧ (selectSocket index dev s).1 = Except.ok () := by
  refine ⟨?_, ?_, ?_⟩
  · rw [programmer_run, Nat.mod_eq_of_lt ha]
    exact ⟨_, newEvents_eq _ _ _ rfl, rfl⟩
  · rw [selectSocket_run, Nat.mod_eq_of_lt hi]
    exact newEvents_eq _ _ _ rfl
  · rw [selectSocket_run]

/-- Claim C23, amended, on the activation command answered by 0x01 and the selection of
socket 3. -/
theorem programmer_and_selectSocket_exchange_witness :
    (∃ ack, newEvents State.init (programmer 1 (constDevice [0x01]) State.init)
        = [Event.int_write 2 [0x01, 1], Event.int_read 2 1 ack]
      ∧ (programmer 1 (constDevice [0x01]) State.init).1
        = if ack = [0x00] then Except.ok () else Except.error Error.CommandException)
    ∧ newEvents State.init (selectSocket 3 (constDevice [0x01]) State.init)
      = [Event.int_write 2 [0x04, 3]]
    ∧ (selectSocket 3 (constDevice [0x01]) State.init).1 = Except.ok () :=
  programmer_and_selectSocket_exchange 1 3 (constDevice [0x01]) State.init (by decide)
    (by decide)

/-- Claim C24, refuted: when the deactivation command is answered by the byte 0x01, the
destructor does not complete; the `CommandException` of `programmer` leaves its body. -/
theorem destructor_raises_on_failed_deactivation :
    (CAvrProgCommands_destructor stdConsts (constDevice [0x01]) State.init).1
      = Except.error Error.CommandException :=
  rfl

/-- Claim C24, amended. The destructor always sends the deactivation command and reads one
acknowledgement; it completes exactly when the acknowledgement is the single byte 0x00, and
for every other acknowledgement the `CommandException` of the deactivation leaves it. -/
theorem destructor_deactivates (k : Consts) (dev : Device) (s : State) :
    ∃ ack, newEvents s (CAvrProgCommands_destructor k dev s)
        = [Event.int_write 2 [0x01, k.DEACTIVATE % 256], Event.int_read 2 1 ack]
      ∧ (CAvrProgCommands_destructor k dev s).1
        = if ack = [0x00] then Except.ok () else Except.error Error.CommandException := by
  rw [CAvrProgCommands_destructor, programmer_run]
  exact ⟨_, newEvents_eq _ _ _ rfl, rfl⟩

/-- Claim C25, refuted: the input 0 is below 256, and the frame written for it is `05 01`,
not `05 00` (the formula, here one of value 98, is not consulted). -/
theorem setProgrammingSpeed_zero_writes_one :
    newEvents State.init (setProgrammingSpeed (fun _ => 98) 0 okDevice State.init)
      = [Event.int_write 2 [0x05, 0x01], Event.int_read 2 1 [0x00]] := by
  rw [setProgrammingSpeed_run]
  exact newEvents_eq _ _ _ rfl

/-- Claim C25, amended. For every input value from 1 to 255, `setProgrammingSpeed` uses the
value as the speed code: the frame it writes is `05 value`, whatever the formula would give. -/
theorem setProgrammingSpeed_raw_value (formula : Int → Int) (value : Int) (dev : Device)
    (s : State) (h1 : 1 ≤ value) (h2 : value < 256) :
    ∃ ack, newEvents s (setProgrammingSpeed formula value dev s)
      = [Event.int_write 2 [0x05, value.toNat], Event.int_read 2 1 ack] := by
  rw [setProgrammingSpeed_run]
  have e1 : (if value < 0x100 then value else formula value) = value := if_pos h2
  have e2 : (if value < 1 then 1 else value) = value := if_neg (by omega)
  have e3 : (if value > 0xff then 0xff else value) = value := if_neg (by omega)
  have e4 : value % 256 = value := Int.emod_eq_of_lt (by omega) h2
  simp only [e1, e2, e3, e4]
  exact ⟨_, newEvents_eq _ _ _ rfl⟩

/-- Claim C25, amended, on the raw value 0x4b and a formula that would give 7. -/
theorem setProgrammingSpeed_raw_value_witness :
    ∃ ack, newEvents State.init (setProgrammingSpeed (fun _ => 7) 0x4b okDevice State.init)
      = [Event.int_write 2 [0x05, 0x4b], Event.int_read 2 1 ack] :=
  setProgrammingSpeed_raw_value (fun _ => 7) 0x4b okDevice State.init (by decide) (by decide)

/-- Claim C26. For every integer input and every value of the formula, the frame
`setProgrammingSpeed` writes is `05 speed` with `speed` between 1 and 255; it then reads one
acknowledgement, returns exactly when that is the single byte 0x00 and throws
`CommandException` otherwise. -/
theorem setProgrammingSpeed_speed_range (formula : Int → Int) (frequency : Int) (dev : Device)
    (s : State) :
    ∃ speed ack, 1 ≤ speed ∧ speed ≤ 255
      ∧ newEvents s (setProgrammingSpeed formula frequency dev s)
        = [Event.int_write 2 [0x05, speed], Event.int_read 2 1 ack]
      ∧ (setProgrammingSpeed formula frequency dev s).1
        = if ack = [0x00] then Except.ok () else Except.error Error.CommandException := by
  rw [setProgrammingSpeed_run]
  refine ⟨_, _, ?_, ?_, newEvents_eq _ _ _ rfl, rfl⟩
  · split_ifs <;> omega
  · split_ifs <;> omega

/-- The data block of `writeFuses` once the three fuse bytes are stored in it. -/
theorem writeFuses_block (l h e : Nat) :
    ((writeFuses_data.set 3 l).set 7 h).set 11 e
      = [0xac, 0xa0, 0x00, l, 0xac, 0xa8, 0x00, h, 0xac, 0xa4, 0x00, e]
        ++ List.replicate 244 0x00 :=
  rfl

/-- The checksum of the data block of `writeFuses`. -/
theorem writeFuses_checksum (l h e : Nat) (hl : l < 256) (hh : h < 256) (he : e < 256) :
    checksum ([0xac, 0xa0, 0x00, l, 0xac, 0xa8, 0x00, h, 0xac, 0xa4, 0x00, e]
      ++ List.replicate 244 0x00) 256 = 1008 + l + h + e := by
  rw [checksum_eq_take_sum, List.take_of_length_le (by simp), List.sum_append,
    List.sum_replicate]
  simp only [List.sum_cons, List.sum_nil, smul_eq_mul, Nat.mul_zero, Nat.add_zero]
  omega

/-- Claim C27, refuted: asked to write one fuse, `writeFuses` still sends a data block that
holds all three sub-commands (bytes 4 to 11 are `ac a8 00 d9 ac a4 00 ff`, not zero); the
block with one sub-command followed by zero bytes is never sent. -/
theorem writeFuses_one_fuse_sends_three_subcommands :
    newEvents State.init (writeFuses stdConsts 0x62 0xd9 0xff 1 okDevice State.init)
      = [Event.int_write 2 [0x02, 0x04, 0x00, 0x00, 0x00, 0x09, 0x00],
          Event.iso_write 3 ([0xac, 0xa0, 0x00, 0x62, 0xac, 0xa8, 0x00, 0xd9,
            0xac, 0xa4, 0x00, 0xff] ++ List.replicate 244 0x00),
          Event.int_write 2 [0x03, 0x01, 0x2a, 0x06],
          Event.int_read 2 1 [0x00]]
    ∧ Event.iso_write 3 ([0xac, 0xa0, 0x00, 0x62] ++ List.replicate 252 0x00)
      ∉ newEvents State.init (writeFuses stdConsts 0x62 0xd9 0xff 1 okDevice State.init) := by
  constructor <;> decide

/-- Claim C27, amended. For every count from 1 to 3 and all fuse bytes `l`, `h`, `e`,
`writeFuses` makes one exchange of `executeCommands`: the setup command, one 256-byte data
block, the execute frame carrying the count and the checksum of the block, one
acknowledgement.  Whatever the count, the block holds all three fuse sub-commands
`ac a0 00 l`, `ac a8 00 h`, `ac a4 00 e`, followed by 244 zero bytes. -/
theorem writeFuses_exchange (k : Consts) (l h e count : Nat) (dev : Device) (s : State)
    (hl : l < 256) (hh : h < 256) (he : e < 256) (hc1 : 1 ≤ count) (hc3 : count ≤ 3) :
    ∃ ack, newEvents s (writeFuses k l h e count dev s)
      = [Event.int_write 2 (writeFuses_command.take k.SETUP_COMMAND_SIZE),
          Event.iso_write 3 ([0xac, 0xa0, 0x00, l, 0xac, 0xa8, 0x00, h, 0xac, 0xa4, 0x00, e]
            ++ List.replicate 244 0x00),
          Event.int_write 2 [0x03, count, (1008 + l + h + e) % 256, (1008 + l + h + e) / 256],
          Event.int_read 2 1 ack] := by
  have hlen : ([0xac, 0xa0, 0x00, l, 0xac, 0xa8, 0x00, h, 0xac, 0xa4, 0x00, e]
      ++ List.replicate 244 0x00).length ≤ 256 := by simp
  simp only [writeFuses, Nat.mod_eq_of_lt hl, Nat.mod_eq_of_lt hh, Nat.mod_eq_of_lt he]
  rw [writeFuses_block, executeCommands_events, writeFuses_checksum l h e hl hh he,
    List.take_of_length_le hlen, Nat.mod_eq_of_lt (show count < 256 by omega)]
  exact ⟨_, rfl⟩

/-- Claim C27, amended, on two fuses `62 d9` (and an unused third byte `ff`). -/
theorem writeFuses_exchange_witness :
    ∃ ack, newEvents State.init (writeFuses stdConsts 0x62 0xd9 0xff 2 okDevice State.init)
      = [Event.int_write 2 (writeFuses_command.take stdConsts.SETUP_COMMAND_SIZE),
          Event.iso_write 3 ([0xac, 0xa0, 0x00, 0x62, 0xac, 0xa8, 0x00, 0xd9,
            0xac, 0xa4, 0x00, 0xff] ++ List.replicate 244 0x00),
          Event.int_write 2 [0x03, 2, (1008 + 0x62 + 0xd9 + 0xff) % 256,
            (1008 + 0x62 + 0xd9 + 0xff) / 256],
          Event.int_read 2 1 ack] :=
  writeFuses_exchange stdConsts 0x62 0xd9 0xff 2 okDevice State.init (by decide) (by decide)
    (by decide) (by decide) (by decide)

/-- The verdict of `executeCommands` on an acknowledgement is a success exactly when the
acknowledgement is the single byte 0x00. -/
theorem exec_check_ok (ack : List Nat) :
    (if ack.length ≠ 1 then Except.error Error.CommandException
      else if ack.getD 0 0 = 0x81 then Except.error Error.ChecksumException
      else if ack.getD 0 0 ≠ 0x00 then Except.error Error.ChecksumException
      else (Except.ok () : Except Error Unit)) = Except.ok () ↔ ack = [0x00] := by
  have h := ack_eq_iff ack 0
  split_ifs <;> simp_all

/-- The checksum of the data block of `chipErase`. -/
theorem chipErase_checksum : checksum chipErase_data 256 = 0x12c := by
  decide

/-- Claim C28. `chipErase` writes the delay command `0e 14` and reads its acknowledgement
`a0`; only when `a0` is the single byte 0x01 it makes the erase exchange (setup command, data
block `ac 80` and 254 zero bytes, execute frame `03 04 2c 01`, acknowledgement `a1`); only
when `a1` is the single byte 0x00 it writes the delay command again and reads `a2`.  It makes
no other operation, and it returns exactly when all three acknowledgements are successes. -/
theorem chipErase_exchange (k : Consts) (dev : Device) (s : State)
    (hS : k.SETUP_COMMAND_SIZE = 7) :
    ∃ a0 a1 a2,
      newEvents s (chipErase k dev s)
        = (if a0 ≠ [0x01] then
            [Event.int_write 2 [0x0e, 0x14], Event.int_read 2 1 a0]
          else if a1 ≠ [0x00] then
            [Event.int_write 2 [0x0e, 0x14], Event.int_read 2 1 a0,
              Event.int_write 2 [0x02, 0x04, 0x00, 0x00, 0x00, 0x00, 0x00],
              Event.iso_write 3 ([0xac, 0x80] ++ List.replicate 254 0x00),
              Event.int_write 2 [0x03, 0x04, 0x2c, 0x01], Event.int_read 2 1 a1]
          else
            [Event.int_write 2 [0x0e, 0x14], Event.int_read 2 1 a0,
              Event.int_write 2 [0x02, 0x04, 0x00, 0x00, 0x00, 0x00, 0x00],
              Event.iso_write 3 ([0xac, 0x80] ++ List.replicate 254 0x00),
              Event.int_write 2 [0x03, 0x04, 0x2c, 0x01], Event.int_read 2 1 a1,
              Event.int_write 2 [0x0e, 0x14], Event.int_read 2 1 a2])
      ∧ ((chipErase k dev s).1 = Except.ok () ↔ a0 = [0x01] ∧ a1 = [0x00] ∧ a2 = [0x01]) := by
  have htake : chipErase_data.take 256 = [0xac, 0x80] ++ List.replicate 254 0x00 := by
    decide
  have hcmd : chipErase_command.take 7 = [0x02, 0x04, 0x00, 0x00, 0x00, 0x00, 0x00] := rfl
  simp only [chipErase, bind_run, delayMs_run, executeCommands_run, hS, htake,
    hcmd, chipErase_checksum, Nat.reduceMod, Nat.reduceDiv]
  generalize dev.int_read (s.trace ++ [Event.int_write 2 [0x0e, 0x14]]) 2 1 = a0
  by_cases h0 : a0 = [0x01]
  swap
  · refine ⟨a0, [], [], ?_, ?_⟩
    · simp only [ackResult, if_neg h0]
      rw [if_pos h0]
      exact newEvents_eq _ _ _ rfl
    · simp only [ackResult, if_neg h0, h0, false_and, iff_false]
      exact fun h => by cases h
  simp only [ackResult, if_pos h0, List.append_assoc, List.cons_append, List.nil_append]
  generalize dev.int_read (s.trace ++ [Event.int_write 2 [0x0e, 0x14], Event.int_read 2 1 a0,
    Event.int_write 2 [0x02, 0x04, 0x00, 0x00, 0x00, 0x00, 0x00],
    Event.iso_write 3 (0xac :: 0x80 :: List.replicate 254 0x00),
    Event.int_write 2 [0x03, 0x04, 0x2c, 0x01]]) 2 1 = a1
  have hchk := exec_check_ok a1
  generalize (if a1.length ≠ 1 then Except.error Error.CommandException
      else if a1.getD 0 0 = 0x81 then Except.error Error.ChecksumException
      else if a1.getD 0 0 ≠ 0x00 then Except.error Error.ChecksumException
      else (Except.ok () : Except Error Unit)) = r1 at hchk ⊢
  rcases r1 with e | u
  · have h1 : a1 ≠ [0x00] := fun h => by cases hchk.mpr h
    refine ⟨a0, a1, [], ?_, ?_⟩
    · rw [if_neg (not_not.mpr h0), if_pos h1]
      exact newEvents_eq _ _ _ rfl
    · simp only [h1, false_and, and_false, iff_false]
      exact fun h => by cases h
  · have h1 : a1 = [0x00] := hchk.mp rfl
    simp only [List.append_assoc, List.cons_append, List.nil_append]
    generalize dev.int_read (s.trace ++ [Event.int_write 2 [0x0e, 0x14], Event.int_read 2 1 a0,
      Event.int_write 2 [0x02, 0x04, 0x00, 0x00, 0x00, 0x00, 0x00],
      Event.iso_write 3 (0xac :: 0x80 :: List.replicate 254 0x00),
      Event.int_write 2 [0x03, 0x04, 0x2c, 0x01], Event.int_read 2 1 a1,
      Event.int_write 2 [0x0e, 0x14]]) 2 1 = a2
    refine ⟨a0, a1, a2, ?_, ?_⟩
    · rw [if_neg (not_not.mpr h0), if_neg (not_not.mpr h1)]
      exact newEvents_eq _ _ _ rfl
    · by_cases h2 : a2 = [0x01]
      · simp only [h0, h1, h2, if_true, and_self]
      · simp only [h0, h1, h2, if_false, and_false, iff_false]
        exact fun h => by cases h

/-- Claim C28 on a transport whose acknowledgements are all successes. -/
theorem chipErase_exchange_witness :
    ∃ a0 a1 a2,
      newEvents State.init (chipErase stdConsts okDevice State.init)
        = (if a0 ≠ [0x01] then
            [Event.int_write 2 [0x0e, 0x14], Event.int_read 2 1 a0]
          else if a1 ≠ [0x00] then
            [Event.int_write 2 [0x0e, 0x14], Event.int_read 2 1 a0,
              Event.int_write 2 [0x02, 0x04, 0x00, 0x00, 0x00, 0x00, 0x00],
              Event.iso_write 3 ([0xac, 0x80] ++ List.replicate 254 0x00),
              Event.int_write 2 [0x03, 0x04, 0x2c, 0x01], Event.int_read 2 1 a1]
          else
            [Event.int_write 2 [0x0e, 0x14], Event.int_read 2 1 a0,
              Event.int_write 2 [0x02, 0x04, 0x00, 0x00, 0x00, 0x00, 0x00],
              Event.iso_write 3 ([0xac, 0x80] ++ List.replicate 254 0x00),
              Event.int_write 2 [0x03, 0x04, 0x2c, 0x01], Event.int_read 2 1 a1,
              Event.int_write 2 [0x0e, 0x14], Event.int_read 2 1 a2])
      ∧ ((chipErase stdConsts okDevice State.init).1 = Except.ok ()
        ↔ a0 = [0x01] ∧ a1 = [0x00] ∧ a2 = [0x01]) :=
  chipErase_exchange stdConsts okDevice State.init rfl

/-- The checksum of the data block of `detectDevice`. -/
theorem detectDevice_checksum : checksum detectDevice_data 256 = 0xff := by
  decide

/-- With all acknowledgements successes, `programmer` returns after its write and its read. -/
theorem programmer_ok {dev : Device} (h : AcksOk dev) (action : Nat) (s : State) :
    programmer action dev s = (Except.ok (), { s with trace := s.trace
      ++ [Event.int_write 2 [0x01, action % 256], Event.int_read 2 1 [0x00]] }) := by
  have hd : ([0x01, action % 256] : List Nat).head? ≠ some 0x0e := by simp
  rw [programmer_run, h.other _ _ _ _ hd]
  rfl

/-- With all acknowledgements successes, `detectDevice` makes its exchange, reads the bulk
response and decides on it. -/
theorem detectDevice_ok {dev : Device} (h : AcksOk dev) (k : Consts) (reportError : Bool)
    (s : State) :
    detectDevice k reportError dev s =
      (if isPresence (dev.iso_read (s.trace ++ detectExchange k) 3 256) = true then
          Except.ok true
        else if reportError = true then Except.ok false
        else Except.error Error.CommandException,
       { s with trace := s.trace ++ (detectExchange k
          ++ [Event.iso_read 3 256 (dev.iso_read (s.trace ++ detectExchange k) 3 256)]) }) := by
  have hd : ([0x03, 0x01, 0xff, 0x00] : List Nat).head? ≠ some 0x0e := by simp
  have htake : detectDevice_data.take 256 = detectDevice_data := by decide
  have hack := h.other (s.trace ++ [Event.int_write 2
    (detectDevice_command.take k.SETUP_COMMAND_SIZE), Event.iso_write 3 detectDevice_data])
    [0x03, 0x01, 0xff, 0x00] 2 1 hd
  simp only [List.append_assoc, List.cons_append, List.nil_append] at hack
  simp only [detectDevice, bind_run, executeCommands_run, detectDevice_checksum, htake,
    Nat.reduceMod, Nat.reduceDiv, hack, iso_read_run, ite_run, throwErr_run, pure_run,
    List.append_assoc, List.cons_append, List.nil_append, detectExchange, isPresence,
    List.length_cons, List.length_nil, List.getD_cons_zero, ne_eq, not_true_eq_false,
    if_false, OfNat.ofNat_ne_zero, Nat.reduceEqDiff, decide_eq_true_eq]
  generalize dev.iso_read _ 3 256 = resp
  cases reportError <;> by_cases h1 : resp.length = 2 <;>
    by_cases h2 : resp.getD 0 0 = 0x53 <;>
    simp only [h1, h2, ne_eq, not_true_eq_false, not_false_eq_true, if_true, if_false,
      and_self, and_false, false_and, Bool.false_eq_true]

/-- With all acknowledgements successes, `trySocket` runs to its end: selection, activation,
probe exchange, bulk read, deactivation; its result tells whether the bulk response is that
of a device. -/
theorem trySocket_ok {dev : Device} (h : AcksOk dev) (k : Consts) (socket : Nat) (s : State) :
    trySocket k socket dev s =
      (Except.ok (isPresence (dev.iso_read (s.trace ++ ([Event.int_write 2 [0x04, socket % 256],
          Event.int_write 2 [0x01, k.ACTIVATE % 256], Event.int_read 2 1 [0x00]]
          ++ detectExchange k)) 3 256)),
       { s with trace := s.trace ++ ([Event.int_write 2 [0x04, socket % 256],
          Event.int_write 2 [0x01, k.ACTIVATE % 256], Event.int_read 2 1 [0x00]]
          ++ detectExchange k
          ++ [Event.iso_read 3 256 (dev.iso_read (s.trace
              ++ ([Event.int_write 2 [0x04, socket % 256],
                Event.int_write 2 [0x01, k.ACTIVATE % 256], Event.int_read 2 1 [0x00]]
                ++ detectExchange k)) 3 256),
            Event.int_write 2 [0x01, k.DEACTIVATE % 256], Event.int_read 2 1 [0x00]]) }) := by
  simp only [trySocket, bind_run, selectSocket_run, programmer_ok h, detectDevice_ok h,
    pure_run, if_true, List.append_assoc, List.cons_append, List.nil_append]
  generalize dev.iso_read _ 3 256 = resp
  cases isPresence resp <;>
    simp only [Bool.false_eq_true, if_true, if_false, List.append_assoc, List.cons_append,
      List.nil_append]

/-- Claim C21, refuted: in probe mode a failed acknowledgement is raised, not turned into
false.  When every acknowledgement is the byte 0x01, `detectDevice` in probe mode throws the
`ChecksumException` of its exchange and `trySocket` throws the `CommandException` of the
activation. -/
theorem probe_mode_raises_on_failed_acknowledgement :
    (detectDevice stdConsts true (constDevice [0x01]) State.init).1
      = Except.error Error.ChecksumException
    ∧ (trySocket stdConsts 0 (constDevice [0x01]) State.init).1
      = Except.error Error.CommandException :=
  ⟨rfl, rfl⟩

/-- Claim C21, amended. When every acknowledgement is a success, then for every behaviour of
the bulk channel `detectDevice` in probe mode and `trySocket` return true or false and throw
neither `CommandException` nor `ChecksumException`: a missing or wrong probe response is
reported as false. -/
theorem probe_mode_returns_boolean (k : Consts) (socket : Nat) (dev : Device) (s : State)
    (h : AcksOk dev) :
    (∃ b, (detectDevice k true dev s).1 = Except.ok b)
    ∧ (∃ b, (trySocket k socket dev s).1 = Except.ok b) := by
  constructor
  · rw [detectDevice_ok h]
    simp only [if_true]
    split_ifs
    · exact ⟨true, rfl⟩
    · exact ⟨false, rfl⟩
  · rw [trySocket_ok h]
    exact ⟨_, rfl⟩

/-- Claim C21, amended, on a transport that acknowledges every command and hands back
nothing on the bulk channel: both probes report false. -/
theorem probe_mode_returns_boolean_witness :
    (∃ b, (detectDevice stdConsts true okDevice State.init).1 = Except.ok b)
    ∧ (∃ b, (trySocket stdConsts 2 okDevice State.init).1 = Except.ok b) :=
  probe_mode_returns_boolean stdConsts 2 okDevice State.init (fun _ _ _ => rfl)

/-- The execute frames of a concatenation. -/
theorem flashFrames_append (a b : List Event) :
    flashFrames (a ++ b) = flashFrames a ++ flashFrames b := by
  induction a with
  | nil => rfl
  | cons e rest ih =>
    cases e <;> simp only [List.cons_append, flashFrames] <;>
      first
        | exact ih
        | (split_ifs <;> simp [ih])

/-- The execute frames among the operations of an acknowledged `writeFlashChunk`: the one
frame of the chunk when it is transmitted, none otherwise. -/
theorem flashFrames_chunkEvents (k : Consts) (code : List Nat) (chunk pageSize : Nat)
    (cw : Bool) :
    flashFrames (flashChunkEvents k code chunk pageSize cw)
      = if flashTransmitted k code chunk = true then [flashFrame k code chunk pageSize cw]
        else [] := by
  unfold flashChunkEvents
  split_ifs <;> simp [flashFrames, flashFrame]

/-- With all acknowledgements successes, `delayMs` returns after its write and its read. -/
theorem delayMs_acked {dev : Device} (h : AcksOk dev) (ms : Nat) (s : State) :
    delayMs ms dev s = (Except.ok (), { s with trace := s.trace
      ++ [Event.int_write 2 [0x0e, ms % 256], Event.int_read 2 1 [0x01]] }) := by
  rw [delayMs_run, h.delay]
  rfl

/-- With all acknowledgements successes, `writeFlashChunk` returns; it leaves in
`continuedWrite` whether it transmitted the chunk. -/
theorem writeFlashChunk_acked {dev : Device} (h : AcksOk dev) (k : Consts) (code : List Nat)
    (chunk pageSize : Nat) (s : State) :
    writeFlashChunk k code chunk pageSize dev s =
      (Except.ok (),
       { continuedWrite := flashTransmitted k code chunk,
         trace := s.trace ++ flashChunkEvents k code chunk pageSize s.continuedWrite,
         calls := s.calls
           ++ [Call.writeFlashChunk (code.take k.FLASH_WRITE_CHUNK_SIZE) chunk pageSize] }) := by
  have hframe : (flashFrame k code chunk pageSize s.continuedWrite).head? ≠ some 0x0e := by
    simp [flashFrame]
  have hext : ([0x0b, 0x01] : List Nat).head? ≠ some 0x0e := by simp
  rw [writeFlashChunk_run]
  unfold flashChunkEvents flashTransmitted
  by_cases h1 : chunk ≠ 512 ∧ isEmptyChunk code k.FLASH_WRITE_CHUNK_SIZE = true
  · simp [h1]
  · by_cases h2 : chunk = 512
    · have e1 := h.other (s.trace ++ [Event.iso_write 3 (code.take 256)]) _ 2 1 hext
      have e2 := h.other (s.trace ++ [Event.iso_write 3 (code.take 256)]
        ++ [Event.int_write 2 [0x0b, 0x01], Event.int_read 2 1 [0x00]]) _ 2 1 hframe
      simp only [List.append_assoc, List.cons_append, List.nil_append] at e1 e2
      simp only [if_neg h1, if_pos h2, e1, e2, if_true, ackResult, decide_eq_true_eq,
        not_false_eq_true, List.append_assoc, List.cons_append, List.nil_append,
        decide_True]
      rw [if_pos h1, decide_eq_true h1]
    · have e2 := h.other (s.trace ++ [Event.iso_write 3 (code.take 256)]) _ 2 1 hframe
      simp only [List.append_assoc, List.cons_append, List.nil_append] at e2
      simp only [if_neg h1, if_neg h2, e2, if_true, ackResult, decide_eq_true_eq,
        not_false_eq_true, List.append_assoc, List.cons_append, List.nil_append,
        decide_True]
      rw [if_pos h1, decide_eq_true h1]

/-- The loop of `writeFlash` when every acknowledgement is a success, started at index `c`
with `n` rounds to go: it returns, it leaves in `continuedWrite` whether its last chunk was
transmitted, and the execute frames it writes are those of the transmitted chunks in
ascending order, each built from the value `continuedWrite` had when its chunk was reached:
the value on entry for chunk `c`, whether chunk `i - 1` was transmitted for a later `i`. -/
theorem writeFlash_loop_frames {dev : Device} (h : AcksOk dev) (k : Consts)
    (buffer : List Nat) (pageSize : Nat) :
    ∀ (n c : Nat) (s : State),
      (writeFlash_loop k buffer pageSize n c dev s).1 = Except.ok ()
      ∧ (writeFlash_loop k buffer pageSize n c dev s).2.continuedWrite
        = (if n = 0 then s.continuedWrite
          else flashTransmitted k (buffer.drop ((c + n - 1) * k.FLASH_WRITE_CHUNK_SIZE))
            (c + n - 1))
      ∧ ∃ evs, (writeFlash_loop k buffer pageSize n c dev s).2.trace = s.trace ++ evs
        ∧ flashFrames evs
          = ((List.range' c n).filter (fun i =>
              flashTransmitted k (buffer.drop (i * k.FLASH_WRITE_CHUNK_SIZE)) i)).map
            (fun i => flashFrame k (buffer.drop (i * k.FLASH_WRITE_CHUNK_SIZE)) i pageSize
              (if i = c then s.continuedWrite
                else flashTransmitted k (buffer.drop ((i - 1) * k.FLASH_WRITE_CHUNK_SIZE))
                  (i - 1))) := by
  intro n
  induction n with
  | zero =>
    intro c s
    exact ⟨rfl, rfl, [], by simp [writeFlash_loop, pure_run], rfl⟩
  | succ n ih =>
    intro c s
    simp only [writeFlash_loop, bind_run, writeFlashChunk_acked h, emit_run]
    obtain ⟨hok, hcw, evs, htr, hfr⟩ := ih (c + 1)
      { continuedWrite :=
          flashTransmitted k (buffer.drop (c * k.FLASH_WRITE_CHUNK_SIZE)) c,
        trace := s.trace ++ flashChunkEvents k
          (buffer.drop (c * k.FLASH_WRITE_CHUNK_SIZE)) c pageSize s.continuedWrite
          ++ [Event.progress_step],
        calls := s.calls ++ [Call.writeFlashChunk
          ((buffer.drop (c * k.FLASH_WRITE_CHUNK_SIZE)).take k.FLASH_WRITE_CHUNK_SIZE)
          c pageSize] }
    refine ⟨hok, ?_, flashChunkEvents k (buffer.drop (c * k.FLASH_WRITE_CHUNK_SIZE)) c
      pageSize s.continuedWrite ++ [Event.progress_step] ++ evs, ?_, ?_⟩
    · rw [hcw, if_neg (Nat.succ_ne_zero n)]
      by_cases hn : n = 0
      · subst hn
        simp
      · rw [if_neg hn]
        have e : c + 1 + n - 1 = c + (n + 1) - 1 := by omega
        rw [e]
    · rw [htr]
      simp only [List.append_assoc]
    · have hstep : flashFrames [Event.progress_step] = [] := rfl
      rw [flashFrames_append, flashFrames_append, flashFrames_chunkEvents, hstep, hfr,
        List.append_nil, List.range'_succ, List.filter_cons]
      have hmap : ∀ i ∈ (List.range' (c + 1) n).filter (fun i =>
            flashTransmitted k (buffer.drop (i * k.FLASH_WRITE_CHUNK_SIZE)) i),
          flashFrame k (buffer.drop (i * k.FLASH_WRITE_CHUNK_SIZE)) i pageSize
            (if i = c + 1
              then flashTransmitted k (buffer.drop (c * k.FLASH_WRITE_CHUNK_SIZE)) c
              else flashTransmitted k (buffer.drop ((i - 1) * k.FLASH_WRITE_CHUNK_SIZE))
                (i - 1))
          = flashFrame k (buffer.drop (i * k.FLASH_WRITE_CHUNK_SIZE)) i pageSize
            (if i = c then s.continuedWrite
              else flashTransmitted k (buffer.drop ((i - 1) * k.FLASH_WRITE_CHUNK_SIZE))
                (i - 1)) := by
        intro i hi
        have hic : c + 1 ≤ i := (List.mem_range'_1.mp (List.mem_of_mem_filter hi)).1
        rw [if_neg (show ¬ i = c by omega)]
        by_cases hi1 : i = c + 1
        · subst hi1
          simp
        · rw [if_neg hi1]
      rw [List.map_congr_left hmap]
      by_cases hT : flashTransmitted k (buffer.drop (c * k.FLASH_WRITE_CHUNK_SIZE)) c = true
      · simp only [hT, if_true, List.map_cons, List.singleton_append]
      · simp only [hT, if_false, List.nil_append, Bool.false_eq_true]

/-- The frame of chunk 0 does not depend on `continuedWrite`. -/
theorem flashFrame_zero (k : Consts) (code : List Nat) (pageSize : Nat) (cw cw2 : Bool) :
    flashFrame k code 0 pageSize cw = flashFrame k code 0 pageSize cw2 := by
  simp [flashFrame]

/-- Claim C30. Within one call of `writeFlash` in which every acknowledgement is a success,
whatever `continuedWrite` holds on entry: the execute frames written are those of the
transmitted chunks, in ascending order of index, and the frame of the transmitted chunk `i`
is the one built with the continuation value "`i > 0` and chunk `i - 1` was transmitted";
byte 3 of a frame, the continuation flag, is 1 when that value holds and `i > 0`, and 0
otherwise. -/
theorem writeFlash_continuation_flags (k : Consts) (buffer : List Nat) (size pageSize : Nat)
    (dev : Device) (s : State) (hdev : AcksOk dev) :
    flashFrames (newEvents s (writeFlash k buffer size pageSize dev s))
      = ((List.range (size / k.FLASH_WRITE_CHUNK_SIZE + 1)).filter (fun i =>
          flashTransmitted k (writeFlash_chunkAt k buffer size i) i)).map
        (fun i => flashFrame k (writeFlash_chunkAt k buffer size i) i pageSize
          (decide (0 < i)
            && flashTransmitted k (writeFlash_chunkAt k buffer size (i - 1)) (i - 1)))
    ∧ ∀ (code : List Nat) (i : Nat) (cw : Bool),
        (flashFrame k code i pageSize cw).getD 3 0 = if 0 < i ∧ cw = true then 1 else 0 := by
  constructor
  swap
  · intro code i cw
    by_cases hi : i = 0
    · subst hi
      simp [flashFrame]
    · cases cw <;> simp [flashFrame, hi, Nat.pos_of_ne_zero hi]
  have hL : ∀ i, ¬ i < size / k.FLASH_WRITE_CHUNK_SIZE → writeFlash_chunkAt k buffer size i
      = (buffer.drop (k.FLASH_WRITE_CHUNK_SIZE * (size / k.FLASH_WRITE_CHUNK_SIZE))).take
        (size - k.FLASH_WRITE_CHUNK_SIZE * (size / k.FLASH_WRITE_CHUNK_SIZE))
      ++ List.replicate (k.FLASH_WRITE_CHUNK_SIZE
        - (size - k.FLASH_WRITE_CHUNK_SIZE * (size / k.FLASH_WRITE_CHUNK_SIZE)))
        EMPTY_FLASH_BYTE := fun i hi => if_neg hi
  have hB : ∀ i, i < size / k.FLASH_WRITE_CHUNK_SIZE → writeFlash_chunkAt k buffer size i
      = buffer.drop (i * k.FLASH_WRITE_CHUNK_SIZE) := fun i hi => if_pos hi
  simp only [writeFlash, bind_run, delayMs_acked hdev, emit_run]
  rw [← hL (size / k.FLASH_WRITE_CHUNK_SIZE) (lt_irrefl _)]
  generalize writeFlash_chunkAt k buffer size = chunkAt at hL hB ⊢
  generalize size / k.FLASH_WRITE_CHUNK_SIZE = q at hL hB ⊢
  obtain ⟨hok, hcw, evs, htr, hfr⟩ := writeFlash_loop_frames hdev k buffer pageSize q 0
    { continuedWrite := s.continuedWrite,
      trace := s.trace ++ [Event.int_write 2 [0x0e, 0x14 % 256], Event.int_read 2 1 [0x01]]
        ++ [Event.progress_new (q + 1)],
      calls := s.calls }
  rcases hloop : writeFlash_loop k buffer pageSize q 0 dev
    { continuedWrite := s.continuedWrite,
      trace := s.trace ++ [Event.int_write 2 [0x0e, 0x14 % 256], Event.int_read 2 1 [0x01]]
        ++ [Event.progress_new (q + 1)],
      calls := s.calls } with ⟨r1, s2⟩
  rw [hloop] at hok hcw htr
  simp only at hok hcw htr
  subst hok
  simp only [writeFlashChunk_acked hdev, emit_run, delayMs_acked hdev]
  rw [newEvents_eq s _ ([Event.int_write 2 [0x0e, 0x14 % 256], Event.int_read 2 1 [0x01]]
    ++ [Event.progress_new (q + 1)] ++ evs
    ++ flashChunkEvents k (chunkAt q) q pageSize s2.continuedWrite
    ++ [Event.progress_step]
    ++ [Event.int_write 2 [0x0e, 0x14 % 256], Event.int_read 2 1 [0x01]])
    (by simp only [htr, List.append_assoc])]
  have hd : flashFrames [Event.int_write 2 [0x0e, 0x14 % 256], Event.int_read 2 1 [0x01]]
      = [] := by simp [flashFrames]
  have hpn : flashFrames [Event.progress_new (q + 1)] = [] := rfl
  have hstep : flashFrames [Event.progress_step] = [] := rfl
  simp only [flashFrames_append, hd, hpn, hstep, List.append_nil, List.nil_append,
    flashFrames_chunkEvents, hfr]
  have hr : List.range (q + 1) = List.range' 0 q ++ [q] := by
    rw [List.range_succ, List.range_eq_range']
  rw [hr, List.filter_append, List.map_append]
  have hmem : ∀ i ∈ List.range' 0 q, i < q := fun i hi => by
    have := (List.mem_range'_1.mp hi).2
    omega
  have hfilt : (List.range' 0 q).filter (fun i => flashTransmitted k (chunkAt i) i)
      = (List.range' 0 q).filter (fun i =>
        flashTransmitted k (buffer.drop (i * k.FLASH_WRITE_CHUNK_SIZE)) i) :=
    List.filter_congr (fun i hi => by rw [hB i (hmem i hi)])
  rw [hfilt]
  congr 1
  · apply List.map_congr_left
    intro i hi
    have hiq : i < q := hmem i (List.mem_of_mem_filter hi)
    rw [hB i hiq]
    by_cases hi0 : i = 0
    · subst hi0
      exact flashFrame_zero _ _ _ _ _
    · rw [if_neg hi0, hB (i - 1) (by omega), decide_eq_true (Nat.pos_of_ne_zero hi0),
        Bool.true_and]
  · rw [List.filter_cons, List.filter_nil]
    by_cases hT : flashTransmitted k (chunkAt q) q = true
    · rw [if_pos hT, if_pos hT, List.map_cons, List.map_nil, hcw]
      by_cases hq : q = 0
      · subst hq
        exact congrArg (fun x => [x]) (flashFrame_zero _ _ _ _ _)
      · rw [if_neg hq, hB (q - 1) (by omega), decide_eq_true (Nat.pos_of_ne_zero hq),
          Bool.true_and, Nat.zero_add]
    · rw [if_neg hT, if_neg hT, List.map_nil]

/-- Claim C30 on an image of 868 bytes (a chunk of 0x01, a chunk of 0x02, a chunk of fill
bytes, 100 bytes 0x03) written in a session whose `continuedWrite` is true on entry. -/
theorem writeFlash_continuation_flags_witness :
    AcksOk okDevice
    ∧ (flashFrames (newEvents { continuedWrite := true, trace := [], calls := [] }
        (writeFlash stdConsts (List.replicate 256 0x01 ++ List.replicate 256 0x02
        ++ List.replicate 256 0xff ++ List.replicate 100 0x03) 868 128 okDevice
          { continuedWrite := true, trace := [], calls := [] }))
      = ((List.range (868 / stdConsts.FLASH_WRITE_CHUNK_SIZE + 1)).filter (fun i =>
          flashTransmitted stdConsts (writeFlash_chunkAt stdConsts (List.replicate 256 0x01 ++ List.replicate 256 0x02
        ++ List.replicate 256 0xff ++ List.replicate 100 0x03) 868 i) i)).map
        (fun i => flashFrame stdConsts (writeFlash_chunkAt stdConsts (List.replicate 256 0x01 ++ List.replicate 256 0x02
        ++ List.replicate 256 0xff ++ List.replicate 100 0x03) 868 i) i 128
          (decide (0 < i)
            && flashTransmitted stdConsts (writeFlash_chunkAt stdConsts (List.replicate 256 0x01 ++ List.replicate 256 0x02
        ++ List.replicate 256 0xff ++ List.replicate 100 0x03) 868 (i - 1))
              (i - 1)))
    ∧ ∀ (code : List Nat) (i : Nat) (cw : Bool),
        (flashFrame stdConsts code i 128 cw).getD 3 0
          = if 0 < i ∧ cw = true then 1 else 0) :=
  ⟨acksOk_okDevice,
    writeFlash_continuation_flags stdConsts (List.replicate 256 0x01 ++ List.replicate 256 0x02
        ++ List.replicate 256 0xff ++ List.replicate 100 0x03) 868 128 okDevice
      { continuedWrite := true, trace := [], calls := [] } acksOk_okDevice⟩

/-- The control writes of a concatenation. -/
theorem controlWrites_append (a b : List Event) :
    controlWrites (a ++ b) = controlWrites a ++ controlWrites b := by
  induction a with
  | nil => rfl
  | cons e rest ih =>
    cases e <;> simp only [List.cons_append, controlWrites] <;>
      first
        | exact ih
        | simp [ih]

/-- During a probe the socket selected last is the one the probe selected. -/
theorem selectedSocket_probe (k : Consts) (history : List Event) (x a : Nat) :
    selectedSocket (history ++ ([Event.int_write 2 [0x04, x], Event.int_write 2 [0x01, a],
      Event.int_read 2 1 [0x00]] ++ detectExchange k)) = x := by
  have hcmd : (detectDevice_command.take k.SETUP_COMMAND_SIZE).head? ≠ some 0x04 := by
    cases k.SETUP_COMMAND_SIZE <;> simp [detectDevice_command]
  simp [selectedSocket, selectedSocket_scan, detectExchange, hcmd]

/-- When every acknowledgement is a success and the bulk channel reports a device exactly
while a present socket is selected, `trySocket` returns whether its socket is present, after
the commands of one probe. -/
theorem trySocket_probe {dev : Device} (h : AcksOk dev) (present : Nat → Bool)
    (hdev : ∀ history, isPresence (dev.iso_read history 3 256)
      = present (selectedSocket history))
    (k : Consts) (i : Nat) (s : State) (hi : i < 256) :
    ∃ evs, trySocket k i dev s = (Except.ok (present i), { s with trace := s.trace ++ evs })
      ∧ controlWrites evs = probeWrites k i := by
  rw [trySocket_ok h, hdev, selectedSocket_probe, Nat.mod_eq_of_lt hi]
  exact ⟨_, rfl, by simp [controlWrites, detectExchange, probeWrites]⟩

/-- The scan loop of `connect`, started at socket `c` with `n` sockets to go, when every
acknowledgement is a success and presence depends on the selected socket: with no present
socket ahead it probes them all and ends with `s = c + n`; with a least present socket `j`
ahead it probes `c, ..., j` and ends with `s = socket = j`. -/
theorem connect_loop_scan {dev : Device} (h : AcksOk dev) (present : Nat → Bool)
    (hdev : ∀ history, isPresence (dev.iso_read history 3 256)
      = present (selectedSocket history))
    (k : Consts) :
    ∀ (n c socket : Nat) (s : State), c + n ≤ 256 →
      ∃ evs, (connect_loop k n c socket dev s).2.trace = s.trace ++ evs
        ∧ ((∀ i, c ≤ i → i < c + n → present i = false) →
            (connect_loop k n c socket dev s).1 = Except.ok (c + n, socket)
            ∧ controlWrites evs = scanWrites k n c)
        ∧ (∀ j, c ≤ j → j < c + n → present j = true →
            (∀ i, c ≤ i → i < j → present i = false) →
            (connect_loop k n c socket dev s).1 = Except.ok (j, j)
            ∧ controlWrites evs = scanWrites k (j - c) c ++ probeWrites k j) := by
  intro n
  induction n with
  | zero =>
    intro c socket s _
    refine ⟨[], by simp [connect_loop, pure_run], fun _ => ⟨rfl, rfl⟩, ?_⟩
    intro j h1 h2
    omega
  | succ n ih =>
    intro c socket s hc
    obtain ⟨e1, h1, hw1⟩ := trySocket_probe h present hdev k c s (by omega)
    simp only [connect_loop, bind_run, h1, ite_run, pure_run]
    by_cases hp : present c = true
    · simp only [if_pos hp]
      refine ⟨e1, rfl, ?_, ?_⟩
      · intro hnone
        have := hnone c (le_refl c) (by omega)
        rw [this] at hp
        cases hp
      · intro j hj1 _ _ hleast
        have hjc : j = c := by
          by_contra hne
          have := hleast c (le_refl c) (by omega)
          rw [this] at hp
          cases hp
        subst hjc
        refine ⟨rfl, ?_⟩
        rw [Nat.sub_self, hw1]
        rfl
    · simp only [if_neg hp]
      obtain ⟨e2, htr2, hnone2, hfound2⟩ := ih (c + 1) socket
        { s with trace := s.trace ++ e1 } (by omega)
      refine ⟨e1 ++ e2, ?_, ?_, ?_⟩
      · rw [htr2, List.append_assoc]
      · intro hnone
        obtain ⟨hr, hw⟩ := hnone2 (fun i hi1 hi2 => hnone i (by omega) (by omega))
        refine ⟨?_, ?_⟩
        · rw [hr]
          have e : c + 1 + n = c + (n + 1) := by omega
          rw [e]
        · rw [controlWrites_append, hw1, hw]
          rfl
      · intro j hj1 hj2 hpj hleast
        have hjc : c + 1 ≤ j := by
          by_contra hne
          have hjc2 : j = c := by omega
          subst hjc2
          exact hp hpj
        obtain ⟨hr, hw⟩ := hfound2 j hjc (by omega) hpj
          (fun i hi1 hi2 => hleast i (by omega) hi2)
        refine ⟨hr, ?_⟩
        have e : j - c = (j - (c + 1)) + 1 := by omega
        rw [controlWrites_append, hw1, hw, e, scanWrites, List.append_assoc]

/-- During the strict detection that ends `connect`, the socket selected last is the one
`connect` selected. -/
theorem selectedSocket_connect (k : Consts) (history : List Event) (x a : Nat) :
    selectedSocket (history ++ Event.int_write 2 [0x04, x] :: Event.int_write 2 [0x01, a]
      :: Event.int_read 2 1 [0x00] :: detectExchange k) = x :=
  selectedSocket_probe k history x a

/-- Claim C22. For `connect(AUTO_DETECT)` with fewer than 256 candidate sockets, every
acknowledgement a success and a bulk channel that reports a device exactly while a present
socket is selected.  If `j` is the least present socket, `connect` returns and the commands
it writes are: for each socket `0, ..., j` in ascending order one probe (select, activate,
detection, deactivate), then the selection of `j`, the activation and the strict detection;
no socket above `j` is selected and the session ends with `j` selected and activated.  If
no socket below `AUTO_DETECT` is present, `connect` throws `CommandException` and the
commands it writes are the `AUTO_DETECT` probes and nothing after the last deactivation. -/
theorem connect_auto_detect (k : Consts) (dev : Device) (present : Nat → Bool) (s : State)
    (hA : k.AUTO_DETECT < 256) (hacks : AcksOk dev)
    (hdev : ∀ history, isPresence (dev.iso_read history 3 256)
      = present (selectedSocket history)) :
    (∀ j, j < k.AUTO_DETECT → present j = true → (∀ i, i < j → present i = false) →
      (connect k k.AUTO_DETECT dev s).1 = Except.ok ()
      ∧ controlWrites (newEvents s (connect k k.AUTO_DETECT dev s))
        = scanWrites k j 0 ++ probeWrites k j
          ++ [[0x04, j], [0x01, k.ACTIVATE % 256],
            detectDevice_command.take k.SETUP_COMMAND_SIZE, [0x03, 0x01, 0xff, 0x00]])
    ∧ ((∀ i, i < k.AUTO_DETECT → present i = false) →
      (connect k k.AUTO_DETECT dev s).1 = Except.error Error.CommandException
      ∧ controlWrites (newEvents s (connect k k.AUTO_DETECT dev s))
        = scanWrites k k.AUTO_DETECT 0) := by
  obtain ⟨evs, htr, hnone, hfound⟩ := connect_loop_scan hacks present hdev k k.AUTO_DETECT 0
    k.AUTO_DETECT s (by omega)
  simp only [connect, if_true, bind_run]
  rcases hl : connect_loop k k.AUTO_DETECT 0 k.AUTO_DETECT dev s with ⟨r1, s1⟩
  rw [hl] at htr hnone hfound
  simp only at htr hnone hfound
  constructor
  · intro j hj hpj hleast
    obtain ⟨hr, hw⟩ := hfound j (Nat.zero_le j) (by omega) hpj (fun i _ hi => hleast i hi)
    subst hr
    have hjA : ¬ j = k.AUTO_DETECT := by omega
    simp only [ite_run, if_neg hjA, pure_run, selectSocket_run, programmer_ok hacks,
      detectDevice_ok hacks, List.append_assoc, List.cons_append, List.nil_append, hdev,
      selectedSocket_connect, Nat.mod_eq_of_lt (show j < 256 by omega), hpj, if_true]
    refine ⟨trivial, ?_⟩
    rw [newEvents_eq s _ (evs ++ ([Event.int_write 2 [0x04, j],
      Event.int_write 2 [0x01, k.ACTIVATE % 256], Event.int_read 2 1 [0x00]]
      ++ detectExchange k ++ [Event.iso_read 3 256 (dev.iso_read (s1.trace
        ++ Event.int_write 2 [0x04, j] :: Event.int_write 2 [0x01, k.ACTIVATE % 256]
          :: Event.int_read 2 1 [0x00] :: detectExchange k) 3 256)]))
      (by simp only [htr, List.append_assoc, List.cons_append, List.nil_append])]
    rw [controlWrites_append, hw, Nat.sub_zero]
    simp [controlWrites, detectExchange]
  · intro hno
    obtain ⟨hr, hw⟩ := hnone (fun i _ hi => hno i (by omega))
    subst hr
    simp only [ite_run, Nat.zero_add, if_true, throwErr_run]
    refine ⟨trivial, ?_⟩
    rw [newEvents_eq s _ evs htr, hw]

/-- Claim C22 with 4 candidate sockets of which only socket 2 is present: the sockets 0, 1
and 2 are probed in turn, then socket 2 is selected and activated, and `connect` returns. -/
theorem connect_auto_detect_witness :
    (connect stdConsts stdConsts.AUTO_DETECT (socketDevice (fun i => i == 2)) State.init).1
      = Except.ok ()
    ∧ controlWrites (newEvents State.init
        (connect stdConsts stdConsts.AUTO_DETECT (socketDevice (fun i => i == 2)) State.init))
      = scanWrites stdConsts 2 0 ++ probeWrites stdConsts 2
        ++ [[0x04, 2], [0x01, stdConsts.ACTIVATE % 256],
          detectDevice_command.take stdConsts.SETUP_COMMAND_SIZE, [0x03, 0x01, 0xff, 0x00]] :=
  (connect_auto_detect stdConsts (socketDevice (fun i => i == 2)) (fun i => i == 2)
    State.init (by decide) (fun _ _ _ => rfl)
    (fun history => by
      unfold socketDevice isPresence
      by_cases hs : (selectedSocket history == 2) = true <;> simp [hs])).1 2 (by decide) rfl
    (by decide)

/-- The polling loop on a transport whose bulk responses, counted from the trace `T` on, are
short before the one of rank `n` and equal to `resp`, of 256 bytes, at rank `n`: entered with
`j` short responses still to come and a counter above `j`, it makes `j + 1` bulk reads and
leaves with `resp` and the counter lowered by `j`. -/
theorem readMemoryChunk_poll_accepts (k : Consts) (dev : Device) (T : List Event) (n : Nat)
    (resp : List Nat) (hresp : resp.length = 256)
    (hshort : ∀ evs, bulkReads evs < n - 1 → (dev.iso_read (T ++ evs) 3 256).length ≠ 256)
    (hfull : ∀ evs, bulkReads evs = n - 1 → dev.iso_read (T ++ evs) 3 256 = resp) :
    ∀ (j count : Nat) (s : State) (pre : List Event), s.trace = T ++ pre →
      bulkReads pre + j = n - 1 → j < count →
      ∃ evs, readMemoryChunk_poll k count dev s
          = (Except.ok (resp, count - j), { s with trace := s.trace ++ evs })
        ∧ bulkReads evs = j + 1 := by
  have hsleep : ∀ pre : List Event,
      bulkReads (pre ++ [Event.usleep k.READ_PAGE_DELAY]) = bulkReads pre := fun pre => by
    rw [bulkReads_append]
    rfl
  intro j
  induction j with
  | zero =>
    intro count s pre htr hb hc
    obtain ⟨c, rfl⟩ : ∃ c, count = c + 1 := ⟨count - 1, by omega⟩
    have hr : dev.iso_read (s.trace ++ [Event.usleep k.READ_PAGE_DELAY]) 3 256 = resp := by
      rw [htr, List.append_assoc]
      exact hfull _ (by rw [hsleep]; omega)
    simp only [readMemoryChunk_poll, bind_run, emit_run, iso_read_run, pure_run, ite_run,
      List.append_assoc, List.cons_append, List.nil_append, hr, hresp, USB_TRANSFER_SIZE,
      if_true, Nat.sub_zero]
    exact ⟨_, rfl, rfl⟩
  | succ j ih =>
    intro count s pre htr hb hc
    obtain ⟨c, rfl⟩ : ∃ c, count = c + 1 := ⟨count - 1, by omega⟩
    have hc0 : c ≠ 0 := by omega
    have hr : (dev.iso_read (s.trace ++ [Event.usleep k.READ_PAGE_DELAY]) 3 256).length
        ≠ 256 := by
      rw [htr, List.append_assoc]
      exact hshort _ (by rw [hsleep]; omega)
    obtain ⟨evs, hrun, hcount⟩ := ih c
      { s with trace := s.trace ++ [Event.usleep k.READ_PAGE_DELAY, Event.iso_read 3 256
          (dev.iso_read (s.trace ++ [Event.usleep k.READ_PAGE_DELAY]) 3 256)] }
      (pre ++ [Event.usleep k.READ_PAGE_DELAY, Event.iso_read 3 256
          (dev.iso_read (s.trace ++ [Event.usleep k.READ_PAGE_DELAY]) 3 256)])
      (by simp only [htr, List.append_assoc])
      (by
        rw [bulkReads_append]
        simp only [bulkReads]
        omega)
      (by omega)
    simp only [readMemoryChunk_poll, bind_run, emit_run, iso_read_run, pure_run, ite_run,
      List.append_assoc, List.cons_append, List.nil_append, USB_TRANSFER_SIZE, if_neg hr,
      if_pos hc0, hrun]
    refine ⟨Event.usleep k.READ_PAGE_DELAY :: Event.iso_read 3 256
      (dev.iso_read (s.trace ++ [Event.usleep k.READ_PAGE_DELAY]) 3 256) :: evs, ?_, ?_⟩
    · have e : c + 1 - (j + 1) = c - j := by omega
      rw [e]
    · simp only [bulkReads, hcount]

/-- The polling part of `readMemoryChunk` on a transport whose bulk responses, counted from
the trace `T` on, are short before the one of rank `n` and equal to `resp`, of 256 bytes, at
rank `n`, with `1 <= n <= MAX_READ_CYCLES`: started before any bulk read, it makes `n` bulk
reads and returns `resp`. -/
theorem readMemoryChunk_tail_accepts (k : Consts) (dev : Device) (T : List Event) (n : Nat)
    (resp : List Nat) (hresp : resp.length = 256)
    (hshort : ∀ evs, bulkReads evs < n - 1 → (dev.iso_read (T ++ evs) 3 256).length ≠ 256)
    (hfull : ∀ evs, bulkReads evs = n - 1 → dev.iso_read (T ++ evs) 3 256 = resp)
    (hn1 : 1 ≤ n) (hn2 : n ≤ k.MAX_READ_CYCLES) (st : State) (pre : List Event)
    (htr : st.trace = T ++ pre) (hpre : bulkReads pre = 0) :
    ∃ evs, readMemoryChunk_tail k dev st
        = (Except.ok resp, { st with trace := st.trace ++ evs })
      ∧ bulkReads evs = n := by
  obtain ⟨evs, hrun, hcnt⟩ := readMemoryChunk_poll_accepts k dev T n resp hresp hshort hfull
    (n - 1) k.MAX_READ_CYCLES st pre htr (by omega) (by omega)
  have hne : ¬ k.MAX_READ_CYCLES - (n - 1) = 0 := by omega
  refine ⟨evs, ?_, by omega⟩
  simp only [readMemoryChunk_tail, bind_run, hrun, ite_run, if_neg hne, pure_run]

/-- Claim C31, refuted at chunk 512: the transport hands back 256 bytes to every bulk read,
so the first attempt would succeed, but it answers the extended-address command with the
byte 0x01; `readMemoryChunk` then throws `CommandException` without a single bulk read. -/
theorem readMemoryChunk_512_fails_before_polling :
    1 ≤ stdConsts.MAX_READ_CYCLES
    ∧ (∀ history, ((fixedDevice [0x01] (List.replicate 256 0x5a)).iso_read history 3 256).length
        = 256)
    ∧ (readMemoryChunk stdConsts 512 memory_t.FLASH
        (fixedDevice [0x01] (List.replicate 256 0x5a)) State.init).1
      = Except.error Error.CommandException
    ∧ bulkReads (newEvents State.init (readMemoryChunk stdConsts 512 memory_t.FLASH
        (fixedDevice [0x01] (List.replicate 256 0x5a)) State.init)) = 0 :=
  ⟨by decide, fun _ => by simp [fixedDevice], rfl, by decide⟩

/-- Claim C31, amended. For every attempt number `n` with `1 <= n <= MAX_READ_CYCLES`: if the
first `n - 1` bulk reads return a response whose length is not 256, the `n`-th returns the
256 bytes `resp`, and the extended-address command of chunk 512 (when that is the chunk) is
acknowledged by 0x00, then `readMemoryChunk` performs exactly `n` bulk reads and returns
`resp`; this includes `n = MAX_READ_CYCLES`, the last permitted attempt. -/
theorem readMemoryChunk_accepts_nth_response (k : Consts) (chunkNumber : Nat) (mem : memory_t)
    (dev : Device) (s : State) (n : Nat) (resp : List Nat)
    (hn1 : 1 ≤ n) (hn2 : n ≤ k.MAX_READ_CYCLES)
    (hext : chunkNumber = 512 →
      dev.int_read (s.trace ++ [Event.int_write 2 [0x0b, 0x01]]) 2 1 = [0x00])
    (hshort : ∀ evs, bulkReads evs < n - 1 →
      (dev.iso_read (s.trace ++ evs) 3 256).length ≠ 256)
    (hfull : ∀ evs, bulkReads evs = n - 1 → dev.iso_read (s.trace ++ evs) 3 256 = resp)
    (hresp : resp.length = 256) :
    (readMemoryChunk k chunkNumber mem dev s).1 = Except.ok resp
    ∧ bulkReads (newEvents s (readMemoryChunk k chunkNumber mem dev s)) = n := by
  rw [readMemoryChunk_run]
  by_cases h512 : chunkNumber = 512
  · simp only [if_pos h512, hext h512, if_true]
    obtain ⟨evs, hrun, hcnt⟩ := readMemoryChunk_tail_accepts k dev s.trace n resp hresp hshort
      hfull hn1 hn2
      { continuedWrite := s.continuedWrite,
        trace := s.trace ++ [Event.int_write 2 [0x0b, 0x01], Event.int_read 2 1 [0x00]]
          ++ [Event.int_write 2 (readCommand mem chunkNumber)],
        calls := s.calls ++ [Call.readMemoryChunk chunkNumber (decide (mem = memory_t.FLASH))] }
      ([Event.int_write 2 [0x0b, 0x01], Event.int_read 2 1 [0x00]]
        ++ [Event.int_write 2 (readCommand mem chunkNumber)])
      (by simp only [List.append_assoc]) rfl
    rw [hrun]
    refine ⟨rfl, ?_⟩
    rw [newEvents_eq s _ ([Event.int_write 2 [0x0b, 0x01], Event.int_read 2 1 [0x00]]
      ++ [Event.int_write 2 (readCommand mem chunkNumber)] ++ evs)
      (by simp only [List.append_assoc]), bulkReads_append, hcnt]
    simp [bulkReads]
  · simp only [if_neg h512]
    obtain ⟨evs, hrun, hcnt⟩ := readMemoryChunk_tail_accepts k dev s.trace n resp hresp hshort
      hfull hn1 hn2
      { continuedWrite := s.continuedWrite,
        trace := s.trace ++ [Event.int_write 2 (readCommand mem chunkNumber)],
        calls := s.calls
          ++ [Call.readMemoryChunk chunkNumber (decide (mem = memory_t.FLASH))] }
      [Event.int_write 2 (readCommand mem chunkNumber)] rfl rfl
    rw [hrun]
    refine ⟨rfl, ?_⟩
    rw [newEvents_eq s _ ([Event.int_write 2 (readCommand mem chunkNumber)] ++ evs)
      (by simp only [List.append_assoc]), bulkReads_append, hcnt]
    simp [bulkReads]

/-- Claim C31, amended, on the last permitted attempt: with a budget of 5 and a transport
whose first four bulk responses are empty and whose fifth is 256 bytes 0x5a, reading flash
chunk 3 makes exactly 5 bulk reads and returns the 256 bytes. -/
theorem readMemoryChunk_accepts_nth_response_witness :
    (1 ≤ 5 ∧ 5 ≤ stdConsts.MAX_READ_CYCLES)
    ∧ (readMemoryChunk stdConsts 3 memory_t.FLASH (lateDevice 4 (List.replicate 256 0x5a))
        State.init).1 = Except.ok (List.replicate 256 0x5a)
    ∧ bulkReads (newEvents State.init (readMemoryChunk stdConsts 3 memory_t.FLASH
        (lateDevice 4 (List.replicate 256 0x5a)) State.init)) = 5 :=
  ⟨⟨by decide, by decide⟩,
    readMemoryChunk_accepts_nth_response stdConsts 3 memory_t.FLASH
      (lateDevice 4 (List.replicate 256 0x5a)) State.init 5 (List.replicate 256 0x5a)
      (by decide) (by decide) (fun h => absurd h (by decide))
      (fun evs h => by
        have h4 : bulkReads evs < 4 := h
        simp [lateDevice, State.init, h4])
      (fun evs h => by
        have h4 : ¬ bulkReads evs < 4 := by
          have : bulkReads evs = 4 := h
          omega
        simp [lateDevice, State.init, h4])
      (by simp)⟩

/-- The values of `speedFormula` at the eight frequencies of the table in the documentation
comment of `setProgrammingSpeed`. -/
theorem speedFormula_table :
    speedFormula 1000000 = 98 ∧ speedFormula 2000000 = 34 ∧ speedFormula 4000000 = 12
    ∧ speedFormula 6000000 = 6 ∧ speedFormula 8000000 = 4 ∧ speedFormula 10000000 = 3
    ∧ speedFormula 12000000 = 2 ∧ speedFormula 16000000 = 1 := by
  refine ⟨?_, ?_, ?_, ?_, ?_, ?_, ?_, ?_⟩ <;> decide

/-- A value near the exact one is determined as soon as the exact value lies within 0.45 of
an integer `m`: the value is `m`. -/
theorem nearSpeedFormula_unique (f n m : Int) (hn : nearSpeedFormula f n)
    (hup : 9783 ^ 25 * 10 ^ 228 ≤ (100 * m + 45) ^ 25 * f ^ 38)
    (hdown : (100 * m - 45) ^ 25 * f ^ 38 ≤ 9783 ^ 25 * 10 ^ 228) : n = m := by
  obtain ⟨h1, h2⟩ := hn
  have hf : (0 : Int) ≤ f ^ 38 := Even.pow_nonneg (by decide) f
  have hodd : StrictMono (fun a : Int => a ^ 25) := Odd.strictMono_pow (by decide)
  by_contra hne
  rcases lt_or_gt_of_ne hne with h | h
  · have e1 : 100 * n + 55 ≤ 100 * m - 45 := by omega
    have e2 : (100 * n + 55) ^ 25 ≤ (100 * m - 45) ^ 25 := hodd.monotone e1
    have e3 := mul_le_mul_of_nonneg_right e2 hf
    exact absurd (lt_of_lt_of_le h2 (e3.trans hdown)) (lt_irrefl _)
  · have e1 : 100 * m + 45 ≤ 100 * n - 55 := by omega
    have e2 : (100 * m + 45) ^ 25 ≤ (100 * n - 55) ^ 25 := hodd.monotone e1
    have e3 := mul_le_mul_of_nonneg_right e2 hf
    exact absurd (lt_of_le_of_lt (hup.trans e3) h1) (lt_irrefl _)

/-- At the eight frequencies of the table, whatever is near the exact value of the expression
is the value of `speedFormula`: an evaluation of the expression whose error stays below 0.05,
as that in `double` does, rounds to the same number. -/
theorem nearSpeedFormula_table (n : Int) :
    (nearSpeedFormula 1000000 n → n = 98)
    ∧ (nearSpeedFormula 2000000 n → n = 34)
    ∧ (nearSpeedFormula 4000000 n → n = 12)
    ∧ (nearSpeedFormula 6000000 n → n = 6)
    ∧ (nearSpeedFormula 8000000 n → n = 4)
    ∧ (nearSpeedFormula 10000000 n → n = 3)
    ∧ (nearSpeedFormula 12000000 n → n = 2)
    ∧ (nearSpeedFormula 16000000 n → n = 1) :=
  ⟨fun h => nearSpeedFormula_unique 1000000 n 98 h (by norm_num) (by norm_num),
    fun h => nearSpeedFormula_unique 2000000 n 34 h (by norm_num) (by norm_num),
    fun h => nearSpeedFormula_unique 4000000 n 12 h (by norm_num) (by norm_num),
    fun h => nearSpeedFormula_unique 6000000 n 6 h (by norm_num) (by norm_num),
    fun h => nearSpeedFormula_unique 8000000 n 4 h (by norm_num) (by norm_num),
    fun h => nearSpeedFormula_unique 10000000 n 3 h (by norm_num) (by norm_num),
    fun h => nearSpeedFormula_unique 12000000 n 2 h (by norm_num) (by norm_num),
    fun h => nearSpeedFormula_unique 16000000 n 1 h (by norm_num) (by norm_num)⟩

/-- The value of `speedFormula` at the eight frequencies of the table is near the exact value
of the expression. -/
theorem speedFormula_near_table :
    nearSpeedFormula 1000000 (speedFormula 1000000)
    ∧ nearSpeedFormula 2000000 (speedFormula 2000000)
    ∧ nearSpeedFormula 4000000 (speedFormula 4000000)
    ∧ nearSpeedFormula 6000000 (speedFormula 6000000)
    ∧ nearSpeedFormula 8000000 (speedFormula 8000000)
    ∧ nearSpeedFormula 10000000 (speedFormula 10000000)
    ∧ nearSpeedFormula 12000000 (speedFormula 12000000)
    ∧ nearSpeedFormula 16000000 (speedFormula 16000000) := by
  simp only [speedFormula_table.1, speedFormula_table.2.1, speedFormula_table.2.2.1,
    speedFormula_table.2.2.2.1, speedFormula_table.2.2.2.2.1, speedFormula_table.2.2.2.2.2.1,
    speedFormula_table.2.2.2.2.2.2.1, speedFormula_table.2.2.2.2.2.2.2, nearSpeedFormula]
  norm_num

/-- The frame `setProgrammingSpeed` writes for a frequency of at least 256 at which the
formula gives a value `v` between 1 and 255: `05 v`. -/
theorem setProgrammingSpeed_formula_frame (formula : Int → Int) (f v : Int) (dev : Device)
    (s : State) (hf : 0x100 ≤ f) (hv : formula f = v) (h1 : 1 ≤ v) (h2 : v ≤ 255) :
    ∃ ack, newEvents s (setProgrammingSpeed formula f dev s)
      = [Event.int_write 2 [0x05, v.toNat], Event.int_read 2 1 ack] := by
  rw [setProgrammingSpeed_run]
  have e1 : (if f < 0x100 then f else formula f) = v := by
    rw [if_neg (by omega), hv]
  have e2 : (if v < 1 then 1 else v) = v := if_neg (by omega)
  have e3 : (if v > 0xff then 0xff else v) = v := if_neg (by omega)
  have e4 : v % 256 = v := Int.emod_eq_of_lt (by omega) (by omega)
  simp only [e1, e2, e3, e4]
  exact ⟨_, newEvents_eq _ _ _ rfl⟩

/-- The frames `setProgrammingSpeed` writes at the eight frequencies of the table, for every
evaluation of the formula that is near the exact value there (`speedFormula` is one, by
`speedFormula_near_table`). -/
theorem setProgrammingSpeed_table_of_near (formula : Int → Int) (dev : Device) (s : State)
    (h : ∀ f ∈ [1000000, 2000000, 4000000, 6000000, 8000000, 10000000, 12000000,
      (16000000 : Int)], nearSpeedFormula f (formula f)) :
    (∃ ack, newEvents s (setProgrammingSpeed formula 1000000 dev s)
      = [Event.int_write 2 [0x05, 0x62], Event.int_read 2 1 ack])
    ∧ (∃ ack, newEvents s (setProgrammingSpeed formula 2000000 dev s)
      = [Event.int_write 2 [0x05, 0x22], Event.int_read 2 1 ack])
    ∧ (∃ ack, newEvents s (setProgrammingSpeed formula 4000000 dev s)
      = [Event.int_write 2 [0x05, 0x0c], Event.int_read 2 1 ack])
    ∧ (∃ ack, newEvents s (setProgrammingSpeed formula 6000000 dev s)
      = [Event.int_write 2 [0x05, 0x06], Event.int_read 2 1 ack])
    ∧ (∃ ack, newEvents s (setProgrammingSpeed formula 8000000 dev s)
      = [Event.int_write 2 [0x05, 0x04], Event.int_read 2 1 ack])
    ∧ (∃ ack, newEvents s (setProgrammingSpeed formula 10000000 dev s)
      = [Event.int_write 2 [0x05, 0x03], Event.int_read 2 1 ack])
    ∧ (∃ ack, newEvents s (setProgrammingSpeed formula 12000000 dev s)
      = [Event.int_write 2 [0x05, 0x02], Event.int_read 2 1 ack])
    ∧ (∃ ack, newEvents s (setProgrammingSpeed formula 16000000 dev s)
      = [Event.int_write 2 [0x05, 0x01], Event.int_read 2 1 ack]) :=
  ⟨setProgrammingSpeed_formula_frame formula 1000000 98 dev s (by decide)
      ((nearSpeedFormula_table (formula 1000000)).1 (h 1000000 (by simp))) (by decide) (by decide),
    setProgrammingSpeed_formula_frame formula 2000000 34 dev s (by decide)
      ((nearSpeedFormula_table (formula 2000000)).2.1 (h 2000000 (by simp))) (by decide) (by decide),
    setProgrammingSpeed_formula_frame formula 4000000 12 dev s (by decide)
      ((nearSpeedFormula_table (formula 4000000)).2.2.1 (h 4000000 (by simp))) (by decide) (by decide),
    setProgrammingSpeed_formula_frame formula 6000000 6 dev s (by decide)
      ((nearSpeedFormula_table (formula 6000000)).2.2.2.1 (h 6000000 (by simp))) (by decide) (by decide),
    setProgrammingSpeed_formula_frame formula 8000000 4 dev s (by decide)
      ((nearSpeedFormula_table (formula 8000000)).2.2.2.2.1 (h 8000000 (by simp))) (by decide) (by decide),
    setProgrammingSpeed_formula_frame formula 10000000 3 dev s (by decide)
      ((nearSpeedFormula_table (formula 10000000)).2.2.2.2.2.1 (h 10000000 (by simp))) (by decide) (by decide),
    setProgrammingSpeed_formula_frame formula 12000000 2 dev s (by decide)
      ((nearSpeedFormula_table (formula 12000000)).2.2.2.2.2.2.1 (h 12000000 (by simp))) (by decide) (by decide),
    setProgrammingSpeed_formula_frame formula 16000000 1 dev s (by decide)
      ((nearSpeedFormula_table (formula 16000000)).2.2.2.2.2.2.2 (h 16000000 (by simp))) (by decide) (by decide)⟩

/-- Claim C29, refuted at 1 MHz: the formula gives 98 there, so the frame written is `05 62`,
whereas the table in the documentation comment lists `4b` for 1 MHz. -/
theorem setProgrammingSpeed_1MHz_writes_62_not_4b :
    newEvents State.init (setProgrammingSpeed speedFormula 1000000 okDevice State.init)
      = [Event.int_write 2 [0x05, 0x62], Event.int_read 2 1 [0x00]]
    ∧ newEvents State.init (setProgrammingSpeed speedFormula 1000000 okDevice State.init)
      ≠ [Event.int_write 2 [0x05, 0x4b], Event.int_read 2 1 [0x00]] := by
  constructor <;> decide

/-- Claim C29, amended. With the speed computed as
`round(97.83 * (frequency / 1000000) ^ (-1.52))` clamped to the range from 1 to 255,
`setProgrammingSpeed` maps the frequencies 1, 2, 4, 6, 8, 10, 12 and 16 MHz, given in Hz, to
the speed bytes 0x62, 0x22, 0x0c, 0x06, 0x04, 0x03, 0x02 and 0x01; the table in the
documentation comment is matched at 10, 12 and 16 MHz only. -/
theorem setProgrammingSpeed_frequency_table (dev : Device) (s : State) :
    (∃ ack, newEvents s (setProgrammingSpeed speedFormula 1000000 dev s)
      = [Event.int_write 2 [0x05, 0x62], Event.int_read 2 1 ack])
    ∧ (∃ ack, newEvents s (setProgrammingSpeed speedFormula 2000000 dev s)
      = [Event.int_write 2 [0x05, 0x22], Event.int_read 2 1 ack])
    ∧ (∃ ack, newEvents s (setProgrammingSpeed speedFormula 4000000 dev s)
      = [Event.int_write 2 [0x05, 0x0c], Event.int_read 2 1 ack])
    ∧ (∃ ack, newEvents s (setProgrammingSpeed speedFormula 6000000 dev s)
      = [Event.int_write 2 [0x05, 0x06], Event.int_read 2 1 ack])
    ∧ (∃ ack, newEvents s (setProgrammingSpeed speedFormula 8000000 dev s)
      = [Event.int_write 2 [0x05, 0x04], Event.int_read 2 1 ack])
    ∧ (∃ ack, newEvents s (setProgrammingSpeed speedFormula 10000000 dev s)
      = [Event.int_write 2 [0x05, 0x03], Event.int_read 2 1 ack])
    ∧ (∃ ack, newEvents s (setProgrammingSpeed speedFormula 12000000 dev s)
      = [Event.int_write 2 [0x05, 0x02], Event.int_read 2 1 ack])
    ∧ (∃ ack, newEvents s (setProgrammingSpeed speedFormula 16000000 dev s)
      = [Event.int_write 2 [0x05, 0x01], Event.int_read 2 1 ack]) :=
  ⟨setProgrammingSpeed_formula_frame speedFormula 1000000 98 dev s (by decide)
      speedFormula_table.1 (by decide) (by decide),
    setProgrammingSpeed_formula_frame speedFormula 2000000 34 dev s (by decide)
      speedFormula_table.2.1 (by decide) (by decide),
    setProgrammingSpeed_formula_frame speedFormula 4000000 12 dev s (by decide)
      speedFormula_table.2.2.1 (by decide) (by decide),
    setProgrammingSpeed_formula_frame speedFormula 6000000 6 dev s (by decide)
      speedFormula_table.2.2.2.1 (by decide) (by decide),
    setProgrammingSpeed_formula_frame speedFormula 8000000 4 dev s (by decide)
      speedFormula_table.2.2.2.2.1 (by decide) (by decide),
    setProgrammingSpeed_formula_frame speedFormula 10000000 3 dev s (by decide)
      speedFormula_table.2.2.2.2.2.1 (by decide) (by decide),
    setProgrammingSpeed_formula_frame speedFormula 12000000 2 dev s (by decide)
      speedFormula_table.2.2.2.2.2.2.1 (by decide) (by decide),
    setProgrammingSpeed_formula_frame speedFormula 16000000 1 dev s (by decide)
      speedFormula_table.2.2.2.2.2.2.2 (by decide) (by decide)⟩

end AvrProg
